import Mathlib

/-!
# Vidya Kunj fee management: the browser script `static/script.js`

A shallow embedding of the parts of `static/script.js` that carry logic:
the pasted-table parser `parsePastedData`, the month sort key `parseMonth`
and the sort of `showStudentProfile`, the selection sets with
`toggleMonthTag` and `toggleStudent`, the request sequence of
`performSearch`, the loaders, the modals and the submits with their
requests and toasts, and the debounce of `autoSearch`.

Conventions of the embedding.

* A script string is a list of characters (`Str`).  The script only cuts
  strings at single characters of the Basic Multilingual Plane and compares
  them for equality, which reads the same on characters as on UTF-16 code
  units; `String.prototype.length`, which counts code units, is `jsLength`.
* An array is a list; `push` appends at the end.
* A `Set` of strings is the list of its members in insertion order.
* A number of the script is a double.  Every number the embedded code
  computes is an integer, an infinity or `NaN`: a double that is an integer
  is the integer it equals (`Int`), `Infinity` is `infinity` (the integer
  `2 ^ 1024`, above every double), and `NaN` is `none` of `Num`.  The
  numbers read from data, which are those of `parseInt`, `parseMonth` and
  the sort comparator, are rounded to the nearest double by `toDouble` after
  each operation, which changes nothing below `2 ^ 53` in magnitude; the
  other numbers are counts, indices and times in milliseconds.
* A value that may be `undefined` or `null` is an `Option`, where the script
  treats the two alike; `father_name` of a profile, which a template literal
  turns into text, is a `Field`, where they stay apart.
-/

namespace VidyaKunj

/-! ## Strings -/

/-- A script string, as the list of its characters. -/
abbrev Str := List Char

/-- The characters removed by `String.prototype.trim` and skipped by
`parseInt`: the white space and line terminator characters of ECMAScript. -/
def isWhiteSpace (c : Char) : Bool :=
  c.toNat = 0x09 || c.toNat = 0x0A || c.toNat = 0x0B || c.toNat = 0x0C ||
  c.toNat = 0x0D || c.toNat = 0x20 || c.toNat = 0xA0 || c.toNat = 0x1680 ||
  (0x2000 ≤ c.toNat && c.toNat ≤ 0x200A) || c.toNat = 0x2028 ||
  c.toNat = 0x2029 || c.toNat = 0x202F || c.toNat = 0x205F ||
  c.toNat = 0x3000 || c.toNat = 0xFEFF

/-- The method `s.trim()`: white space removed at both ends. -/
def trim (s : Str) : Str :=
  (s.dropWhile isWhiteSpace).rdropWhile isWhiteSpace

/-- The method `s.split(sep)` for a one-character separator: the pieces between the
occurrences of `sep`; the empty string gives one empty piece. -/
def split (sep : Char) : Str → List Str
  | [] => [[]]
  | c :: cs =>
    if c = sep then [] :: split sep cs
    else
      match split sep cs with
      | [] => [[c]]
      | w :: ws => (c :: w) :: ws

/-- The method `s.toLowerCase()` on the letters `A`–`Z`.  The script compares the
lowered string only with the literals `'student name'`, `'name'` and
`'paid'`, and no character outside `A`–`Z` is lowered to one of their
letters, so the comparison is decided by this mapping. -/
def toLowerCase (s : Str) : Str := s.map Char.toLower

/-- The upper case of one character.  The letters `a`–`z` go to `A`–`Z`;
the characters outside ASCII whose upper case holds a letter of ASCII are
listed with it: sharp s gives `SS`, dotless i gives `I`, long s gives `S`,
the ligatures `U+FB00`–`U+FB06` give their letters, and six letters give a
letter of ASCII with a mark.  Every other character is kept: the script maps
some of them to other characters outside ASCII, and `performSearch` only
asks whether the result starts with `RCP` and whether it matches
`/^[A-Z]*\d+/`, which reads all characters outside ASCII alike. -/
def upperChar (c : Char) : Str :=
  if c.toNat = 0xDF then ['S', 'S']
  else if c.toNat = 0x131 then ['I']
  else if c.toNat = 0x17F then ['S']
  else if c.toNat = 0x149 then [Char.ofNat 0x2BC, 'N']
  else if c.toNat = 0x1F0 then ['J', Char.ofNat 0x30C]
  else if c.toNat = 0x1E96 then ['H', Char.ofNat 0x331]
  else if c.toNat = 0x1E97 then ['T', Char.ofNat 0x308]
  else if c.toNat = 0x1E98 then ['W', Char.ofNat 0x30A]
  else if c.toNat = 0x1E99 then ['Y', Char.ofNat 0x30A]
  else if c.toNat = 0x1E9A then ['A', Char.ofNat 0x2BE]
  else if c.toNat = 0xFB00 then ['F', 'F']
  else if c.toNat = 0xFB01 then ['F', 'I']
  else if c.toNat = 0xFB02 then ['F', 'L']
  else if c.toNat = 0xFB03 then ['F', 'F', 'I']
  else if c.toNat = 0xFB04 then ['F', 'F', 'L']
  else if c.toNat = 0xFB05 then ['S', 'T']
  else if c.toNat = 0xFB06 then ['S', 'T']
  else [c.toUpper]

/-- The method `s.toUpperCase()`: every character is replaced by its upper case. -/
def toUpperCase (s : Str) : Str := s.flatMap upperChar

/-- The property `s.length`: the number of UTF-16 code units of the string. -/
def jsLength (s : Str) : Nat :=
  (s.map (fun c => if c.toNat < 0x10000 then 1 else 2)).sum

/-- Truthiness of a string: the empty string is the only falsy one. -/
def truthy (s : Str) : Bool := !s.isEmpty

/-! ## `parsePastedData` (script.js, lines 953–976) -/

/-- The object literal `{name, father}` pushed by `parsePastedData`. -/
structure Student where
  name : Str
  father : Str
deriving DecidableEq, Repr

/-- The array `parts` of one pass of the loop: the line is split on tabs
when it includes a tab and on commas otherwise, then every part is trimmed
and the empty parts are filtered out. -/
def lineParts (line : Str) : List Str :=
  let parts := if '\t' ∈ line then split '\t' line else split ',' line
  (parts.map trim).filter truthy

/-- The header test
`parts[0] && (parts[0].toLowerCase() === 'student name' ||
parts[0].toLowerCase() === 'name')`. -/
def isHeaderParts (parts : List Str) : Bool :=
  match parts.head? with
  | none => false
  | some p0 =>
    truthy p0 &&
      (toLowerCase p0 == "student name".toList || toLowerCase p0 == "name".toList)

/-- One pass of the `for` loop over `lines`, acting on the array
`students`: a header line is skipped by `continue`, a line with at least
two parts pushes one object, any other line pushes nothing. -/
def parseStep (students : List Student) (line : Str) : List Student :=
  let parts := lineParts line
  if isHeaderParts parts then students
  else if 2 ≤ parts.length then
    students ++ [{ name := parts.getD 0 [], father := parts.getD 1 [] }]
  else students

/-- The function `parsePastedData(data)`. -/
def parsePastedData (data : Str) : List Student :=
  let lines := (split '\n' data).filter (fun line => truthy (trim line))
  lines.foldl parseStep []

/-- Lines joined by newline characters: the text whose rows are `rows`. -/
def joinLines (rows : List Str) : Str := List.intercalate ['\n'] rows

/-! ## Numbers -/

/-- A script number that may be `NaN`: `none` is `NaN`.  A number that is
not `NaN` is an integer that a double holds, or `infinity` or `-infinity`. -/
abbrev Num := Option Int

/-- The number `Infinity`: the integer `2 ^ 1024`, which is above every
double and is what the largest doubles round up to. -/
def infinity : Int := ((2 ^ 1024 : Nat) : Int)

/-- The number of halvings that bring `n` below `2 ^ 53`, at most `fuel` of
them: for `n` from `2 ^ 53` up to `2 ^ (53 + fuel)` this is the exponent `e`
for which the doubles around `n` are the multiples of `2 ^ e`. -/
def ulpExponent : Nat → Nat → Nat
  | 0, _ => 0
  | fuel + 1, n => if n < 2 ^ 53 then 0 else ulpExponent fuel (n / 2) + 1

/-- The double nearest to the natural number `n`.  Below `2 ^ 53` every
integer is a double.  From `2 ^ 1024` on the result is `Infinity`.  Between
the two, `n` lies between the neighbouring doubles `q * 2 ^ e` and
`(q + 1) * 2 ^ e`, with `q` of 53 bits; the nearer one is taken, and the
one with the even `q` when `n` is half way.  The largest `q` rounds up to
`2 ^ 1024`, that is, to `Infinity`. -/
def roundNat (n : Nat) : Nat :=
  if n < 2 ^ 53 then n
  else if 2 ^ 1024 ≤ n then 2 ^ 1024
  else
    let e := ulpExponent 971 n
    let q := n / 2 ^ e
    let r := n % 2 ^ e
    (if 2 ^ e < 2 * r ∨ (2 * r = 2 ^ e ∧ q % 2 = 1) then q + 1 else q) * 2 ^ e

/-- The number that the script holds for the exact integer `n`: the nearest
double (round to nearest, ties to even), the same way on both sides of
zero.  An operand `infinity` makes the exact result at least
`2 ^ 1024 - 11` in the operations below, which rounds to `infinity` as the
script has it. -/
def toDouble (n : Int) : Int :=
  if n < 0 then -(roundNat n.natAbs : Int) else (roundNat n.natAbs : Int)

/-- The difference `x - y` of two numbers that are not `NaN`: `NaN` for an
infinity minus itself, the infinite operand decides otherwise, and two
finite numbers give the double nearest to the exact difference. -/
def subNumber (x y : Int) : Num :=
  if x = infinity ∨ x = -infinity then
    if y = x then none else some x
  else if y = infinity ∨ y = -infinity then some (-y)
  else some (toDouble (x - y))

/-- The expression `a || b` on numbers: `b` when `a` is `NaN` or zero, `a`
otherwise. -/
def numOr (a : Num) (b : Int) : Int :=
  match a with
  | none => b
  | some n => if n = 0 then b else n

/-- The value of a character as a digit, for the radices up to 36. -/
def digitValue (c : Char) : Option Nat :=
  if 48 ≤ c.toNat ∧ c.toNat ≤ 57 then some (c.toNat - 48)
  else if 97 ≤ c.toNat ∧ c.toNat ≤ 122 then some (c.toNat - 97 + 10)
  else if 65 ≤ c.toNat ∧ c.toNat ≤ 90 then some (c.toNat - 65 + 10)
  else none

/-- Whether `c` is a digit of radix `r`. -/
def isRadixDigit (r : Nat) (c : Char) : Bool :=
  match digitValue c with
  | some d => decide (d < r)
  | none => false

/-- A decimal digit, `0` to `9`: the class `\d` of a regular expression. -/
def isDecimalDigit (c : Char) : Bool := isRadixDigit 10 c

/-- The sign step of `parseInt`: a leading `-` or `+` is read and removed. -/
def readSign (s : Str) : Int × Str :=
  match s with
  | '-' :: rest => (-1, rest)
  | '+' :: rest => (1, rest)
  | _ => (1, s)

/-- The radix step of `parseInt` with no radix argument: a prefix `0x` or
`0X` is removed and selects radix 16, anything else is read in radix 10. -/
def readRadix (s : Str) : Nat × Str :=
  match s with
  | '0' :: 'x' :: rest => (16, rest)
  | '0' :: 'X' :: rest => (16, rest)
  | _ => (10, s)

/-- The integer written by the digits `z` in radix `r`. -/
def digitsValue (r : Nat) (z : Str) : Nat :=
  z.foldl (fun acc c => acc * r + (digitValue c).getD 0) 0

/-- The function `parseInt(s)` with no radix argument: leading white space
is skipped, the sign and the radix prefix are read, and the longest run of
digits of the radix is the value, as the nearest double; with no digit the
result is `NaN`.  The language lets an implementation approximate a decimal
run of more than twenty significant digits; the nearest double is taken for
those too.  The result `-0` is `0` here; both are falsy. -/
def parseInt (s : Str) : Num :=
  let signed := readSign (s.dropWhile isWhiteSpace)
  let based := readRadix signed.2
  let z := based.2.takeWhile (isRadixDigit based.1)
  if z.isEmpty then none else some (toDouble (signed.1 * (digitsValue based.1 z : Int)))

/-- The call `parseInt(x)` for an `x` that may be `undefined`: the argument
is first turned into a string, and `undefined` is the string `undefined`. -/
def parseIntOf (x : Option Str) : Num :=
  match x with
  | some s => parseInt s
  | none => parseInt "undefined".toList

/-- The method `arr.indexOf(x)`: the index of the first element equal to
`x`, and `-1` when there is none (in particular when `x` is `undefined`). -/
def indexOf (arr : List Str) (x : Option Str) : Int :=
  match x with
  | none => -1
  | some s =>
    match arr.findIdx? (fun a => decide (a = s)) with
    | some i => (i : Int)
    | none => -1

/-! ## The month helpers (script.js, lines 24–36) and `parseMonth`
(lines 361–369) -/

/-- The array `monthNames` of the sort comparator, the same twelve names as
`months` in `getMonthOptions`. -/
def monthNames : List Str :=
  ["January".toList, "February".toList, "March".toList, "April".toList,
   "May".toList, "June".toList, "July".toList, "August".toList,
   "September".toList, "October".toList, "November".toList, "December".toList]

/-- The local `monthIdx` of `parseMonth`:
`monthNames.indexOf(parts[0]) || 0`. -/
def monthIdx (part0 : Option Str) : Int :=
  numOr (some (indexOf monthNames part0)) 0

/-- The local `year` of `parseMonth`: `parseInt(parts[1]) || 2026`. -/
def yearOf (part1 : Option Str) : Int :=
  numOr (parseIntOf part1) 2026

/-- The arrow function `parseMonth(monthStr)`; the argument is `none` when
the record has no `Month` (or a `null` one).  The product and the sum are
each rounded to a double. -/
def parseMonth (monthStr : Option Str) : Int :=
  let parts := split ' ' (match monthStr with
    | some s => if truthy s then s else []
    | none => [])
  let monthIdx := monthIdx parts[0]?
  let year := yearOf parts[1]?
  toDouble (toDouble (year * 12) + monthIdx)

/-- The label `<name> <year>`, the year written in decimal. -/
def monthLabel (name : Str) (year : Nat) : Str :=
  name ++ ' ' :: (Nat.repr year).toList

/-- Spec wording, "begins with an integer": after leading white space, an
optional sign and then a decimal digit. -/
def beginsWithInteger (w : Str) : Bool :=
  match w.dropWhile isWhiteSpace with
  | [] => false
  | c :: rest =>
    if c = '-' ∨ c = '+' then
      match rest with
      | [] => false
      | d :: _ => isDecimalDigit d
    else isDecimalDigit c

/-! ## Records and `showStudentProfile` (script.js, lines 330–392) -/

/-- One fee record as the server sends it; a field is `none` when the
object has no such key. -/
structure FeeRecord where
  studentId : Option Str
  studentName : Option Str
  fatherName : Option Str
  mobileNumber : Option Str
  month : Option Str
  feeStatus : Option Str
  receiptNumber : Option Str
deriving DecidableEq, Repr

/-- The comparator of the sort:
`parseMonth(b['Month']) - parseMonth(a['Month'])`. -/
def compareMonths (a b : FeeRecord) : Num :=
  subNumber (parseMonth b.month) (parseMonth a.month)

/-- The method `arr.sort(comparefn)` on a copy of `arr`: the stable sort that puts `a`
before `b` when `comparefn(a, b)` is negative and keeps the input order of
two elements that compare as zero; a comparator value `NaN` is read as
zero. -/
def sortBy (comparefn : FeeRecord → FeeRecord → Num) (arr : List FeeRecord) :
    List FeeRecord :=
  arr.mergeSort (fun a b =>
    match comparefn a b with
    | none => true
    | some v => decide (v ≤ 0))

/-- A string property of a parsed response that may be missing
(`undefined`) or `null`. -/
inductive Field where
  | undefined : Field
  | null : Field
  | string (s : Str) : Field
deriving DecidableEq, Repr

/-- The text that a template literal writes for `${x}`. -/
def Field.text (x : Field) : Str :=
  match x with
  | Field.undefined => "undefined".toList
  | Field.null => "null".toList
  | Field.string s => s

/-- The body `student` of a profile response. -/
structure StudentSummary where
  name : Str
  fatherName : Field
  totalMonths : Int
  paidMonths : Int
  unpaidMonths : Int
deriving DecidableEq, Repr

/-- The argument `data` of `showStudentProfile`. -/
structure ProfileData where
  student : StudentSummary
  records : List FeeRecord
deriving DecidableEq, Repr

/-- One row of the payment history table `profileRecords`. -/
structure ProfileRow where
  month : Str
  isPaid : Bool
  receiptNumber : Option Str
deriving DecidableEq, Repr

/-- The row rendered for one record: `record['Month'] || ''`, whether
`record['Fee Status']?.toLowerCase() === 'paid'`, and the receipt number
when it is truthy. -/
def profileRow (record : FeeRecord) : ProfileRow :=
  { month := record.month.getD []
    isPaid := (record.feeStatus.map toLowerCase) == some "paid".toList
    receiptNumber := record.receiptNumber.filter truthy }

/-- What `showStudentProfile(data)` leaves behind: the array `data.records`
after the call, the local array `sortedRecords`, the rows written to
`profileRecords`, the value written to `currentProfileKey`, and the modal
that is shown. -/
structure ProfileView where
  records : List FeeRecord
  sortedRecords : List FeeRecord
  rows : List ProfileRow
  currentProfileKey : Str
  modal : Str
deriving DecidableEq, Repr

/-- The function `showStudentProfile(data)`.  The sort works on the copy
`[...data.records]`, so `data.records` keeps its order. -/
def showStudentProfile (data : ProfileData) : ProfileView :=
  let sortedRecords := sortBy compareMonths data.records
  { records := data.records
    sortedRecords := sortedRecords
    rows := sortedRecords.map profileRow
    currentProfileKey := data.student.name ++ '_' :: data.student.fatherName.text
    modal := "profileModal".toList }

/-! ## Selection sets and the module state (script.js, lines 9, 39–40,
839–840) -/

/-- The method `set.has(x)` on a `Set` of strings. -/
def setHas (set : List Str) (x : Str) : Bool := decide (x ∈ set)

/-- The method `set.delete(x)`. -/
def setDelete (set : List Str) (x : Str) : List Str := set.filter (fun y => y != x)

/-- The method `set.add(x)`: a new member goes to the end of the insertion order. -/
def setAdd (set : List Str) (x : Str) : List Str := if x ∈ set then set else set ++ [x]

/-- The branch `if (set.has(x)) set.delete(x) else set.add(x)` shared by
`toggleMonthTag` and `toggleStudent`. -/
def setToggle (set : List Str) (x : Str) : List Str :=
  if setHas set x then setDelete set x else setAdd set x

/-- One entry of `allUniqueStudents`. -/
structure UniqueStudent where
  name : Str
  father : Str
  studentId : Option Str
  mobile : Option Str
deriving DecidableEq, Repr

/-- One `span.month-tag` written by `renderMonthTags`. -/
structure MonthTag where
  month : Str
  selected : Bool
deriving DecidableEq, Repr

/-- One `div.student-chip` written by `updateSelectedChips`: the first two
pieces of the key cut at underscores. -/
structure Chip where
  name : Option Str
  father : Option Str
deriving DecidableEq, Repr

/-- The module-level variables of the script and the parts of the page that
the selection functions redraw.  `allStudents` and `allUniqueStudents` are
`none` when the variable holds `undefined` instead of an array, which is
what the assignment from a response without that array leaves.
`monthTags id` is the content of the element with that id, `none` when the
page has no such element; `countBadge` is the text of `.count-badge`,
`none` when there is none. -/
structure State where
  allStudents : Option (List FeeRecord)
  allUniqueStudents : Option (List UniqueStudent)
  selectedBulkMonths : List Str
  selectedAddMonths : List Str
  selectedStudentsSet : List Str
  monthTags : Str → Option (List MonthTag)
  selectedChips : List Chip
  countBadge : Option Nat

/-- The function `getMonthOptions()`. -/
def getMonthOptions : List Str :=
  monthNames.map (fun m => m ++ " 2026".toList)

/-- The function `get2026Months()`. -/
def get2026Months : List Str :=
  ["January 2026".toList, "February 2026".toList, "March 2026".toList,
   "April 2026".toList, "May 2026".toList, "June 2026".toList,
   "July 2026".toList, "August 2026".toList, "September 2026".toList,
   "October 2026".toList, "November 2026".toList, "December 2026".toList]

/-- The choice
`containerId === 'bulkMonthTags' ? selectedBulkMonths : selectedAddMonths`. -/
def selectedSetOf (containerId : Str) (s : State) : List Str :=
  if containerId = "bulkMonthTags".toList then s.selectedBulkMonths else s.selectedAddMonths

/-- The function `renderMonthTags(containerId)`: nothing when the page has
no such container, else one tag for each month of `get2026Months()`. -/
def renderMonthTags (containerId : Str) (s : State) : State :=
  match s.monthTags containerId with
  | none => s
  | some _ =>
    let selectedSet := selectedSetOf containerId s
    let tags := get2026Months.map (fun month =>
      { month := month, selected := setHas selectedSet month : MonthTag })
    { s with monthTags := Function.update s.monthTags containerId (some tags) }

/-- The function `toggleMonthTag(containerId, month)`. -/
def toggleMonthTag (containerId month : Str) (s : State) : State :=
  let s1 : State :=
    if containerId = "bulkMonthTags".toList then
      { s with selectedBulkMonths := setToggle s.selectedBulkMonths month }
    else
      { s with selectedAddMonths := setToggle s.selectedAddMonths month }
  renderMonthTags containerId s1

/-- The function `updateSelectedChips()`. -/
def updateSelectedChips (s : State) : State :=
  { s with selectedChips := s.selectedStudentsSet.map (fun key =>
      { name := (split '_' key)[0]?, father := (split '_' key)[1]? : Chip }) }

/-- The function `updateSelectedCount()`. -/
def updateSelectedCount (s : State) : State :=
  match s.countBadge with
  | none => s
  | some _ => { s with countBadge := some s.selectedStudentsSet.length }

/-- The function `toggleStudent(name, father)`.  Its last step,
`showSuggestions(query)`, redraws the suggestion list from
`allUniqueStudents` and the search box and writes no variable of the
state. -/
def toggleStudent (name father : Str) (s : State) : State :=
  let key := name ++ '_' :: father
  let s1 : State := { s with selectedStudentsSet := setToggle s.selectedStudentsSet key }
  updateSelectedCount (updateSelectedChips s1)

/-! ## `performSearch` (script.js, lines 226–267) -/

/-- The outcome of `fetch(url)` followed by `response.json()`: `failed` when
either rejects (no answer, or a body that is not JSON). -/
inductive Fetched (α : Type) where
  | failed : Fetched α
  | json (body : α) : Fetched α

/-- The object `summary` of the response of `/api/summary`. -/
structure Summary where
  total : Option Int
  paid : Option Int
  unpaid : Option Int
  months : List (Option Str)
deriving DecidableEq, Repr

/-- A response body as the script reads it.  `profile` is `none` when the
body lacks a well-formed `student` and `records`, in which case
`showStudentProfile` throws before it shows the modal; `data` is `none`
when the body has no array `data`, in which case `renderTable` throws;
`error`, `students`, `summary`, `added` and `updated` are `none` when the
body has no such key. -/
structure Body where
  success : Bool
  profile : Option ProfileData
  data : Option (List FeeRecord)
  total : Option Int
  error : Option Str
  students : Option (List UniqueStudent)
  summary : Option Summary
  added : Option Int
  updated : Option Int

/-- The server as the script sees it: the outcome of a `GET` of each URL. -/
abbrev Server := Str → Fetched Body

/-- The object `data` posted by `addRecord`. -/
structure AddData where
  student_id : Str
  student_name : Str
  father_name : Str
  mobile_number : Str
  month : Str
  fee_status : Str
  receipt_number : Str
deriving DecidableEq, Repr

/-- The object `data` posted by `updateRecord`. -/
structure UpdateData where
  student_name : Str
  father_name : Str
  month : Str
  fee_status : Str
  receipt_number : Str
deriving DecidableEq, Repr

/-- The object posted by `deleteRecord`. -/
structure DeleteData where
  student_name : Str
  father_name : Str
  month : Str
deriving DecidableEq, Repr

/-- The object `updateData` posted by `saveProfileEdit`. -/
structure ProfileUpdate where
  original_name : Str
  original_father : Str
  student_id : Str
  student_name : Str
  father_name : Str
  mobile_number : Str
deriving DecidableEq, Repr

/-- The JSON body of a `POST`: the object of one of the forms, or
`{ records }` for `/api/bulk-add`. -/
inductive Payload where
  | add (data : AddData) : Payload
  | update (data : UpdateData) : Payload
  | delete (data : DeleteData) : Payload
  | profile (updateData : ProfileUpdate) : Payload
  | records (records : List FeeRecord) : Payload
deriving DecidableEq

/-- What a function of the script does that can be seen from outside, in
order: the requests it sends, the toasts, the console errors, the table and
the modals it draws, and the asynchronous functions it starts without
waiting for them (`loadStudents`, `loadSummary`, `loadUniqueStudents`,
`openStudentProfile`).  `uncaught` is an exception that leaves the function.
Writes to form fields, drop-down options and listeners are not recorded. -/
inductive Effect where
  | fetch (url : Str) : Effect
  | showStudentProfile (view : ProfileView) : Effect
  | renderTable (students : List FeeRecord) : Effect
  | updateRecordCount (count : Option Int) : Effect
  | consoleError (message : Str) : Effect
  | post (url : Str) (payload : Payload) : Effect
  | showToast (message type : Str) : Effect
  | showModal (modalId : Str) : Effect
  | hideModal (modalId : Str) : Effect
  | renderSummary (summary : Summary) : Effect
  | loadStudents : Effect
  | loadSummary : Effect
  | loadUniqueStudents : Effect
  | openStudentProfile (studentKey : Str) : Effect
  | uncaught : Effect
deriving DecidableEq

/-- The letters and digits of ASCII. -/
def isAsciiAlnum (c : Char) : Bool :=
  (48 ≤ c.toNat && c.toNat ≤ 57) || (65 ≤ c.toNat && c.toNat ≤ 90) ||
  (97 ≤ c.toNat && c.toNat ≤ 122)

/-- The hexadecimal digit of a number below 16, in upper case. -/
def hexDigit (n : Nat) : Char :=
  if n < 10 then Char.ofNat (48 + n) else Char.ofNat (55 + n)

/-- The bytes of the UTF-8 encoding of a character. -/
def utf8Bytes (c : Char) : List Nat :=
  let n := c.toNat
  if n < 0x80 then [n]
  else if n < 0x800 then [0xC0 + n / 64, 0x80 + n % 64]
  else if n < 0x10000 then [0xE0 + n / 4096, 0x80 + n / 64 % 64, 0x80 + n % 64]
  else [0xF0 + n / 262144, 0x80 + n / 4096 % 64, 0x80 + n / 64 % 64, 0x80 + n % 64]

/-- The percent escapes of a character: `%XX` for each byte of its UTF-8
encoding. -/
def percentEncode (c : Char) : Str :=
  (utf8Bytes c).flatMap (fun b => ['%', hexDigit (b / 16), hexDigit (b % 16)])

/-- The function `encodeURIComponent(s)`: letters, digits, the apostrophe
and `- _ . ! ~ * ( )` are kept, every other character is percent-escaped. -/
def encodeURIComponent (s : Str) : Str :=
  s.flatMap (fun c =>
    if isAsciiAlnum c || c ∈ ['-', '_', '.', '!', '~', '*', Char.ofNat 39, '(', ')'] then [c]
    else percentEncode c)

/-- The form encoding of `URLSearchParams`: a space is `+`, letters, digits
and `* - . _` are kept, every other character is percent-escaped. -/
def formEncode (s : Str) : Str :=
  s.flatMap (fun c =>
    if c = ' ' then ['+']
    else if isAsciiAlnum c || c ∈ ['*', '-', '.', '_'] then [c]
    else percentEncode c)

/-- The string `params.toString()` for the appended pairs `params`. -/
def paramsToString (params : List (Str × Str)) : Str :=
  List.intercalate ['&'] (params.map (fun p => formEncode p.1 ++ '=' :: formEncode p.2))

/-- A letter of ASCII, in either case: `toUpperCase` sends each of them to
one letter of `A`–`Z`. -/
def isAsciiLetter (c : Char) : Bool :=
  (65 ≤ c.toNat && c.toNat ≤ 90) || (97 ≤ c.toNat && c.toNat ≤ 122)

/-- The test `/^[A-Z]*\d+/.test(s)`: after the leading run of letters `A`–`Z` comes a
digit. -/
def receiptPattern (s : Str) : Bool :=
  match s.dropWhile (fun c => decide (65 ≤ c.toNat ∧ c.toNat ≤ 90)) with
  | [] => false
  | c :: _ => isDecimalDigit c

/-- The local `isReceiptSearch` of `performSearch`. -/
def isReceiptSearch (query : Str) : Bool :=
  "RCP".toList.isPrefixOf (toUpperCase query) ||
    (decide (3 < jsLength query) && receiptPattern (toUpperCase query))

/-- The URL of the receipt lookup. -/
def lookupUrl (query : Str) : Str :=
  "/api/student/".toList ++ encodeURIComponent query

/-- The URL of the regular search: the parameters are the truthy ones of
`query`, `month` and `status`, in this order. -/
def searchUrl (query month status : Str) : Str :=
  "/api/search?".toList ++ paramsToString
    ((if truthy query then [("query".toList, query)] else []) ++
     (if truthy month then [("month".toList, month)] else []) ++
     (if truthy status then [("status".toList, status)] else []))

/-- The block `// Regular search` of `performSearch`. -/
def regularSearch (query month status : Str) (server : Server) : List Effect :=
  Effect.fetch (searchUrl query month status) ::
    (match server (searchUrl query month status) with
     | Fetched.failed => [Effect.consoleError "Error searching:".toList]
     | Fetched.json data =>
       if data.success then
         match data.data with
         | some students => [Effect.renderTable students, Effect.updateRecordCount data.total]
         | none => [Effect.consoleError "Error searching:".toList]
       else [])

/-- The function `performSearch()`, given the values of `searchInput`,
`monthFilter` and `statusFilter` and the server.  A lookup that rejects, or
whose `showStudentProfile` throws, is swallowed by the empty `catch` and
the regular search follows. -/
def performSearch (searchInput month status : Str) (server : Server) : List Effect :=
  let query := trim searchInput
  if isReceiptSearch query && decide (4 ≤ jsLength query) then
    Effect.fetch (lookupUrl query) ::
      (match server (lookupUrl query) with
       | Fetched.failed => regularSearch query month status server
       | Fetched.json data =>
         if data.success then
           match data.profile with
           | some profile => [Effect.showStudentProfile (showStudentProfile profile)]
           | none => regularSearch query month status server
         else regularSearch query month status server)
  else regularSearch query month status server

/-! ## Loading, modals and submits (script.js, lines 89–130, 401–448,
460–476, 496–571, 589–688, 843–916, 979–1033, 1179–1262)

A function that awaits one response takes the outcome of that request as
the argument `response` and returns the state it leaves with the effects in
order. -/

/-- Whether an effect is a toast of type `error`. -/
def isErrorToast : Effect → Bool
  | Effect.showToast _ type => type == "error".toList
  | _ => false

/-- The expression `x || fallback` on a string that may be missing. -/
def strOr (x : Option Str) (fallback : Str) : Str :=
  match x with
  | some v => if truthy v then v else fallback
  | none => fallback

/-- The text of a number of the response inside a template literal. -/
def numText (n : Option Int) : Str :=
  match n with
  | some k => (toString k).toList
  | none => "undefined".toList

/-- The function `hideModal(modalId)` as reassigned at the end of the
script: for `bulkAddModal` the student set is cleared, then the original
`hideModal` takes the class `active` off the modal and resets its form. -/
def hideModal (modalId : Str) (s : State) : State × List Effect :=
  if modalId = "bulkAddModal".toList then
    ({ s with selectedStudentsSet := [] }, [Effect.hideModal modalId])
  else (s, [Effect.hideModal modalId])

/-- The function `initBulkAddModal()`: the bulk month set is cleared and its
tags redrawn, the student set is replaced by an empty one and the chips and
the count redrawn, and `loadUniqueStudents()` is started. -/
def initBulkAddModal (s : State) : State × List Effect :=
  let s1 := renderMonthTags "bulkMonthTags".toList { s with selectedBulkMonths := [] }
  let s2 := updateSelectedCount (updateSelectedChips { s1 with selectedStudentsSet := [] })
  (s2, [Effect.loadUniqueStudents])

/-- The function `showModal(modalId)` as reassigned at the end of the
script: `initBulkAddModal()` for `bulkAddModal`, then the original
`showModal` puts the class `active` on the modal. -/
def showModal (modalId : Str) (s : State) : State × List Effect :=
  if modalId = "bulkAddModal".toList then
    ((initBulkAddModal s).1, (initBulkAddModal s).2 ++ [Effect.showModal modalId])
  else (s, [Effect.showModal modalId])

set_option linter.unusedVariables false in
/-- The function
`openAddMonthModal(studentName, fatherName, studentId, mobileNumber)`: the
arguments go to form fields, the add-month set is cleared and its tags
redrawn, and the modal is shown. -/
def openAddMonthModal (studentName fatherName : Str) (studentId mobileNumber : Option Str)
    (s : State) : State × List Effect :=
  showModal "addMonthModal".toList
    (renderMonthTags "addMonthTags".toList { s with selectedAddMonths := [] })

/-- The function `loadStudents()`.  On `success` the assignment
`allStudents = data.data` comes first; `renderTable` then throws when there
is no array, and the `catch` logs and shows the toast. -/
def loadStudents (response : Fetched Body) (s : State) : State × List Effect :=
  match response with
  | Fetched.failed =>
    (s, [Effect.fetch "/api/students".toList,
         Effect.consoleError "Error loading students:".toList,
         Effect.showToast "Failed to load student data".toList "error".toList])
  | Fetched.json data =>
    if data.success then
      match data.data with
      | some students =>
        ({ s with allStudents := some students },
         [Effect.fetch "/api/students".toList, Effect.renderTable students,
          Effect.updateRecordCount (some (students.length : Int))])
      | none =>
        ({ s with allStudents := none },
         [Effect.fetch "/api/students".toList,
          Effect.consoleError "Error loading students:".toList,
          Effect.showToast "Failed to load student data".toList "error".toList])
    else (s, [Effect.fetch "/api/students".toList])

/-- The function `loadSummary()`; it writes no variable of the state. -/
def loadSummary (response : Fetched Body) : List Effect :=
  match response with
  | Fetched.failed =>
    [Effect.fetch "/api/summary".toList, Effect.consoleError "Error loading summary:".toList]
  | Fetched.json data =>
    if data.success then
      match data.summary with
      | some summary => [Effect.fetch "/api/summary".toList, Effect.renderSummary summary]
      | none =>
        [Effect.fetch "/api/summary".toList,
         Effect.consoleError "Error loading summary:".toList]
    else [Effect.fetch "/api/summary".toList]

/-- The function `loadUniqueStudents()`. -/
def loadUniqueStudents (response : Fetched Body) (s : State) : State × List Effect :=
  match response with
  | Fetched.failed =>
    (s, [Effect.fetch "/api/unique-students".toList,
         Effect.consoleError "Error loading students:".toList])
  | Fetched.json data =>
    if data.success then
      ({ s with allUniqueStudents := data.students },
       [Effect.fetch "/api/unique-students".toList])
    else (s, [Effect.fetch "/api/unique-students".toList])

/-- The values of the fields of the add form read by `addRecord`, under the
ids of their elements. -/
structure AddForm where
  studentId : Str
  studentName : Str
  fatherName : Str
  mobileNumber : Str
  feeMonth : Str
  feeStatus : Str
  receiptNumber : Str
deriving DecidableEq, Repr

/-- The object `data` that `addRecord` builds from the form. -/
def addData (form : AddForm) : AddData :=
  { student_id := form.studentId
    student_name := form.studentName
    father_name := form.fatherName
    mobile_number := form.mobileNumber
    month := form.feeMonth
    fee_status := form.feeStatus
    receipt_number := form.receiptNumber }

/-- The function `addRecord(event)`: the form is read and posted as it is. -/
def addRecord (form : AddForm) (response : Fetched Body) (s : State) : State × List Effect :=
  match response with
  | Fetched.failed =>
    (s, [Effect.post "/api/add".toList (Payload.add (addData form)),
         Effect.consoleError "Error adding record:".toList,
         Effect.showToast "Failed to add record".toList "error".toList])
  | Fetched.json result =>
    if result.success then
      ((hideModal "addModal".toList s).1,
       [Effect.post "/api/add".toList (Payload.add (addData form)),
        Effect.showToast "Record added successfully!".toList "success".toList] ++
       (hideModal "addModal".toList s).2 ++ [Effect.loadStudents, Effect.loadSummary])
    else
      (s, [Effect.post "/api/add".toList (Payload.add (addData form)),
           Effect.showToast (strOr result.error "Failed to add record".toList) "error".toList])

/-- The values of the fields of the edit form read by `updateRecord`. -/
structure EditForm where
  editStudentName : Str
  editFatherName : Str
  editMonth : Str
  editFeeStatus : Str
  editReceiptNumber : Str
deriving DecidableEq, Repr

/-- The function `updateRecord(event)`. -/
def updateRecord (form : EditForm) (response : Fetched Body) (s : State) :
    State × List Effect :=
  let data : UpdateData :=
    { student_name := form.editStudentName
      father_name := form.editFatherName
      month := form.editMonth
      fee_status := form.editFeeStatus
      receipt_number := form.editReceiptNumber }
  match response with
  | Fetched.failed =>
    (s, [Effect.post "/api/update".toList (Payload.update data),
         Effect.consoleError "Error updating record:".toList,
         Effect.showToast "Failed to update record".toList "error".toList])
  | Fetched.json result =>
    if result.success then
      ((hideModal "editModal".toList s).1,
       [Effect.post "/api/update".toList (Payload.update data),
        Effect.showToast "Record updated successfully!".toList "success".toList] ++
       (hideModal "editModal".toList s).2 ++ [Effect.loadStudents, Effect.loadSummary])
    else
      (s, [Effect.post "/api/update".toList (Payload.update data),
           Effect.showToast (strOr result.error "Failed to update record".toList)
             "error".toList])

/-- The function
`openEditModal(studentKey, month, studentName, feeStatus, receiptNumber)`:
the values it writes to the fields of the edit form, the state and the
modal it shows.  The name is the first piece of the key cut at underscores,
or the argument `studentName` when that piece is empty; the father is the
second piece, or empty. -/
def openEditModal (studentKey month studentName : Str) (feeStatus receiptNumber : Option Str)
    (s : State) : EditForm × State × List Effect :=
  ({ editStudentName := strOr (split '_' studentKey)[0]? studentName
     editFatherName := strOr (split '_' studentKey)[1]? []
     editMonth := month
     editFeeStatus :=
       if (feeStatus.map toLowerCase) == some "paid".toList then "Paid".toList
       else "Not Paid".toList
     editReceiptNumber := strOr receiptNumber [] },
   showModal "editModal".toList s)

/-- The function `deleteRecord(studentKey, month)`; `confirmed` is the answer
of the `confirm` dialog. -/
def deleteRecord (studentKey month : Str) (confirmed : Bool) (response : Fetched Body)
    (s : State) : State × List Effect :=
  let parts := split '_' studentKey
  let data : DeleteData :=
    { student_name := strOr parts[0]? []
      father_name := strOr parts[1]? []
      month := month }
  if !confirmed then (s, [])
  else
    match response with
    | Fetched.failed =>
      (s, [Effect.post "/api/delete".toList (Payload.delete data),
           Effect.consoleError "Error deleting record:".toList,
           Effect.showToast "Failed to delete record".toList "error".toList])
    | Fetched.json result =>
      if result.success then
        (s, [Effect.post "/api/delete".toList (Payload.delete data),
             Effect.showToast "Record deleted successfully!".toList "success".toList,
             Effect.loadStudents, Effect.loadSummary])
      else
        (s, [Effect.post "/api/delete".toList (Payload.delete data),
             Effect.showToast (strOr result.error "Failed to delete record".toList)
               "error".toList])

/-- The values of the fields of the add-month form read by
`addMonthRecord`. -/
structure AddMonthForm where
  addMonthStudentId : Str
  addMonthStudentName : Str
  addMonthFatherName : Str
  addMonthMobileNumber : Str
  newMonthFeeStatus : Str
  newMonthReceiptNumber : Str
deriving DecidableEq, Repr

/-- The function `addMonthRecord(event)`: one record for each month of
`selectedAddMonths`, posted together. -/
def addMonthRecord (form : AddMonthForm) (response : Fetched Body) (s : State) :
    State × List Effect :=
  let selectedMonths := s.selectedAddMonths
  if selectedMonths.length = 0 then
    (s, [Effect.showToast "Please select at least one month".toList "error".toList])
  else
    let records : List FeeRecord := selectedMonths.map (fun month =>
      { studentId := some form.addMonthStudentId
        studentName := some form.addMonthStudentName
        fatherName := some form.addMonthFatherName
        mobileNumber := some form.addMonthMobileNumber
        month := some month
        feeStatus := some form.newMonthFeeStatus
        receiptNumber := some form.newMonthReceiptNumber })
    match response with
    | Fetched.failed =>
      (s, [Effect.post "/api/bulk-add".toList (Payload.records records),
           Effect.consoleError "Error adding months:".toList,
           Effect.showToast "Failed to add months".toList "error".toList])
    | Fetched.json result =>
      if result.success then
        let monthText := if selectedMonths.length = 1 then "month".toList else "months".toList
        ((hideModal "addMonthModal".toList s).1,
         [Effect.post "/api/bulk-add".toList (Payload.records records),
          Effect.showToast
            (numText result.added ++ " ".toList ++ monthText ++ " added successfully!".toList)
            "success".toList] ++
         (hideModal "addMonthModal".toList s).2 ++ [Effect.loadStudents, Effect.loadSummary])
      else
        (s, [Effect.post "/api/bulk-add".toList (Payload.records records),
             Effect.showToast (strOr result.error "Failed to add months".toList)
               "error".toList])

/-- The function `submitNewStudents()`, given the values of `newBulkMonth`,
`newBulkStatus` and `pasteData`. -/
def submitNewStudents (newBulkMonth newBulkStatus pasteData : Str) (response : Fetched Body)
    (s : State) : State × List Effect :=
  let month := newBulkMonth
  let feeStatus := newBulkStatus
  let pasted := trim pasteData
  if !truthy month then
    (s, [Effect.showToast "Please select a month".toList "error".toList])
  else if !truthy pasted then
    (s, [Effect.showToast "Please paste student data".toList "error".toList])
  else
    let students := parsePastedData pasted
    if students.length = 0 then
      (s, [Effect.showToast
        "No valid student data found. Make sure each line has Name and Father Name.".toList
        "error".toList])
    else
      let records : List FeeRecord := students.map (fun st =>
        { studentId := none
          studentName := some st.name
          fatherName := some st.father
          mobileNumber := none
          month := some month
          feeStatus := some feeStatus
          receiptNumber := some [] })
      match response with
      | Fetched.failed =>
        (s, [Effect.post "/api/bulk-add".toList (Payload.records records),
             Effect.consoleError "Error adding students:".toList,
             Effect.showToast "Failed to add students".toList "error".toList])
      | Fetched.json data =>
        if data.success then
          ((hideModal "bulkAddModal".toList s).1,
           [Effect.post "/api/bulk-add".toList (Payload.records records),
            Effect.showToast
              ("Successfully added ".toList ++ numText data.added ++
                " new students for ".toList ++ month ++ "!".toList)
              "success".toList] ++
           (hideModal "bulkAddModal".toList s).2 ++ [Effect.loadStudents, Effect.loadSummary])
        else
          (s, [Effect.post "/api/bulk-add".toList (Payload.records records),
               Effect.showToast (strOr data.error "Failed to add students".toList)
                 "error".toList])

/-- The records that `submitBulkSelection` builds: for each key of the
student set, in order, the name and the father are the first two pieces of
the key cut at underscores, `studentInfo` is the first entry of
`allUniqueStudents` with that name and father (or `{}`), and one record is
pushed for each selected month. -/
def bulkRecords (keys selectedMonths : List Str) (unique : List UniqueStudent)
    (feeStatus : Str) : List FeeRecord :=
  keys.flatMap (fun key =>
    let name := (split '_' key)[0]?
    let father := (split '_' key)[1]?
    let studentInfo := unique.find? (fun u => some u.name == name && some u.father == father)
    selectedMonths.map (fun month =>
      { studentId := some (strOr (studentInfo.bind (fun u => u.studentId)) [])
        studentName := name
        fatherName := father
        mobileNumber := some (strOr (studentInfo.bind (fun u => u.mobile)) [])
        month := some month
        feeStatus := some feeStatus
        receiptNumber := some [] }))

/-- The function `submitBulkSelection()`, given the value of
`bulkFeeStatus`.  The records are built before the `try`, so the `find` on
an `allUniqueStudents` that is not an array throws out of the function. -/
def submitBulkSelection (bulkFeeStatus : Str) (response : Fetched Body) (s : State) :
    State × List Effect :=
  let selectedMonths := s.selectedBulkMonths
  let feeStatus := bulkFeeStatus
  if selectedMonths.length = 0 then
    (s, [Effect.showToast "Please select at least one month".toList "error".toList])
  else if s.selectedStudentsSet.length = 0 then
    (s, [Effect.showToast "Please select at least one student".toList "error".toList])
  else
    match s.allUniqueStudents with
    | none => (s, [Effect.uncaught])
    | some unique =>
      let records := bulkRecords s.selectedStudentsSet selectedMonths unique feeStatus
      match response with
      | Fetched.failed =>
        (s, [Effect.post "/api/bulk-add".toList (Payload.records records),
             Effect.consoleError "Error adding bulk data:".toList,
             Effect.showToast "Failed to add records".toList "error".toList])
      | Fetched.json data =>
        if data.success then
          let monthText :=
            if selectedMonths.length = 1 then selectedMonths.headD []
            else (toString selectedMonths.length).toList ++ " months".toList
          ((hideModal "bulkAddModal".toList s).1,
           [Effect.post "/api/bulk-add".toList (Payload.records records),
            Effect.showToast
              ("Successfully added ".toList ++ numText data.added ++
                " records for ".toList ++ monthText ++ "!".toList)
              "success".toList] ++
           (hideModal "bulkAddModal".toList s).2 ++ [Effect.loadStudents, Effect.loadSummary])
        else
          (s, [Effect.post "/api/bulk-add".toList (Payload.records records),
               Effect.showToast (strOr data.error "Failed to add records".toList)
                 "error".toList])

/-- The values of the fields of the profile edit form read by
`saveProfileEdit`. -/
structure ProfileForm where
  editProfileOriginalName : Str
  editProfileOriginalFather : Str
  editProfileStudentId : Str
  editProfileName : Str
  editProfileFather : Str
  editProfileMobile : Str
deriving DecidableEq, Repr

/-- The function `saveProfileEdit(event)`. -/
def saveProfileEdit (form : ProfileForm) (response : Fetched Body) (s : State) :
    State × List Effect :=
  let updateData : ProfileUpdate :=
    { original_name := form.editProfileOriginalName
      original_father := form.editProfileOriginalFather
      student_id := trim form.editProfileStudentId
      student_name := trim form.editProfileName
      father_name := trim form.editProfileFather
      mobile_number := trim form.editProfileMobile }
  if !truthy updateData.student_name then
    (s, [Effect.showToast "Student name is required".toList "error".toList])
  else
    match response with
    | Fetched.failed =>
      (s, [Effect.post "/api/update-student-profile".toList (Payload.profile updateData),
           Effect.consoleError "Error updating profile:".toList,
           Effect.showToast "Failed to update profile".toList "error".toList])
    | Fetched.json result =>
      if result.success then
        (s, [Effect.post "/api/update-student-profile".toList (Payload.profile updateData),
             Effect.showToast
               ("Profile updated successfully! (".toList ++ numText result.updated ++
                 " records)".toList)
               "success".toList,
             Effect.openStudentProfile
               (updateData.student_name ++ '_' :: updateData.father_name),
             Effect.loadStudents, Effect.loadSummary])
      else
        (s, [Effect.post "/api/update-student-profile".toList (Payload.profile updateData),
             Effect.showToast (strOr result.error "Failed to update profile".toList)
               "error".toList])

/-! ## The debounce of the search box (script.js, lines 211–224) -/

/-- The variable `searchTimeout` and the timers of `autoSearch`.  Times are
in milliseconds.  `searchTimeout` is `none` for `null` and else the id that
the last `setTimeout` returned; `nextId` is the id that the next
`setTimeout` returns; `pending` lists the timers that are neither fired nor
cleared, as pairs of id and time due, in the order they were set; `searches`
lists the times at which a timer has called `performSearch`, oldest
first. -/
structure SearchTimer where
  searchTimeout : Option Nat
  nextId : Nat
  pending : List (Nat × Nat)
  searches : List Nat
deriving DecidableEq, Repr

/-- The call `clearTimeout(id)`: the timer with that id, if it is pending,
is dropped. -/
def clearTimeout (id : Nat) (t : SearchTimer) : SearchTimer :=
  { t with pending := t.pending.filter (fun p => p.1 != id) }

/-- The call `setTimeout(() => performSearch(), delay)` at the time `now`:
a new timer is pending and its id is returned. -/
def setTimeout (now delay : Nat) (t : SearchTimer) : Nat × SearchTimer :=
  (t.nextId,
   { t with nextId := t.nextId + 1, pending := t.pending ++ [(t.nextId, now + delay)] })

/-- The function `autoSearch()` called at the time `now`: a truthy
`searchTimeout` is cleared, and a timer of 300 ms is set and kept in
`searchTimeout`. -/
def autoSearch (now : Nat) (t : SearchTimer) : SearchTimer :=
  let t1 :=
    match t.searchTimeout with
    | some id => if id ≠ 0 then clearTimeout id t else t
    | none => t
  { (setTimeout now 300 t1).2 with searchTimeout := some (setTimeout now 300 t1).1 }

/-- Time passes up to `now`: every pending timer due by then fires and calls
`performSearch` at its due time.  Timers fire in the order they were set,
which is the order they fall due since every delay is 300 ms. -/
def runTimers (now : Nat) (t : SearchTimer) : SearchTimer :=
  { t with
    pending := t.pending.filter (fun p => decide (now < p.2))
    searches :=
      t.searches ++ (t.pending.filter (fun p => decide (p.2 ≤ now))).map (fun p => p.2) }

/-- Time passes until no timer is pending. -/
def settle (t : SearchTimer) : SearchTimer :=
  { t with pending := [], searches := t.searches ++ t.pending.map (fun p => p.2) }

/-- A burst: `autoSearch` is called at each of the times `calls` in turn,
time passing up to each call, and then time passes until every timer has
fired. -/
def searchBurst (calls : List Nat) (t : SearchTimer) : SearchTimer :=
  settle (calls.foldl (fun st now => autoSearch now (runTimers now st)) t)

/-- The page as it starts: `searchTimeout` is `null`, no timer is pending,
and timer ids start at 1. -/
def initialTimer : SearchTimer :=
  { searchTimeout := none, nextId := 1, pending := [], searches := [] }

/-- An example state: `May 2026` is selected in the bulk form, `June 2026`
in the add-month form and one student in the picker; the page has the
container `bulkMonthTags` and the count badge. -/
def exampleState : State :=
  { allStudents := some []
    allUniqueStudents := some []
    selectedBulkMonths := ["May 2026".toList]
    selectedAddMonths := ["June 2026".toList]
    selectedStudentsSet := ["Asha_Ravi".toList]
    monthTags := fun id => if id = "bulkMonthTags".toList then some [] else none
    selectedChips := []
    countBadge := some 1 }

/-- An example answer with `success` and nothing else. -/
def exampleSuccess : Body :=
  { success := true, profile := none, data := none, total := none, error := none
    students := none, summary := none, added := some 2, updated := none }

/-- An example answer without `success`, with the message `Duplicate`. -/
def exampleRejection : Body :=
  { success := false, profile := none, data := none, total := none
    error := some "Duplicate".toList
    students := none, summary := none, added := none, updated := none }

/-- An example profile: one student with one record. -/
def exampleProfile : ProfileData :=
  { student :=
      { name := "Asha".toList, fatherName := Field.string "Ravi".toList, totalMonths := 1
        paidMonths := 1, unpaidMonths := 0 }
    records :=
      [{ studentId := some "7".toList, studentName := some "Asha".toList
         fatherName := some "Ravi".toList, mobileNumber := none
         month := some "May 2026".toList, feeStatus := some "Paid".toList
         receiptNumber := some "RCP1023".toList }] }

/-- An example answer of the receipt lookup: `success` with the example
profile. -/
def exampleProfileAnswer : Body :=
  { success := true, profile := some exampleProfile, data := none, total := none
    error := none, students := none, summary := none, added := none, updated := none }

/-- An example server: the lookup of `RCP1023` answers with the example
profile, every other request rejects. -/
def exampleServer : Server := fun url =>
  if url = "/api/student/RCP1023".toList then Fetched.json exampleProfileAnswer
  else Fetched.failed

/-- An example answer with `success` and no other key. -/
def exampleBareAnswer : Body :=
  { success := true, profile := none, data := none, total := none, error := none
    students := none, summary := none, added := none, updated := none }

/-- An example answer of the search: `success` with the records of the
example profile as `data` and their number as `total`. -/
def exampleListAnswer : Body :=
  { success := true, profile := none, data := some exampleProfile.records, total := some 1
    error := none, students := none, summary := none, added := none, updated := none }

/-- An example server on which the lookup of `RCP1023` answers `success`
with no `student`, and the search for `RCP1023` answers with the example
list. -/
def exampleBareServer : Server := fun url =>
  if url = "/api/student/RCP1023".toList then Fetched.json exampleBareAnswer
  else if url = "/api/search?query=RCP1023".toList then Fetched.json exampleListAnswer
  else Fetched.failed

/-- An example server on which the lookup of `RCP1023` answers without
`success`, and the search for `RCP1023` answers with the example list. -/
def exampleListServer : Server := fun url =>
  if url = "/api/student/RCP1023".toList then Fetched.json exampleRejection
  else if url = "/api/search?query=RCP1023".toList then Fetched.json exampleListAnswer
  else Fetched.failed

/-- Whether a call has failed: the request or the reading of its body has
rejected, or the body came without `success`. -/
def callFailed : Fetched Body → Bool
  | Fetched.failed => true
  | Fetched.json body => !body.success

/-- The number of toasts of type `error` among some effects. -/
def errorToasts (effects : List Effect) : Nat :=
  (effects.filter isErrorToast).length

/-- An example of a filled add-month form. -/
def exampleAddMonthForm : AddMonthForm :=
  { addMonthStudentId := "7".toList, addMonthStudentName := "Asha".toList
    addMonthFatherName := "Ravi".toList, addMonthMobileNumber := []
    newMonthFeeStatus := "Not Paid".toList, newMonthReceiptNumber := [] }

/-- An example of a filled profile edit form. -/
def exampleProfileForm : ProfileForm :=
  { editProfileOriginalName := "Asha".toList, editProfileOriginalFather := "Ravi".toList
    editProfileStudentId := "7".toList, editProfileName := " Asha K ".toList
    editProfileFather := "Ravi".toList, editProfileMobile := [] }

/-- An example of `allUniqueStudents`: one student with an id and a mobile
number. -/
def exampleUnique : List UniqueStudent :=
  [{ name := "Asha".toList, father := "Ravi".toList, studentId := some "7".toList
     mobile := some "98100".toList }]

/-- An example state of the bulk form: two students and two months are
selected. -/
def exampleBulkState : State :=
  { exampleState with
    allUniqueStudents := some exampleUnique
    selectedBulkMonths := ["May 2026".toList, "June 2026".toList]
    selectedStudentsSet := ["Asha_Ravi".toList, "Bina_Dev".toList] }

/-! ## Lemmas on strings -/

theorem split_ne_nil (sep : Char) (s : Str) : split sep s ≠ [] := by
  cases s with
  | nil => simp [split]
  | cons c cs =>
    simp only [split]
    split_ifs
    · simp
    · cases split sep cs <;> simp

theorem split_cons_sep (sep : Char) (cs : Str) :
    split sep (sep :: cs) = [] :: split sep cs := by
  simp [split]

theorem split_cons_of_ne {sep c : Char} (h : c ≠ sep) (cs : Str) :
    split sep (c :: cs) = (split sep cs).modifyHead (List.cons c) := by
  have hne := split_ne_nil sep cs
  simp only [split, if_neg h]
  cases hs : split sep cs with
  | nil => exact absurd hs hne
  | cons w ws => rfl

theorem split_append_sep (sep : Char) (a b : Str) :
    split sep (a ++ sep :: b) = split sep a ++ split sep b := by
  induction a with
  | nil => simp [split]
  | cons c a ih =>
    by_cases h : c = sep
    · subst h
      simp [split_cons_sep, ih]
    · rw [List.cons_append, split_cons_of_ne h, split_cons_of_ne h, ih]
      have hne := split_ne_nil sep a
      cases hs : split sep a with
      | nil => exact absurd hs hne
      | cons w ws => rfl

theorem split_of_not_mem {sep : Char} {s : Str} (h : sep ∉ s) : split sep s = [s] := by
  induction s with
  | nil => rfl
  | cons c cs ih =>
    have hc : c ≠ sep := fun e => h (by simp [e])
    have hcs : sep ∉ cs := fun e => h (List.mem_cons_of_mem _ e)
    rw [split_cons_of_ne hc, ih hcs]
    rfl

theorem not_mem_of_mem_split {sep : Char} {s f : Str} (hf : f ∈ split sep s) : sep ∉ f := by
  induction s generalizing f with
  | nil =>
    simp [split] at hf
    simp [hf]
  | cons c cs ih =>
    by_cases h : c = sep
    · subst h
      rw [split_cons_sep] at hf
      rcases List.mem_cons.1 hf with rfl | hf
      · simp
      · exact ih hf
    · rw [split_cons_of_ne h] at hf
      have hne := split_ne_nil sep cs
      cases hs : split sep cs with
      | nil => exact absurd hs hne
      | cons w ws =>
        rw [hs] at hf ih
        simp only [List.modifyHead_cons, List.mem_cons] at hf
        rcases hf with rfl | hf
        · intro hmem
          rcases List.mem_cons.1 hmem with e | hmem
          · exact h e.symm
          · exact ih (List.mem_cons_self _ _) hmem
        · exact ih (List.mem_cons_of_mem _ hf)

theorem mem_of_mem_split {sep : Char} {s f : Str} (hf : f ∈ split sep s) :
    ∀ c ∈ f, c ∈ s := by
  induction s generalizing f with
  | nil =>
    simp [split] at hf
    simp [hf]
  | cons c cs ih =>
    by_cases h : c = sep
    · subst h
      rw [split_cons_sep] at hf
      rcases List.mem_cons.1 hf with rfl | hf
      · simp
      · intro x hx
        exact List.mem_cons_of_mem _ (ih hf x hx)
    · rw [split_cons_of_ne h] at hf
      have hne := split_ne_nil sep cs
      cases hs : split sep cs with
      | nil => exact absurd hs hne
      | cons w ws =>
        rw [hs] at hf ih
        simp only [List.modifyHead_cons, List.mem_cons] at hf
        rcases hf with rfl | hf
        · intro x hx
          rcases List.mem_cons.1 hx with e | hx
          · simp [e]
          · exact List.mem_cons_of_mem _ (ih (List.mem_cons_self _ _) x hx)
        · intro x hx
          exact List.mem_cons_of_mem _ (ih (List.mem_cons_of_mem _ hf) x hx)

theorem intercalate_cons_cons (sep : Char) (r r' : Str) (rs : List Str) :
    List.intercalate [sep] (r :: r' :: rs) = r ++ sep :: List.intercalate [sep] (r' :: rs) := by
  simp [List.intercalate, List.intersperse]

theorem intercalate_split (sep : Char) (s : Str) :
    List.intercalate [sep] (split sep s) = s := by
  induction s with
  | nil => simp [split, List.intercalate]
  | cons c cs ih =>
    by_cases h : c = sep
    · subst h
      rw [split_cons_sep]
      have hne := split_ne_nil c cs
      cases hs : split c cs with
      | nil => exact absurd hs hne
      | cons w ws =>
        rw [intercalate_cons_cons, ← hs, ih]
        rfl
    · rw [split_cons_of_ne h]
      have hne := split_ne_nil sep cs
      cases hs : split sep cs with
      | nil => exact absurd hs hne
      | cons w ws =>
        rw [hs] at ih
        cases ws with
        | nil =>
          simp [List.intercalate] at ih ⊢
          exact ih
        | cons w' ws' =>
          rw [List.modifyHead_cons, intercalate_cons_cons]
          rw [intercalate_cons_cons] at ih
          rw [List.cons_append, ih]

theorem split_intercalate (sep : Char) (rows : List Str) (h : rows ≠ []) :
    split sep (List.intercalate [sep] rows) = rows.flatMap (split sep) := by
  induction rows with
  | nil => exact absurd rfl h
  | cons r rs ih =>
    cases rs with
    | nil => simp [List.intercalate]
    | cons r' rs' =>
      rw [intercalate_cons_cons, split_append_sep, ih (by simp)]
      simp [List.flatMap_cons]


/-! ## Lemmas on `parsePastedData` -/

theorem trim_eq_nil_iff (s : Str) : trim s = [] ↔ ∀ c ∈ s, isWhiteSpace c = true := by
  unfold trim
  rw [List.rdropWhile_eq_nil_iff]
  constructor
  · intro h
    by_cases hd : s.dropWhile isWhiteSpace = []
    · exact List.dropWhile_eq_nil_iff.1 hd
    · have h1 := List.head_dropWhile_not isWhiteSpace s hd
      have h2 := h _ (List.head_mem hd)
      rw [h1] at h2
      exact absurd h2 (by simp)
  · intro h
    rw [List.dropWhile_eq_nil_iff.2 h]
    simp

theorem lineParts_of_blank {line : Str} (h : ∀ c ∈ line, isWhiteSpace c = true) :
    lineParts line = [] := by
  unfold lineParts
  simp only
  rw [List.filter_eq_nil_iff]
  intro p hp
  rcases List.mem_map.1 hp with ⟨f, hf, rfl⟩
  have hws : ∀ c ∈ f, isWhiteSpace c = true := by
    intro c hc
    split_ifs at hf
    · exact h c (mem_of_mem_split hf c hc)
    · exact h c (mem_of_mem_split hf c hc)
  simp [truthy, (trim_eq_nil_iff f).2 hws]

theorem parseStep_append (students : List Student) (line : Str) :
    parseStep students line = students ++ parseStep [] line := by
  unfold parseStep
  simp only
  split_ifs <;> simp

theorem foldl_parseStep (lines : List Str) (students : List Student) :
    lines.foldl parseStep students = students ++ lines.flatMap (parseStep []) := by
  induction lines generalizing students with
  | nil => simp
  | cons l ls ih =>
    rw [List.foldl_cons, ih, parseStep_append, List.flatMap_cons, List.append_assoc]

theorem parseStep_of_blank {line : Str} (h : truthy (trim line) = false) :
    parseStep [] line = [] := by
  have h1 : trim line = [] := by
    simpa [truthy] using h
  have h2 := lineParts_of_blank ((trim_eq_nil_iff line).1 h1)
  simp [parseStep, h2, isHeaderParts]

theorem flatMap_filter_of_nil {α β : Type} (p : α → Bool) (f : α → List β) (l : List α)
    (h : ∀ a, p a = false → f a = []) : (l.filter p).flatMap f = l.flatMap f := by
  induction l with
  | nil => rfl
  | cons a l ih =>
    by_cases hp : p a = true
    · simp [List.filter_cons, hp, List.flatMap_cons, ih]
    · have hp' : p a = false := by simpa using hp
      simp [List.filter_cons, hp', List.flatMap_cons, ih, h a hp']

theorem parsePastedData_eq_flatMap (data : Str) :
    parsePastedData data = (split '\n' data).flatMap (parseStep []) := by
  unfold parsePastedData
  simp only
  rw [foldl_parseStep, List.nil_append]
  exact flatMap_filter_of_nil _ _ _ (fun a h => parseStep_of_blank h)

theorem parsePastedData_joinLines (rows : List Str) :
    parsePastedData (joinLines rows) = rows.flatMap parsePastedData := by
  by_cases hr : rows = []
  · subst hr
    decide
  · rw [parsePastedData_eq_flatMap]
    unfold joinLines
    rw [split_intercalate _ _ hr, List.flatMap_assoc]
    congr 1
    funext r
    rw [parsePastedData_eq_flatMap]

theorem parsePastedData_line {line : Str} (h : '\n' ∉ line) :
    parsePastedData line = parseStep [] line := by
  rw [parsePastedData_eq_flatMap, split_of_not_mem h]
  simp

theorem parsePastedData_remove_row (before after : List Str) {line : Str}
    (hline : '\n' ∉ line) (h : parseStep [] line = []) :
    parsePastedData (joinLines (before ++ line :: after)) =
      parsePastedData (joinLines (before ++ after)) := by
  rw [parsePastedData_joinLines, parsePastedData_joinLines]
  simp [List.flatMap_append, List.flatMap_cons, parsePastedData_line hline, h]

theorem flatMap_eq_map_filter {α β : Type} (p : α → Bool) (g : α → β) (f : α → List β)
    (l : List α) (h : ∀ a, f a = if p a = true then [g a] else []) :
    l.flatMap f = (l.filter p).map g := by
  induction l with
  | nil => rfl
  | cons a l ih =>
    rw [List.flatMap_cons, ih, h a]
    by_cases hp : p a = true
    · simp [List.filter_cons, hp]
    · simp [List.filter_cons, hp]

theorem parseStep_of_header {line f : Str} (hf : (lineParts line).head? = some f)
    (hh : toLowerCase f = "student name".toList ∨ toLowerCase f = "name".toList) :
    parseStep [] line = [] := by
  have hne : f ≠ [] := by
    rintro rfl
    rcases hh with hh | hh <;> simp [toLowerCase] at hh
  have : isHeaderParts (lineParts line) = true := by
    unfold isHeaderParts
    rw [hf]
    rcases hh with hh | hh
    · simp [truthy, hne, hh]
    · simp [truthy, hne, hh]
  simp [parseStep, this]

/-! ## Lemmas on the rounding to doubles -/

theorem div_pow_succ (n k : Nat) : n / 2 ^ (k + 1) = n / 2 / 2 ^ k := by
  rw [Nat.pow_succ, Nat.mul_comm, Nat.div_div_eq_div_mul]

/-- The fuel is enough below `2 ^ (53 + fuel)`: the quotient has at most 53 bits. -/
theorem ulpExponent_quot (fuel : Nat) : ∀ n, n < 2 ^ (53 + fuel) →
    n / 2 ^ ulpExponent fuel n < 2 ^ 53 := by
  induction fuel with
  | zero => intro n h; simpa [ulpExponent] using h
  | succ fuel ih =>
    intro n h
    unfold ulpExponent
    split_ifs with h1
    · simpa using h1
    · have h2 : n / 2 < 2 ^ (53 + fuel) := by
        rw [Nat.div_lt_iff_lt_mul (by norm_num)]
        calc n < 2 ^ (53 + (fuel + 1)) := h
          _ = 2 ^ (53 + fuel) * 2 := by rw [← Nat.add_assoc, Nat.pow_succ]
      rw [div_pow_succ]
      exact ih (n / 2) h2

theorem ulpExponent_quot_pos (fuel : Nat) : ∀ n, 0 < n →
    0 < n / 2 ^ ulpExponent fuel n := by
  induction fuel with
  | zero => intro n h; simpa [ulpExponent] using h
  | succ fuel ih =>
    intro n h
    unfold ulpExponent
    split_ifs with h1
    · simpa using h
    · have h2 : 0 < n / 2 := by
        have : 2 ^ 53 ≤ n := not_lt.1 h1
        omega
      rw [div_pow_succ]
      exact ih (n / 2) h2

theorem ulpExponent_le (fuel : Nat) : ∀ n, ulpExponent fuel n ≤ fuel := by
  induction fuel with
  | zero => intro n; simp [ulpExponent]
  | succ fuel ih =>
    intro n
    unfold ulpExponent
    split_ifs
    · omega
    · have := ih (n / 2)
      omega

set_option exponentiation.threshold 1100 in
/-- No rounded magnitude is above `2 ^ 1024`. -/
theorem roundNat_le (n : Nat) : roundNat n ≤ 2 ^ 1024 := by
  unfold roundNat
  split_ifs with h1 h2
  · exact le_trans (le_of_lt h1) (Nat.pow_le_pow_right (by norm_num) (by norm_num))
  · exact le_refl _
  · have hq := ulpExponent_quot 971 n (by simpa using (not_le.1 h2))
    have he := ulpExponent_le 971 n
    have hp : 2 ^ ulpExponent 971 n ≤ 2 ^ 971 := Nat.pow_le_pow_right (by norm_num) he
    have h3 : (2 : Nat) ^ 1024 = 2 ^ 53 * 2 ^ 971 := by rw [← Nat.pow_add]
    rw [h3]
    apply Nat.mul_le_mul _ hp
    split_ifs <;> omega

theorem roundNat_pos {n : Nat} (h : 0 < n) : 0 < roundNat n := by
  unfold roundNat
  split_ifs with h1 h2
  · exact h
  · positivity
  · have hq := ulpExponent_quot_pos 971 n h
    simp only
    split_ifs
    · positivity
    · positivity

/-- Below `2 ^ 53` in magnitude every integer is a double. -/
theorem toDouble_of_lt {n : Int} (h1 : -(2 ^ 53) < n) (h2 : n < 2 ^ 53) : toDouble n = n := by
  unfold toDouble roundNat
  have h : n.natAbs < 2 ^ 53 := by omega
  rw [if_pos h]
  split_ifs <;> omega

/-- Rounding keeps the sign. -/
theorem toDouble_nonpos_iff (n : Int) : toDouble n ≤ 0 ↔ n ≤ 0 := by
  unfold toDouble
  split_ifs with h
  · constructor
    · intro _; omega
    · intro _
      have := roundNat_pos (n := n.natAbs) (by omega)
      omega
  · constructor
    · intro h1
      by_contra h2
      have := roundNat_pos (n := n.natAbs) (by omega)
      omega
    · intro h1
      have : n = 0 := by omega
      subst this
      decide

set_option exponentiation.threshold 1100 in
theorem toDouble_range (n : Int) : -infinity ≤ toDouble n ∧ toDouble n ≤ infinity := by
  have := roundNat_le n.natAbs
  unfold toDouble infinity
  split_ifs <;> constructor <;> push_cast <;> omega

theorem infinity_pos : 0 < infinity := by
  unfold infinity
  positivity

/-- The sort reads the comparator value `x - y` as "not after" exactly when
`x ≤ y`, for numbers that are not `NaN`. -/
theorem subNumber_nonpos_iff {x y : Int} (hx : -infinity ≤ x ∧ x ≤ infinity)
    (hy : -infinity ≤ y ∧ y ≤ infinity) :
    (match subNumber x y with
      | none => true
      | some v => decide (v ≤ 0)) = true ↔ x ≤ y := by
  have hpos := infinity_pos
  unfold subNumber
  split_ifs with h1 h2 h3
  · simp only [true_iff]
    omega
  · simp only [decide_eq_true_eq]
    omega
  · simp only [decide_eq_true_eq]
    omega
  · simp only [decide_eq_true_eq, toDouble_nonpos_iff]
    omega

/-! ## Lemmas on `parseInt` and `parseMonth` -/

theorem digitChar_toNat {k : Nat} (hk : k < 10) : (Nat.digitChar k).toNat = 48 + k := by
  interval_cases k <;> rfl

theorem toDigitsCore_dec (fuel : Nat) : ∀ (n : Nat) (ds : List Char),
    (∀ c ∈ ds, 48 ≤ c.toNat ∧ c.toNat ≤ 57) →
    ∀ c ∈ Nat.toDigitsCore 10 fuel n ds, 48 ≤ c.toNat ∧ c.toNat ≤ 57 := by
  induction fuel with
  | zero =>
    intro n ds h c hc
    simpa [Nat.toDigitsCore] using h c (by simpa [Nat.toDigitsCore] using hc)
  | succ fuel ih =>
    intro n ds h c hc
    have hd : ∀ c ∈ Nat.digitChar (n % 10) :: ds, 48 ≤ c.toNat ∧ c.toNat ≤ 57 := by
      intro x hx
      rcases List.mem_cons.1 hx with rfl | hx
      · have := digitChar_toNat (Nat.mod_lt n (by norm_num : 10 > 0))
        omega
      · exact h x hx
    simp only [Nat.toDigitsCore] at hc
    split_ifs at hc
    · exact hd c hc
    · exact ih _ _ hd c hc

theorem toDigitsCore_ne_nil (fuel n : Nat) (ds : List Char) :
    Nat.toDigitsCore 10 (fuel + 1) n ds ≠ [] := by
  induction fuel generalizing n ds with
  | zero =>
    simp only [Nat.toDigitsCore]
    split_ifs <;> simp
  | succ fuel ih =>
    rw [Nat.toDigitsCore]
    split_ifs
    · simp
    · exact ih _ _

/-- The base ten value read by `parseInt` from a run of digits. -/
theorem digitValue_of_dec {c : Char} (h : 48 ≤ c.toNat ∧ c.toNat ≤ 57) :
    digitValue c = some (c.toNat - 48) := by
  simp [digitValue, h.1, h.2]

theorem foldl_toDigitsCore (fuel : Nat) : ∀ (n : Nat) (ds : List Char), n < fuel →
    (Nat.toDigitsCore 10 fuel n ds).foldl (fun acc c => acc * 10 + (digitValue c).getD 0) 0 =
      ds.foldl (fun acc c => acc * 10 + (digitValue c).getD 0) n := by
  induction fuel with
  | zero => intro n ds h; omega
  | succ fuel ih =>
    intro n ds h
    have hk := digitChar_toNat (Nat.mod_lt n (by norm_num : 10 > 0))
    have hv : (digitValue (Nat.digitChar (n % 10))).getD 0 = n % 10 := by
      rw [digitValue_of_dec (by omega), hk]
      simp
    simp only [Nat.toDigitsCore]
    split_ifs with h0
    · rw [List.foldl_cons, hv]
      congr 1
      omega
    · rw [ih _ _ (by omega), List.foldl_cons, hv]
      congr 1
      omega

theorem repr_toList (n : Nat) : (Nat.repr n).toList = Nat.toDigits 10 n := rfl

theorem repr_dec (n : Nat) : ∀ c ∈ (Nat.repr n).toList, 48 ≤ c.toNat ∧ c.toNat ≤ 57 := by
  rw [repr_toList]
  exact toDigitsCore_dec _ _ _ (by simp)

theorem repr_ne_nil (n : Nat) : (Nat.repr n).toList ≠ [] := by
  rw [repr_toList]
  exact toDigitsCore_ne_nil _ _ _

theorem repr_value (n : Nat) :
    (Nat.repr n).toList.foldl (fun acc c => acc * 10 + (digitValue c).getD 0) 0 = n := by
  rw [repr_toList, Nat.toDigits, foldl_toDigitsCore _ _ _ (by omega)]
  rfl

theorem isRadixDigit_ten_of_dec {c : Char} (h : 48 ≤ c.toNat ∧ c.toNat ≤ 57) :
    isRadixDigit 10 c = true := by
  simp only [isRadixDigit, digitValue_of_dec h, decide_eq_true_eq]
  omega

theorem not_isWhiteSpace_of_dec {c : Char} (h : 48 ≤ c.toNat ∧ c.toNat ≤ 57) :
    isWhiteSpace c = false := by
  simp only [isWhiteSpace, Bool.or_eq_false_iff, Bool.and_eq_false_iff, decide_eq_false_iff_not]
  omega

theorem readSign_of_dec {d : Char} (rest : Str) (hd : 48 ≤ d.toNat ∧ d.toNat ≤ 57) :
    readSign (d :: rest) = (1, d :: rest) := by
  unfold readSign
  split
  · rename_i h
    simp only [List.cons.injEq] at h
    rw [h.1] at hd
    simp at hd
  · rename_i h
    simp only [List.cons.injEq] at h
    rw [h.1] at hd
    simp at hd
  · rfl

theorem readRadix_of_dec (ds : Str) (hdec : ∀ c ∈ ds, 48 ≤ c.toNat ∧ c.toNat ≤ 57) :
    readRadix ds = (10, ds) := by
  unfold readRadix
  split
  · have := hdec 'x' (by simp)
    simp at this
  · have := hdec 'X' (by simp)
    simp at this
  · rfl

/-- The function `parseInt` reads a run of decimal digits as its base ten value. -/
theorem parseInt_digits (ds : Str) (hne : ds ≠ [])
    (hdec : ∀ c ∈ ds, 48 ≤ c.toNat ∧ c.toNat ≤ 57) :
    parseInt ds = some (toDouble ((digitsValue 10 ds : Nat) : Int)) := by
  cases ds with
  | nil => exact absurd rfl hne
  | cons d rest =>
    have hd := hdec d (List.mem_cons_self _ _)
    have h1 : (d :: rest).dropWhile isWhiteSpace = d :: rest := by
      simp [List.dropWhile, not_isWhiteSpace_of_dec hd]
    have htake : (d :: rest).takeWhile (isRadixDigit 10) = d :: rest := by
      rw [List.takeWhile_eq_self_iff]
      intro c hc
      exact isRadixDigit_ten_of_dec (hdec c hc)
    unfold parseInt
    simp only [h1, readSign_of_dec rest hd, readRadix_of_dec _ hdec, htake]
    simp

/-- The function `parseInt` inverts the decimal notation of a natural number. -/
theorem parseInt_repr (n : Nat) :
    parseInt (Nat.repr n).toList = some (toDouble (n : Int)) := by
  rw [parseInt_digits _ (repr_ne_nil n) (repr_dec n)]
  unfold digitsValue
  rw [repr_value]

/-! ## The pasted-table parser -/

/-- C1: `parsePastedData` drops header rows.  For every text, a row whose
first non-empty field, after splitting and trimming, is `student name` or
`name` in any letter case contributes no record: the text with the row
parses to the same list as the text without it, whatever the other fields
of the row and the other rows are.  The two rows `Name<TAB>Father` and
`John Doe<TAB>Richard Roe` give exactly the record of John Doe, and the
single row `Student Name,Father Name` gives the empty list. -/
theorem parsePastedData_drops_header_rows :
    (∀ (before after : List Str) (line f : Str),
      '\n' ∉ line →
      (lineParts line).head? = some f →
      (toLowerCase f = "student name".toList ∨ toLowerCase f = "name".toList) →
      parsePastedData (joinLines (before ++ line :: after)) =
        parsePastedData (joinLines (before ++ after))) ∧
    parsePastedData "Name\tFather\nJohn Doe\tRichard Roe".toList =
      [{ name := "John Doe".toList, father := "Richard Roe".toList }] ∧
    parsePastedData "Student Name,Father Name".toList = [] := by
  refine ⟨?_, by decide, by decide⟩
  intro before after line f hline hf hh
  exact parsePastedData_remove_row before after hline (parseStep_of_header hf hh)

/-- Witness of C1: the header row `Name<TAB>Father` in front of the row of
John Doe. -/
theorem parsePastedData_drops_header_rows_witness :
    '\n' ∉ "Name\tFather".toList ∧
    (lineParts "Name\tFather".toList).head? = some "Name".toList ∧
    (toLowerCase "Name".toList = "student name".toList ∨
      toLowerCase "Name".toList = "name".toList) ∧
    parsePastedData (joinLines ([] ++ "Name\tFather".toList ::
        ["John Doe\tRichard Roe".toList])) =
      parsePastedData (joinLines ([] ++ ["John Doe\tRichard Roe".toList])) :=
  ⟨by decide, by decide, by decide,
    parsePastedData_drops_header_rows.1 [] ["John Doe\tRichard Roe".toList]
      "Name\tFather".toList "Name".toList (by decide) (by decide) (by decide)⟩

/-- C2: `parsePastedData` silently drops malformed rows and keeps all
others.  For every text the result is, in the order of the rows, one record
for each row that is not a header row and yields at least two non-empty
trimmed fields; a row yielding fewer than two such fields contributes no
record, and a blank or white-space-only row yields no field at all.  The
function is total: it returns a list on every string. -/
theorem parsePastedData_keeps_wellformed_rows :
    (∀ data : Str,
      parsePastedData data =
        ((split '\n' data).filter (fun line =>
            !isHeaderParts (lineParts line) && decide (2 ≤ (lineParts line).length))).map
          (fun line =>
            { name := (lineParts line).getD 0 [], father := (lineParts line).getD 1 [] })) ∧
    (∀ (before after : List Str) (line : Str),
      '\n' ∉ line → (lineParts line).length < 2 →
      parsePastedData (joinLines (before ++ line :: after)) =
        parsePastedData (joinLines (before ++ after))) ∧
    (∀ line : Str, (∀ c ∈ line, isWhiteSpace c = true) → lineParts line = []) := by
  refine ⟨?_, ?_, ?_⟩
  · intro data
    rw [parsePastedData_eq_flatMap]
    apply flatMap_eq_map_filter
    intro line
    unfold parseStep
    simp only
    by_cases hh : isHeaderParts (lineParts line) = true
    · simp [hh]
    · by_cases hl : 2 ≤ (lineParts line).length
      · simp [hh, hl]
      · simp [hh, hl]
  · intro before after line hline hlen
    apply parsePastedData_remove_row before after hline
    unfold parseStep
    simp only
    split_ifs with h1 h2
    · rfl
    · omega
    · rfl
  · intro line h
    exact lineParts_of_blank h

/-- Witness of C2: the one-field row `only` and a white-space-only row
between two well-formed rows. -/
theorem parsePastedData_keeps_wellformed_rows_witness :
    '\n' ∉ "only".toList ∧ (lineParts "only".toList).length < 2 ∧
    parsePastedData (joinLines (["a,b".toList] ++ "only".toList :: ["c,d".toList])) =
      parsePastedData (joinLines (["a,b".toList] ++ ["c,d".toList])) ∧
    (∀ c ∈ " \t\r".toList, isWhiteSpace c = true) ∧ lineParts " \t\r".toList = [] :=
  ⟨by decide, by decide,
    parsePastedData_keeps_wellformed_rows.2.1 ["a,b".toList] ["c,d".toList]
      "only".toList (by decide) (by decide),
    by decide,
    parsePastedData_keeps_wellformed_rows.2.2 " \t\r".toList (by decide)⟩

/-- C3: `parsePastedData` chooses the separator per line, tab before
comma.  For a line that includes a tab, `parts` comes from the pieces of the
line between its tabs, so the commas stay inside the pieces; for a line
without a tab it comes from the pieces between its commas.  In both cases
the pieces joined by the separator give the line back and no piece contains
the separator.  The line `A,B<TAB>C` yields name `A,B` and father `C`. -/
theorem lineParts_tab_before_comma :
    (∀ line : Str, '\t' ∈ line →
      lineParts line = ((split '\t' line).map trim).filter truthy ∧
      List.intercalate ['\t'] (split '\t' line) = line ∧
      ∀ f ∈ split '\t' line, '\t' ∉ f) ∧
    (∀ line : Str, '\t' ∉ line →
      lineParts line = ((split ',' line).map trim).filter truthy ∧
      List.intercalate [','] (split ',' line) = line ∧
      ∀ f ∈ split ',' line, ',' ∉ f) ∧
    parsePastedData "A,B\tC".toList =
      [{ name := "A,B".toList, father := "C".toList }] := by
  refine ⟨?_, ?_, by decide⟩
  · intro line h
    exact ⟨by simp [lineParts, h], intercalate_split _ _, fun f hf => not_mem_of_mem_split hf⟩
  · intro line h
    exact ⟨by simp [lineParts, h], intercalate_split _ _, fun f hf => not_mem_of_mem_split hf⟩

/-- Witness of C3: the line `A,B<TAB>C`, which has a tab and a comma, and
the line `A, B`, which has no tab. -/
theorem lineParts_tab_before_comma_witness :
    ('\t' ∈ "A,B\tC".toList ∧
      lineParts "A,B\tC".toList = ((split '\t' "A,B\tC".toList).map trim).filter truthy ∧
      List.intercalate ['\t'] (split '\t' "A,B\tC".toList) = "A,B\tC".toList ∧
      ∀ f ∈ split '\t' "A,B\tC".toList, '\t' ∉ f) ∧
    ('\t' ∉ "A, B".toList ∧
      lineParts "A, B".toList = ((split ',' "A, B".toList).map trim).filter truthy ∧
      List.intercalate [','] (split ',' "A, B".toList) = "A, B".toList ∧
      ∀ f ∈ split ',' "A, B".toList, ',' ∉ f) :=
  ⟨⟨by decide, lineParts_tab_before_comma.1 "A,B\tC".toList (by decide)⟩,
    ⟨by decide, lineParts_tab_before_comma.2.1 "A, B".toList (by decide)⟩⟩

theorem space_not_mem_repr (n : Nat) : ' ' ∉ (Nat.repr n).toList := by
  intro h
  have := repr_dec n _ h
  simp at this

theorem numOr_index (i : Nat) : numOr (some (i : Int)) 0 = i := by
  simp only [numOr]
  split_ifs with h
  · exact h.symm
  · rfl

theorem findIdx?_eq_none_of_not_mem {w : Str} {arr : List Str} (hw : w ∉ arr) :
    arr.findIdx? (fun a => decide (a = w)) = none := by
  rw [List.findIdx?_eq_none_iff]
  intro a ha
  simp only [decide_eq_false_iff_not]
  rintro rfl
  exact hw ha

theorem monthIdx_of_not_mem {w : Str} (hw : w ∉ monthNames) : monthIdx (some w) = -1 := by
  simp [monthIdx, indexOf, findIdx?_eq_none_of_not_mem hw, numOr]

theorem monthNames_findIdx? : ∀ i < 12, ∀ m, monthNames[i]? = some m →
    monthNames.findIdx? (fun a => decide (a = m)) = some i := by
  intro i hi m hm
  interval_cases i <;> (simp [monthNames] at hm; subst hm; decide)

theorem monthNames_index_lt {i : Nat} {m : Str} (hm : monthNames[i]? = some m) : i < 12 := by
  have := (List.getElem?_eq_some_iff.1 hm).1
  simpa [monthNames] using this

theorem monthIdx_of_getElem? {i : Nat} {m : Str} (hm : monthNames[i]? = some m) :
    monthIdx (some m) = (i : Int) := by
  simp only [monthIdx, indexOf, monthNames_findIdx? i (monthNames_index_lt hm) m hm]
  exact numOr_index i

theorem space_not_mem_monthNames : ∀ m ∈ monthNames, ' ' ∉ m := by decide

theorem parts_monthLabel {w : Str} (hw : ' ' ∉ w) (y : Nat) :
    split ' ' (monthLabel w y) = [w, (Nat.repr y).toList] := by
  unfold monthLabel
  rw [split_append_sep, split_of_not_mem hw, split_of_not_mem (space_not_mem_repr y)]
  rfl

/-- The local `monthIdx` is `-1` or an index of the table. -/
theorem monthIdx_range (part0 : Option Str) : -1 ≤ monthIdx part0 ∧ monthIdx part0 ≤ 11 := by
  cases part0 with
  | none => decide
  | some w =>
    by_cases hw : w ∈ monthNames
    · obtain ⟨i, hi⟩ := List.getElem?_of_mem hw
      have := monthNames_index_lt hi
      rw [monthIdx_of_getElem? hi]
      omega
    · rw [monthIdx_of_not_mem hw]
      omega

/-- The key of a label `<word> <year>` with a positive year, whatever its
size: the year, the product and the sum are each rounded. -/
theorem parseMonth_monthLabel_rounded {w : Str} (hw : ' ' ∉ w) {y : Nat} (hy : 0 < y) :
    parseMonth (some (monthLabel w y)) =
      toDouble (toDouble (toDouble (y : Int) * 12) + monthIdx (some w)) := by
  have hne : truthy (monthLabel w y) = true := by
    unfold monthLabel truthy
    cases w <;> rfl
  have hpos : ¬ toDouble (y : Int) ≤ 0 := by
    rw [toDouble_nonpos_iff]
    omega
  have hyear : yearOf (some (Nat.repr y).toList) = toDouble (y : Int) := by
    simp only [yearOf, parseIntOf, parseInt_repr, numOr]
    rw [if_neg (by omega)]
  simp only [parseMonth, hne, if_true, parts_monthLabel hw]
  rw [show [w, (Nat.repr y).toList][0]? = some w from rfl,
    show [w, (Nat.repr y).toList][1]? = some (Nat.repr y).toList from rfl, hyear]

/-- The key when the year is below the range where doubles have gaps. -/
theorem key_exact {year idx : Int} (h0 : 0 < year) (hy : year ≤ 750599937895081)
    (h1 : -1 ≤ idx) (h2 : idx ≤ 11) : toDouble (toDouble (year * 12) + idx) = year * 12 + idx := by
  rw [toDouble_of_lt (n := year * 12) (by omega) (by omega)]
  exact toDouble_of_lt (by omega) (by omega)

/-- The key of a label `<word> <year>` with a positive year in the range
where `Y * 12 + 11` is below `2 ^ 53`. -/
theorem parseMonth_monthLabel {w : Str} (hw : ' ' ∉ w) {y : Nat} (hy : 0 < y)
    (hb : y ≤ 750599937895081) :
    parseMonth (some (monthLabel w y)) = (y : Int) * 12 + monthIdx (some w) := by
  have hne : truthy (monthLabel w y) = true := by
    unfold monthLabel truthy
    cases w <;> rfl
  have hyear : yearOf (some (Nat.repr y).toList) = y := by
    simp only [yearOf, parseIntOf, parseInt_repr, numOr]
    rw [toDouble_of_lt (n := (y : Int)) (by omega) (by omega), if_neg (by omega)]
  simp only [parseMonth, hne, if_true, parts_monthLabel hw]
  rw [show [w, (Nat.repr y).toList][0]? = some w from rfl,
    show [w, (Nat.repr y).toList][1]? = some (Nat.repr y).toList from rfl, hyear]
  exact key_exact (by omega) (by omega) (monthIdx_range _).1 (monthIdx_range _).2

theorem readSign_of_ne {c : Char} (rest : Str) (h1 : c ≠ '-') (h2 : c ≠ '+') :
    readSign (c :: rest) = (1, c :: rest) := by
  unfold readSign
  split
  · rename_i h
    simp only [List.cons.injEq] at h
    exact absurd h.1 h1
  · rename_i h
    simp only [List.cons.injEq] at h
    exact absurd h.1 h2
  · rfl

theorem readRadix_of_not_digit {d : Char} (r : Str) (hd : isDecimalDigit d = false) :
    readRadix (d :: r) = (10, d :: r) := by
  unfold readRadix
  split
  · rename_i h
    simp only [List.cons.injEq] at h
    rw [h.1] at hd
    exact absurd hd (by decide)
  · rename_i h
    simp only [List.cons.injEq] at h
    rw [h.1] at hd
    exact absurd hd (by decide)
  · rfl

/-- The digits step of `parseInt` finds no digit in a string that does not
start with a decimal digit. -/
theorem no_digits_of_not_digit (s : Str)
    (hs : ∀ d r, s = d :: r → isDecimalDigit d = false) :
    ((readRadix s).2.takeWhile (isRadixDigit (readRadix s).1)).isEmpty = true := by
  cases s with
  | nil => rfl
  | cons d r =>
    have hd := hs d r rfl
    rw [readRadix_of_not_digit r hd]
    have : isRadixDigit 10 d = false := hd
    simp [List.takeWhile, this]

/-- The result of `parseInt` is `NaN` on a word that does not begin with an integer. -/
theorem parseInt_of_not_beginsWithInteger {w : Str} (h : beginsWithInteger w = false) :
    parseInt w = none := by
  unfold beginsWithInteger at h
  unfold parseInt
  generalize w.dropWhile isWhiteSpace = s1 at h
  have key : ∀ s : Str, (∀ d r, s = d :: r → isDecimalDigit d = false) →
      ∀ sg : Int, (if ((readRadix s).2.takeWhile (isRadixDigit (readRadix s).1)).isEmpty = true
        then (none : Num)
        else some (toDouble (sg * (digitsValue (readRadix s).1
          ((readRadix s).2.takeWhile (isRadixDigit (readRadix s).1)) : Int)))) = none := by
    intro s hs sg
    rw [if_pos (no_digits_of_not_digit s hs)]
  cases s1 with
  | nil => rfl
  | cons c rest =>
    by_cases hc : c = '-' ∨ c = '+'
    · simp only [hc, if_true] at h
      have hrest : ∀ d r, rest = d :: r → isDecimalDigit d = false := by
        intro d r hr
        subst hr
        exact h
      rcases hc with rfl | rfl
      · exact key rest hrest (-1)
      · exact key rest hrest 1
    · simp only [hc, if_false] at h
      have h1 : c ≠ '-' := fun e => hc (Or.inl e)
      have h2 : c ≠ '+' := fun e => hc (Or.inr e)
      simp only [readSign_of_ne rest h1 h2]
      exact key (c :: rest) (by
        intro d r hr
        simp only [List.cons.injEq] at hr
        rw [← hr.1]
        exact h) 1

theorem yearOf_of_not_beginsWithInteger {w : Str} (h : beginsWithInteger w = false) :
    yearOf (some w) = 2026 := by
  simp [yearOf, parseIntOf, parseInt_of_not_beginsWithInteger h, numOr]

theorem yearOf_none : yearOf none = 2026 := by decide

/-! ## The month sort key and the payment history -/

set_option exponentiation.threshold 1100 in
/-- C4, as the script computes it for a very large year.  The key is a
double, and from `2 ^ 53` on not every integer is one.  The label
`January 1501199875790166` has the key `1501199875790166 * 12`, which is
the double `18014398509481992`, and `February 1501199875790166` has the
same key, although `(Y, 0)` is lexicographically less than `(Y, 1)`.  The
first year at which two months share a key is 750599937895082, where
`September` has the key `2 ^ 53` and `October` rounds to it. -/
theorem parseMonth_large_year_keys :
    monthNames[0]? = some "January".toList ∧ monthNames[1]? = some "February".toList ∧
    parseMonth (some (monthLabel "January".toList 1501199875790166)) = 18014398509481992 ∧
    parseMonth (some (monthLabel "February".toList 1501199875790166)) = 18014398509481992 ∧
    ¬(parseMonth (some (monthLabel "January".toList 1501199875790166)) <
          parseMonth (some (monthLabel "February".toList 1501199875790166)) ↔
        (1501199875790166 < 1501199875790166 ∨
          (1501199875790166 = 1501199875790166 ∧ 0 < 1))) ∧
    parseMonth (some (monthLabel "September".toList 750599937895082)) = 2 ^ 53 ∧
    parseMonth (some (monthLabel "October".toList 750599937895082)) = 2 ^ 53 := by
  decide

/-- C4: the sort key `parseMonth` respects calendar order on recognised
labels.  For two labels `<M1> <Y1>` and `<M2> <Y2>` whose month names stand
at the indices `i1` and `i2` of the twelve fixed names and whose years are
positive integers up to 750599937895081, the years for which `Y * 12 + 11`
is below `2 ^ 53`, the key of the first is less than the key of the second
exactly when `(Y1, i1)` is lexicographically less than `(Y2, i2)`; and the
key of `December 2026` is greater than the key of `January 2026`. -/
theorem parseMonth_calendar_order :
    (∀ (m1 m2 : Str) (i1 i2 y1 y2 : Nat),
      monthNames[i1]? = some m1 → monthNames[i2]? = some m2 → 0 < y1 → 0 < y2 →
      y1 ≤ 750599937895081 → y2 ≤ 750599937895081 →
      (parseMonth (some (monthLabel m1 y1)) < parseMonth (some (monthLabel m2 y2)) ↔
        (y1 < y2 ∨ (y1 = y2 ∧ i1 < i2)))) ∧
    parseMonth (some "January 2026".toList) < parseMonth (some "December 2026".toList) := by
  refine ⟨?_, by decide⟩
  intro m1 m2 i1 i2 y1 y2 h1 h2 hy1 hy2 hb1 hb2
  rw [parseMonth_monthLabel (space_not_mem_monthNames m1 (List.getElem?_mem h1)) hy1 hb1,
    parseMonth_monthLabel (space_not_mem_monthNames m2 (List.getElem?_mem h2)) hy2 hb2,
    monthIdx_of_getElem? h1, monthIdx_of_getElem? h2]
  have b1 := monthNames_index_lt h1
  have b2 := monthNames_index_lt h2
  omega

/-- Witness of C4: `November 2025` against `February 2026`. -/
theorem parseMonth_calendar_order_witness :
    monthNames[10]? = some "November".toList ∧ monthNames[1]? = some "February".toList ∧
    (parseMonth (some (monthLabel "November".toList 2025)) <
        parseMonth (some (monthLabel "February".toList 2026)) ↔
      (2025 < 2026 ∨ (2025 = 2026 ∧ 10 < 1))) :=
  ⟨by decide, by decide,
    parseMonth_calendar_order.1 "November".toList "February".toList 10 1 2025 2026
      (by decide) (by decide) (by decide) (by decide) (by decide) (by decide)⟩

/-- C5: the key that `parseMonth` gives to a label whose first word is not
one of the twelve month names.  `monthNames.indexOf` answers `-1`, which is
truthy, so `|| 0` does not replace it: for a first word `w` outside the
twelve names and every positive year `Y` the key is the double of
`Y * 12 - 1`, where `Y * 12 + 0` was meant: with `R` for the rounding to a
double, it is `R (R (R Y * 12) - 1)`.  For `Y` up to 750599937895081, where
the arithmetic of the key is exact, the key is `Y * 12 - 1`, one less than
the key of `January Y`.  `Foo 2026` has the key 24311 and `January 2026` the
key 24312. -/
theorem parseMonth_unrecognised_month :
    (∀ (w : Str) (y : Nat), w ∉ monthNames → ' ' ∉ w → 0 < y →
      parseMonth (some (monthLabel w y)) =
        toDouble (toDouble (toDouble (y : Int) * 12) + -1)) ∧
    (∀ (w : Str) (y : Nat), w ∉ monthNames → ' ' ∉ w → 0 < y → y ≤ 750599937895081 →
      parseMonth (some (monthLabel w y)) = (y : Int) * 12 - 1 ∧
      parseMonth (some (monthLabel w y)) ≠
        parseMonth (some (monthLabel "January".toList y))) ∧
    parseMonth (some "Foo 2026".toList) = 24311 ∧
    parseMonth (some "January 2026".toList) = 24312 := by
  refine ⟨?_, ?_, by decide, by decide⟩
  · intro w y hw hsp hy
    rw [parseMonth_monthLabel_rounded hsp hy, monthIdx_of_not_mem hw]
  · intro w y hw hsp hy hb
    have hjan : monthIdx (some "January".toList) = 0 := by decide
    rw [parseMonth_monthLabel hsp hy hb, parseMonth_monthLabel (by decide) hy hb,
      monthIdx_of_not_mem hw, hjan]
    constructor <;> omega

/-- Witness of C5: the label `Foo 2026`. -/
theorem parseMonth_unrecognised_month_witness :
    "Foo".toList ∉ monthNames ∧ ' ' ∉ "Foo".toList ∧
    parseMonth (some (monthLabel "Foo".toList 2026)) =
      toDouble (toDouble (toDouble ((2026 : Nat) : Int) * 12) + -1) ∧
    parseMonth (some (monthLabel "Foo".toList 2026)) = ((2026 : Nat) : Int) * 12 - 1 ∧
    parseMonth (some (monthLabel "Foo".toList 2026)) ≠
      parseMonth (some (monthLabel "January".toList 2026)) :=
  ⟨by decide, by decide,
    parseMonth_unrecognised_month.1 "Foo".toList 2026 (by decide) (by decide) (by decide),
    parseMonth_unrecognised_month.2.1 "Foo".toList 2026 (by decide) (by decide) (by decide)
      (by decide)⟩

/-- C6: the key that `parseMonth` gives to a label without a usable year.
The year does fall back to 2026.  For a label whose first word is the month
name at index `i` of the table and that has no second word, or a second word
that does not begin with an integer, the key is `2026 * 12 + i`, the key of
that month of 2026.  For a missing or an empty label the first word is the
empty string, for which `monthNames.indexOf` answers `-1`, and `|| 0` keeps
`-1` as for every word outside the table: the key is `2026 * 12 - 1`, that
is 24311, the key of `December 2025`, which is below the key of every month
of 2026, and not `2026 * 12 + 0`.  The label `Soon` has that key too. -/
theorem parseMonth_year_fallback :
    yearOf none = 2026 ∧
    monthIdx (some []) = -1 ∧
    parseMonth none = 24311 ∧
    parseMonth (some []) = 24311 ∧
    parseMonth (some "Soon".toList) = 24311 ∧
    parseMonth (some "December 2025".toList) = 24311 ∧
    (∀ label ∈ get2026Months, parseMonth none < parseMonth (some label)) ∧
    (∀ (i : Nat) (m s : Str), monthNames[i]? = some m → (split ' ' s)[0]? = some m →
      ((split ' ' s)[1]? = none ∨
        ∃ w, (split ' ' s)[1]? = some w ∧ beginsWithInteger w = false) →
      parseMonth (some s) = 2026 * 12 + (i : Int) ∧
      parseMonth (some s) = parseMonth (some (monthLabel m 2026))) := by
  refine ⟨by decide, by decide, by decide, by decide, by decide, by decide, by decide, ?_⟩
  intro i m s hm h0 h1
  have hsp := space_not_mem_monthNames m (List.getElem?_mem hm)
  have hi := monthNames_index_lt hm
  have hyear : yearOf (split ' ' s)[1]? = 2026 := by
    rcases h1 with h1 | ⟨w, h1, hw⟩
    · rw [h1, yearOf_none]
    · rw [h1, yearOf_of_not_beginsWithInteger hw]
  have hkey : parseMonth (some s) = 2026 * 12 + (i : Int) := by
    cases s with
    | nil =>
      simp only [split, List.getElem?_cons_zero, Option.some.injEq] at h0
      subst h0
      have hmem := List.getElem?_mem hm
      exact absurd hmem (by decide)
    | cons c cs =>
      have ht : truthy (c :: cs) = true := rfl
      simp only [parseMonth, ht, if_true, h0, hyear, monthIdx_of_getElem? hm]
      exact key_exact (by norm_num) (by norm_num) (by omega) (by omega)
  refine ⟨hkey, ?_⟩
  rw [hkey, parseMonth_monthLabel hsp (by norm_num) (by norm_num), monthIdx_of_getElem? hm]
  norm_num

/-- Witness of C6: the labels `March` and `March soon`. -/
theorem parseMonth_year_fallback_witness :
    (monthNames[2]? = some "March".toList ∧
      (split ' ' "March".toList)[0]? = some "March".toList ∧
      (split ' ' "March".toList)[1]? = none ∧
      parseMonth (some "March".toList) = 2026 * 12 + ((2 : Nat) : Int) ∧
      parseMonth (some "March".toList) = parseMonth (some (monthLabel "March".toList 2026))) ∧
    ((split ' ' "March soon".toList)[0]? = some "March".toList ∧
      (split ' ' "March soon".toList)[1]? = some "soon".toList ∧
      beginsWithInteger "soon".toList = false ∧
      parseMonth (some "March soon".toList) = 2026 * 12 + ((2 : Nat) : Int) ∧
      parseMonth (some "March soon".toList) =
        parseMonth (some (monthLabel "March".toList 2026))) :=
  ⟨⟨by decide, by decide, by decide,
      parseMonth_year_fallback.2.2.2.2.2.2.2 2 "March".toList "March".toList
        (by decide) (by decide) (Or.inl (by decide))⟩,
    ⟨by decide, by decide, by decide,
      parseMonth_year_fallback.2.2.2.2.2.2.2 2 "March".toList "March soon".toList
        (by decide) (by decide) (Or.inr ⟨"soon".toList, by decide, by decide⟩)⟩⟩

/-- C7: `showStudentProfile` renders the payment history newest first.
For every list of records, the rendered rows are the rows of
`sortedRecords`, which is a permutation of the input records in which the
`parseMonth` key of each record is greater than or equal to the key of
every record after it, and the input array `data.records` is left as it
was. -/
theorem showStudentProfile_newest_first (data : ProfileData) :
    (showStudentProfile data).sortedRecords.Perm data.records ∧
    (showStudentProfile data).sortedRecords.Pairwise
      (fun a b => parseMonth b.month ≤ parseMonth a.month) ∧
    (showStudentProfile data).rows =
      (showStudentProfile data).sortedRecords.map profileRow ∧
    (showStudentProfile data).records = data.records := by
  refine ⟨?_, ?_, rfl, rfl⟩
  · exact List.mergeSort_perm _ _
  · have hle : ∀ a b : FeeRecord,
        (match compareMonths a b with
          | none => true
          | some v => decide (v ≤ 0)) = true ↔ parseMonth b.month ≤ parseMonth a.month := by
      intro a b
      exact subNumber_nonpos_iff (toDouble_range _) (toDouble_range _)
    have h := @List.sorted_mergeSort FeeRecord
      (fun a b : FeeRecord =>
        match compareMonths a b with
        | none => true
        | some v => decide (v ≤ 0))
      (by
        intro a b c hab hbc
        rw [hle] at *
        omega)
      (by
        intro a b
        rw [Bool.or_eq_true, hle, hle]
        omega)
      data.records
    refine List.Pairwise.imp ?_ h
    intro a b hab
    exact (hle a b).1 hab

/-- The template literal of `currentProfileKey` writes a `null`
`father_name` as `null` and a missing one as `undefined`. -/
theorem currentProfileKey_father (data : ProfileData) :
    (data.student.fatherName = Field.null →
      (showStudentProfile data).currentProfileKey = data.student.name ++ "_null".toList) ∧
    (data.student.fatherName = Field.undefined →
      (showStudentProfile data).currentProfileKey =
        data.student.name ++ "_undefined".toList) := by
  constructor <;> intro h <;> simp [showStudentProfile, h, Field.text]

/-! ## Lemmas on the selection sets -/

theorem mem_setDelete {set : List Str} {x y : Str} :
    x ∈ setDelete set y ↔ x ∈ set ∧ x ≠ y := by
  simp [setDelete]

theorem mem_setAdd {set : List Str} {x y : Str} :
    x ∈ setAdd set y ↔ x ∈ set ∨ x = y := by
  unfold setAdd
  split_ifs with h
  · constructor
    · exact Or.inl
    · rintro (h1 | rfl)
      · exact h1
      · exact h
  · simp

/-- Membership after one toggle of `y`: `y` changes sides, every other
value stays where it was. -/
theorem mem_setToggle {set : List Str} {x y : Str} :
    x ∈ setToggle set y ↔ (x ∈ set ∧ x ≠ y) ∨ (x = y ∧ y ∉ set) := by
  unfold setToggle setHas
  by_cases h : y ∈ set
  · simp only [h, decide_True, if_true, mem_setDelete, not_true_eq_false, and_false, or_false]
  · simp only [h, decide_False, Bool.false_eq_true, if_false, mem_setAdd, not_false_eq_true,
      and_true]
    constructor
    · rintro (h1 | rfl)
      · exact Or.inl ⟨h1, fun e => h (e ▸ h1)⟩
      · exact Or.inr rfl
    · rintro (⟨h1, _⟩ | h1)
      · exact Or.inl h1
      · exact Or.inr h1

theorem mem_setToggle_twice {set : List Str} {x y : Str} :
    x ∈ setToggle (setToggle set y) y ↔ x ∈ set := by
  rw [mem_setToggle, mem_setToggle, mem_setToggle]
  by_cases hx : x = y
  · subst hx
    by_cases h : x ∈ set <;> simp [h]
  · simp [hx]

theorem renderMonthTags_sets (containerId : Str) (s : State) :
    (renderMonthTags containerId s).selectedBulkMonths = s.selectedBulkMonths ∧
    (renderMonthTags containerId s).selectedAddMonths = s.selectedAddMonths ∧
    (renderMonthTags containerId s).selectedStudentsSet = s.selectedStudentsSet := by
  unfold renderMonthTags
  split <;> exact ⟨rfl, rfl, rfl⟩

theorem toggleMonthTag_bulk (month : Str) (s : State) :
    (toggleMonthTag "bulkMonthTags".toList month s).selectedBulkMonths =
        setToggle s.selectedBulkMonths month ∧
    (toggleMonthTag "bulkMonthTags".toList month s).selectedAddMonths = s.selectedAddMonths ∧
    (toggleMonthTag "bulkMonthTags".toList month s).selectedStudentsSet =
        s.selectedStudentsSet := by
  unfold toggleMonthTag
  simp only [if_true]
  obtain ⟨h1, h2, h3⟩ := renderMonthTags_sets "bulkMonthTags".toList
    { s with selectedBulkMonths := setToggle s.selectedBulkMonths month }
  exact ⟨h1, h2, h3⟩

theorem toggleMonthTag_add {containerId : Str} (hc : containerId ≠ "bulkMonthTags".toList)
    (month : Str) (s : State) :
    (toggleMonthTag containerId month s).selectedBulkMonths = s.selectedBulkMonths ∧
    (toggleMonthTag containerId month s).selectedAddMonths =
        setToggle s.selectedAddMonths month ∧
    (toggleMonthTag containerId month s).selectedStudentsSet = s.selectedStudentsSet := by
  unfold toggleMonthTag
  simp only [if_neg hc]
  obtain ⟨h1, h2, h3⟩ := renderMonthTags_sets containerId
    { s with selectedAddMonths := setToggle s.selectedAddMonths month }
  exact ⟨h1, h2, h3⟩

theorem updateSelectedCount_set (s : State) :
    (updateSelectedCount s).selectedStudentsSet = s.selectedStudentsSet := by
  unfold updateSelectedCount
  split <;> rfl

theorem toggleStudent_set (name father : Str) (s : State) :
    (toggleStudent name father s).selectedStudentsSet =
      setToggle s.selectedStudentsSet (name ++ '_' :: father) := by
  unfold toggleStudent
  simp only [updateSelectedCount_set]
  rfl

/-! ## The selection sets -/

/-- C8: toggling a selection value twice is a no-op.  For every state,
container id and month, after two calls of `toggleMonthTag` with the same
arguments both month sets have exactly the members they had; and for every
state, name and father, after two calls of `toggleStudent` with the same
arguments the student set has exactly the members it had. -/
theorem toggle_twice_restores_membership :
    (∀ (s : State) (containerId month x : Str),
      (x ∈ (toggleMonthTag containerId month
              (toggleMonthTag containerId month s)).selectedBulkMonths ↔
          x ∈ s.selectedBulkMonths) ∧
      (x ∈ (toggleMonthTag containerId month
              (toggleMonthTag containerId month s)).selectedAddMonths ↔
          x ∈ s.selectedAddMonths)) ∧
    (∀ (s : State) (name father x : Str),
      x ∈ (toggleStudent name father (toggleStudent name father s)).selectedStudentsSet ↔
        x ∈ s.selectedStudentsSet) := by
  constructor
  · intro s containerId month x
    by_cases hc : containerId = "bulkMonthTags".toList
    · subst hc
      rw [(toggleMonthTag_bulk month _).1, (toggleMonthTag_bulk month _).2.1,
        (toggleMonthTag_bulk month s).1, (toggleMonthTag_bulk month s).2.1]
      exact ⟨mem_setToggle_twice, Iff.rfl⟩
    · rw [(toggleMonthTag_add hc month _).1, (toggleMonthTag_add hc month _).2.1,
        (toggleMonthTag_add hc month s).1, (toggleMonthTag_add hc month s).2.1]
      exact ⟨Iff.rfl, mem_setToggle_twice⟩
  · intro s name father x
    rw [toggleStudent_set, toggleStudent_set]
    exact mem_setToggle_twice

/-- C9: `toggleMonthTag` changes only the named value in the named set.
When the container id is `bulkMonthTags` the membership of `month` in
`selectedBulkMonths` is negated, every other month keeps its membership
there, and `selectedAddMonths` is unchanged; for every other id the same
holds with the two sets exchanged; the student set is unchanged in both
cases. -/
theorem toggleMonthTag_frame (s : State) (containerId month : Str) :
    (containerId = "bulkMonthTags".toList →
      (month ∈ (toggleMonthTag containerId month s).selectedBulkMonths ↔
        month ∉ s.selectedBulkMonths) ∧
      (∀ x : Str, x ≠ month →
        (x ∈ (toggleMonthTag containerId month s).selectedBulkMonths ↔
          x ∈ s.selectedBulkMonths)) ∧
      (toggleMonthTag containerId month s).selectedAddMonths = s.selectedAddMonths) ∧
    (containerId ≠ "bulkMonthTags".toList →
      (month ∈ (toggleMonthTag containerId month s).selectedAddMonths ↔
        month ∉ s.selectedAddMonths) ∧
      (∀ x : Str, x ≠ month →
        (x ∈ (toggleMonthTag containerId month s).selectedAddMonths ↔
          x ∈ s.selectedAddMonths)) ∧
      (toggleMonthTag containerId month s).selectedBulkMonths = s.selectedBulkMonths) ∧
    (toggleMonthTag containerId month s).selectedStudentsSet = s.selectedStudentsSet := by
  refine ⟨?_, ?_, ?_⟩
  · intro hc
    subst hc
    obtain ⟨h1, h2, _⟩ := toggleMonthTag_bulk month s
    rw [h1, h2]
    refine ⟨?_, ?_, rfl⟩
    · rw [mem_setToggle]
      simp
    · intro x hx
      rw [mem_setToggle]
      simp [hx]
  · intro hc
    obtain ⟨h1, h2, _⟩ := toggleMonthTag_add hc month s
    rw [h1, h2]
    refine ⟨?_, ?_, rfl⟩
    · rw [mem_setToggle]
      simp
    · intro x hx
      rw [mem_setToggle]
      simp [hx]
  · by_cases hc : containerId = "bulkMonthTags".toList
    · subst hc
      exact (toggleMonthTag_bulk month s).2.2
    · exact (toggleMonthTag_add hc month s).2.2

/-- Witness of C9: `May 2026` toggled in the bulk form and in the add-month
form of the example state. -/
theorem toggleMonthTag_frame_witness :
    ((("May 2026".toList ∈ (toggleMonthTag "bulkMonthTags".toList "May 2026".toList
          exampleState).selectedBulkMonths ↔
        "May 2026".toList ∉ exampleState.selectedBulkMonths) ∧
      (∀ x : Str, x ≠ "May 2026".toList →
        (x ∈ (toggleMonthTag "bulkMonthTags".toList "May 2026".toList
            exampleState).selectedBulkMonths ↔
          x ∈ exampleState.selectedBulkMonths)) ∧
      (toggleMonthTag "bulkMonthTags".toList "May 2026".toList
          exampleState).selectedAddMonths = exampleState.selectedAddMonths)) ∧
    ((("May 2026".toList ∈ (toggleMonthTag "addMonthTags".toList "May 2026".toList
          exampleState).selectedAddMonths ↔
        "May 2026".toList ∉ exampleState.selectedAddMonths) ∧
      (∀ x : Str, x ≠ "May 2026".toList →
        (x ∈ (toggleMonthTag "addMonthTags".toList "May 2026".toList
            exampleState).selectedAddMonths ↔
          x ∈ exampleState.selectedAddMonths)) ∧
      (toggleMonthTag "addMonthTags".toList "May 2026".toList
          exampleState).selectedBulkMonths = exampleState.selectedBulkMonths)) :=
  ⟨(toggleMonthTag_frame exampleState "bulkMonthTags".toList "May 2026".toList).1 rfl,
    (toggleMonthTag_frame exampleState "addMonthTags".toList "May 2026".toList).2.1
      (by decide)⟩

/-! ## Lemmas on `performSearch` -/

theorem isDecimalDigit_iff (c : Char) :
    isDecimalDigit c = true ↔ 48 ≤ c.toNat ∧ c.toNat ≤ 57 := by
  unfold isDecimalDigit isRadixDigit digitValue
  constructor
  · intro h
    by_contra hc
    rw [if_neg hc] at h
    split_ifs at h <;> simp at h
  · intro h
    rw [if_pos h]
    simp only [decide_eq_true_eq]
    omega

/-- On ASCII the upper case of a character is one character. -/
theorem upperChar_of_ascii {c : Char} (h : c.toNat < 128) : upperChar c = [c.toUpper] := by
  unfold upperChar
  repeat rw [if_neg (by omega)]

theorem toUpperCase_of_ascii (s : Str) (h : ∀ c ∈ s, c.toNat < 128) :
    toUpperCase s = s.map Char.toUpper := by
  induction s with
  | nil => rfl
  | cons c s ih =>
    have hs := ih (fun x hx => h x (List.mem_cons_of_mem _ hx))
    unfold toUpperCase at hs ⊢
    rw [List.flatMap_cons, hs, upperChar_of_ascii (h c (List.mem_cons_self _ _))]
    rfl

theorem toUpper_of_digit {c : Char} (h : isDecimalDigit c = true) : c.toUpper = c := by
  have := (isDecimalDigit_iff c).1 h
  unfold Char.toUpper
  simp only
  rw [if_neg (by omega)]

theorem toUpper_of_letter {c : Char} (h : isAsciiLetter c = true) :
    65 ≤ c.toUpper.toNat ∧ c.toUpper.toNat ≤ 90 := by
  have hc : c = Char.ofNat c.toNat := (Char.ofNat_toNat c).symm
  have hb : (65 ≤ c.toNat ∧ c.toNat ≤ 90) ∨ (97 ≤ c.toNat ∧ c.toNat ≤ 122) := by
    simpa [isAsciiLetter] using h
  generalize c.toNat = n at hc hb
  subst hc
  rcases hb with ⟨h1, h2⟩ | ⟨h1, h2⟩ <;> interval_cases n <;> decide

theorem dropWhile_append_of_all {p : Char → Bool} (l1 l2 : Str) (h : ∀ c ∈ l1, p c = true) :
    (l1 ++ l2).dropWhile p = l2.dropWhile p := by
  induction l1 with
  | nil => rfl
  | cons c l1 ih =>
    rw [List.cons_append, List.dropWhile_cons, if_pos (h c (List.mem_cons_self _ _))]
    exact ih (fun x hx => h x (List.mem_cons_of_mem _ hx))

theorem receiptPattern_letters_digits (letters digits : Str)
    (hl : ∀ c ∈ letters, isAsciiLetter c = true) (hne : digits ≠ [])
    (hd : ∀ c ∈ digits, isDecimalDigit c = true) :
    receiptPattern (toUpperCase (letters ++ digits)) = true := by
  have hascii : ∀ c ∈ letters ++ digits, c.toNat < 128 := by
    intro c hc
    rcases List.mem_append.1 hc with hc | hc
    · have hb : (65 ≤ c.toNat ∧ c.toNat ≤ 90) ∨ (97 ≤ c.toNat ∧ c.toNat ≤ 122) := by
        simpa [isAsciiLetter] using hl c hc
      omega
    · have hb := (isDecimalDigit_iff c).1 (hd c hc)
      omega
  rw [toUpperCase_of_ascii _ hascii]
  unfold receiptPattern
  rw [List.map_append, dropWhile_append_of_all]
  · cases digits with
    | nil => exact absurd rfl hne
    | cons d ds =>
      have hdd := hd d (List.mem_cons_self _ _)
      have hb := (isDecimalDigit_iff d).1 hdd
      rw [List.map_cons, toUpper_of_digit hdd, List.dropWhile_cons,
        if_neg (by simp only [decide_eq_true_eq]; omega)]
      exact hdd
  · intro c hc
    rcases List.mem_map.1 hc with ⟨a, ha, rfl⟩
    simpa using toUpper_of_letter (hl a ha)

theorem isAsciiAlnum_of_letter {c : Char} (h : isAsciiLetter c = true) :
    isAsciiAlnum c = true := by
  have hb : (65 ≤ c.toNat ∧ c.toNat ≤ 90) ∨ (97 ≤ c.toNat ∧ c.toNat ≤ 122) := by
    simpa [isAsciiLetter] using h
  simp only [isAsciiAlnum, Bool.or_eq_true, Bool.and_eq_true, decide_eq_true_eq]
  omega

theorem isAsciiAlnum_of_digit {c : Char} (h : isDecimalDigit c = true) :
    isAsciiAlnum c = true := by
  have hb := (isDecimalDigit_iff c).1 h
  simp only [isAsciiAlnum, Bool.or_eq_true, Bool.and_eq_true, decide_eq_true_eq]
  omega

theorem encodeURIComponent_alnum (q : Str) (h : ∀ c ∈ q, isAsciiAlnum c = true) :
    encodeURIComponent q = q := by
  induction q with
  | nil => rfl
  | cons c q ih =>
    have hq := ih (fun x hx => h x (List.mem_cons_of_mem _ hx))
    unfold encodeURIComponent at hq ⊢
    rw [List.flatMap_cons, hq]
    simp [h c (List.mem_cons_self _ _)]

/-- The lookup is attempted on a query made of letters and then digits,
with at least four code units. -/
theorem performSearch_of_receipt_like (searchInput month status : Str) (server : Server)
    (letters digits : Str) (hq : trim searchInput = letters ++ digits)
    (hl : ∀ c ∈ letters, isAsciiLetter c = true) (hne : digits ≠ [])
    (hd : ∀ c ∈ digits, isDecimalDigit c = true) (hlen : 4 ≤ jsLength (letters ++ digits)) :
    performSearch searchInput month status server =
      Effect.fetch ("/api/student/".toList ++ (letters ++ digits)) ::
        (match server ("/api/student/".toList ++ (letters ++ digits)) with
         | Fetched.failed => regularSearch (letters ++ digits) month status server
         | Fetched.json data =>
           if data.success then
             match data.profile with
             | some profile => [Effect.showStudentProfile (showStudentProfile profile)]
             | none => regularSearch (letters ++ digits) month status server
           else regularSearch (letters ++ digits) month status server) := by
  have hrec : isReceiptSearch (letters ++ digits) = true := by
    unfold isReceiptSearch
    rw [receiptPattern_letters_digits letters digits hl hne hd]
    simp only [Bool.and_true, Bool.or_eq_true, decide_eq_true_eq]
    right
    omega
  have henc : encodeURIComponent (letters ++ digits) = letters ++ digits := by
    apply encodeURIComponent_alnum
    intro c hc
    rcases List.mem_append.1 hc with hc | hc
    · exact isAsciiAlnum_of_letter (hl c hc)
    · exact isAsciiAlnum_of_digit (hd c hc)
  unfold performSearch
  simp only [hq, hrec, hlen, decide_True, Bool.and_self, if_true, lookupUrl, henc]

theorem regularSearch_eq_cons (query month status : Str) (server : Server) :
    ∃ rest, regularSearch query month status server =
        Effect.fetch (searchUrl query month status) :: rest ∧
      ∀ url, Effect.fetch url ∉ rest := by
  unfold regularSearch
  refine ⟨_, rfl, ?_⟩
  intro url
  split
  · simp
  · split_ifs
    · split <;> simp
    · simp

/-- The long s, `U+017F`, has the upper case `S`: a query of a long s and
three digits is a receipt search. -/
theorem isReceiptSearch_long_s :
    toUpperCase [Char.ofNat 0x17F, '1', '2', '3'] = "S123".toList ∧
    isReceiptSearch [Char.ofNat 0x17F, '1', '2', '3'] = true := by
  decide

/-! ## The search -/

/-- C10: `performSearch` tries the receipt lookup first for receipt-like
queries.  For every trimmed query of at least four code units made of
letters followed by at least one digit, the first request is
`GET /api/student/<query>`, and a request to `/api/search` is issued only
after it and only when the lookup has not succeeded, that is, has not
answered `success` with a profile that was shown.  For `RCP1023` and a
server that answers nothing, the lookup is followed by the search. -/
theorem performSearch_receipt_lookup_first :
    (∀ (searchInput month status : Str) (server : Server) (letters digits : Str),
      trim searchInput = letters ++ digits →
      (∀ c ∈ letters, isAsciiLetter c = true) → digits ≠ [] →
      (∀ c ∈ digits, isDecimalDigit c = true) →
      4 ≤ jsLength (letters ++ digits) →
      (performSearch searchInput month status server).head? =
        some (Effect.fetch ("/api/student/".toList ++ (letters ++ digits))) ∧
      ∀ (i : Nat) (url : Str),
        (performSearch searchInput month status server)[i]? = some (Effect.fetch url) →
        "/api/search".toList.isPrefixOf url = true →
        0 < i ∧
        ¬ ∃ data profile,
          server ("/api/student/".toList ++ (letters ++ digits)) = Fetched.json data ∧
          data.success = true ∧ data.profile = some profile) ∧
    performSearch "RCP1023".toList [] [] (fun _ => Fetched.failed) =
      [Effect.fetch "/api/student/RCP1023".toList,
       Effect.fetch "/api/search?query=RCP1023".toList,
       Effect.consoleError "Error searching:".toList] := by
  refine ⟨?_, by decide⟩
  intro searchInput month status server letters digits hq hl hne hd hlen
  rw [performSearch_of_receipt_like searchInput month status server letters digits hq hl hne
    hd hlen]
  refine ⟨rfl, ?_⟩
  intro i url hi hpre
  have hpos : 0 < i := by
    rcases Nat.eq_zero_or_pos i with h0 | h0
    · subst h0
      simp only [List.getElem?_cons_zero, Option.some.injEq, Effect.fetch.injEq] at hi
      subst hi
      exact absurd hpre (by
        rw [show "/api/search".toList.isPrefixOf
          ("/api/student/".toList ++ (letters ++ digits)) = false from rfl]
        simp)
    · exact h0
  refine ⟨hpos, ?_⟩
  rintro ⟨data, profile, hsrv, hsucc, hprof⟩
  rw [hsrv] at hi
  simp only [hsucc, if_true, hprof] at hi
  obtain ⟨j, rfl⟩ : ∃ j, i = j + 1 := ⟨i - 1, by omega⟩
  rw [List.getElem?_cons_succ] at hi
  cases j with
  | zero => simp at hi
  | succ j => simp at hi

/-- Witness of C10: the query `RCP1023`. -/
theorem performSearch_receipt_lookup_first_witness :
    trim "RCP1023".toList = "RCP".toList ++ "1023".toList ∧
    (performSearch "RCP1023".toList [] [] (fun _ => Fetched.failed)).head? =
      some (Effect.fetch ("/api/student/".toList ++ ("RCP".toList ++ "1023".toList))) ∧
    ∀ (i : Nat) (url : Str),
      (performSearch "RCP1023".toList [] [] (fun _ => Fetched.failed))[i]? =
        some (Effect.fetch url) →
      "/api/search".toList.isPrefixOf url = true →
      0 < i ∧
      ¬ ∃ data profile,
        (fun _ => Fetched.failed : Server)
            ("/api/student/".toList ++ ("RCP".toList ++ "1023".toList)) = Fetched.json data ∧
        data.success = true ∧ data.profile = some profile :=
  ⟨by decide,
    performSearch_receipt_lookup_first.1 "RCP1023".toList [] [] (fun _ => Fetched.failed)
      "RCP".toList "1023".toList (by decide) (by decide) (by decide) (by decide) (by decide)⟩

/-! ## The search, continued -/

theorem searchUrl_eq_filter (query month status : Str) :
    searchUrl query month status =
      "/api/search?".toList ++ paramsToString
        ([("query".toList, query), ("month".toList, month), ("status".toList, status)].filter
          (fun p => truthy p.2)) := by
  unfold searchUrl
  cases hq : truthy query <;> cases hm : truthy month <;> cases hs : truthy status <;>
    simp [List.filter, hq, hm, hs]

theorem performSearch_of_lookup {searchInput : Str} (month status : Str) (server : Server)
    (hrec : isReceiptSearch (trim searchInput) = true) (hlen : 4 ≤ jsLength (trim searchInput)) :
    performSearch searchInput month status server =
      Effect.fetch (lookupUrl (trim searchInput)) ::
        (match server (lookupUrl (trim searchInput)) with
         | Fetched.failed => regularSearch (trim searchInput) month status server
         | Fetched.json data =>
           if data.success then
             match data.profile with
             | some profile => [Effect.showStudentProfile (showStudentProfile profile)]
             | none => regularSearch (trim searchInput) month status server
           else regularSearch (trim searchInput) month status server) := by
  unfold performSearch
  simp only [hrec, hlen, decide_True, Bool.and_self, if_true]

theorem performSearch_of_short {searchInput : Str} (month status : Str) (server : Server)
    (hlen : jsLength (trim searchInput) < 4) :
    performSearch searchInput month status server =
      regularSearch (trim searchInput) month status server := by
  unfold performSearch
  have : decide (4 ≤ jsLength (trim searchInput)) = false := by
    simp only [decide_eq_false_iff_not]
    omega
  simp only [this, Bool.and_false, Bool.false_eq_true, if_false]

theorem jsLength_of_bmp (q : Str) (h : ∀ c ∈ q, c.toNat < 0x10000) : jsLength q = q.length := by
  induction q with
  | nil => rfl
  | cons c q ih =>
    have hc := h c (List.mem_cons_self _ _)
    have hq := ih (fun x hx => h x (List.mem_cons_of_mem _ hx))
    unfold jsLength at hq ⊢
    simp only [List.map_cons, List.sum_cons, hq, if_pos hc, List.length_cons]
    omega

/-- C11, for a lookup that answers `success` with no `student`: the body
`{success: true}` for the query `RCP1023`.  The call `showStudentProfile(data)`
throws at its first line, on `data.student.name`, the empty `catch` of the
lookup swallows the error, and the search goes on: although the lookup
response has `success` true, no profile is shown, the request to
`/api/search` is issued and the table is drawn from its answer. -/
theorem performSearch_success_without_student :
    isReceiptSearch (trim "RCP1023".toList) = true ∧ 4 ≤ jsLength (trim "RCP1023".toList) ∧
    (∃ data, exampleBareServer (lookupUrl (trim "RCP1023".toList)) = Fetched.json data ∧
      data.success = true) ∧
    performSearch "RCP1023".toList [] [] exampleBareServer =
      [Effect.fetch "/api/student/RCP1023".toList,
       Effect.fetch "/api/search?query=RCP1023".toList,
       Effect.renderTable exampleProfile.records,
       Effect.updateRecordCount (some 1)] ∧
    (∀ view, Effect.showStudentProfile view ∉
      performSearch "RCP1023".toList [] [] exampleBareServer) :=
  ⟨by decide, by decide, ⟨exampleBareAnswer, rfl, rfl⟩, rfl, by
    intro view h
    rw [show performSearch "RCP1023".toList [] [] exampleBareServer =
      [Effect.fetch "/api/student/RCP1023".toList,
       Effect.fetch "/api/search?query=RCP1023".toList,
       Effect.renderTable exampleProfile.records,
       Effect.updateRecordCount (some 1)] from rfl] at h
    simp at h⟩

/-- C11: after a receipt lookup, `performSearch` shows either the profile
or the filtered list, never both.  When the lookup is attempted and its
response has `success` true and carries the `student` and `records` that
`showStudentProfile` reads, the effects are the lookup and the profile view
and nothing else: no request to `/api/search`, no table.  When the lookup
rejects, or its response has `success` false, or has `success` true without
them, the next effect is the request to `/api/search` with exactly the
non-empty ones of `query`, `month` and `status` as parameters, no further
request and no profile view follow, and when that request answers `success`
with a list, the table is drawn from the list and the record count from
`total`. -/
theorem performSearch_profile_or_list :
    (∀ (searchInput month status : Str) (server : Server) (data : Body)
        (profile : ProfileData),
      isReceiptSearch (trim searchInput) = true → 4 ≤ jsLength (trim searchInput) →
      server (lookupUrl (trim searchInput)) = Fetched.json data →
      data.success = true → data.profile = some profile →
      performSearch searchInput month status server =
        [Effect.fetch (lookupUrl (trim searchInput)),
         Effect.showStudentProfile (showStudentProfile profile)]) ∧
    (∀ (searchInput month status : Str) (server : Server),
      isReceiptSearch (trim searchInput) = true → 4 ≤ jsLength (trim searchInput) →
      (server (lookupUrl (trim searchInput)) = Fetched.failed ∨
        ∃ data, server (lookupUrl (trim searchInput)) = Fetched.json data ∧
          (data.success = false ∨ data.profile = none)) →
      (∃ rest,
        performSearch searchInput month status server =
          Effect.fetch (lookupUrl (trim searchInput)) ::
          Effect.fetch ("/api/search?".toList ++ paramsToString
            ([("query".toList, trim searchInput), ("month".toList, month),
              ("status".toList, status)].filter (fun p => truthy p.2))) :: rest ∧
        (∀ url, Effect.fetch url ∉ rest) ∧
        (∀ view, Effect.showStudentProfile view ∉ rest)) ∧
      ∀ (result : Body) (students : List FeeRecord),
        server (searchUrl (trim searchInput) month status) = Fetched.json result →
        result.success = true → result.data = some students →
        performSearch searchInput month status server =
          [Effect.fetch (lookupUrl (trim searchInput)),
           Effect.fetch ("/api/search?".toList ++ paramsToString
            ([("query".toList, trim searchInput), ("month".toList, month),
              ("status".toList, status)].filter (fun p => truthy p.2))),
           Effect.renderTable students, Effect.updateRecordCount result.total]) := by
  constructor
  · intro searchInput month status server data profile hrec hlen hsrv hsucc hprof
    rw [performSearch_of_lookup month status server hrec hlen, hsrv]
    simp only [hsucc, if_true, hprof]
  · intro searchInput month status server hrec hlen hfail
    have hreg : performSearch searchInput month status server =
        Effect.fetch (lookupUrl (trim searchInput)) ::
          regularSearch (trim searchInput) month status server := by
      rw [performSearch_of_lookup month status server hrec hlen]
      rcases hfail with h | ⟨data, h, hs | hp⟩
      · rw [h]
      · rw [h]
        simp only [hs, Bool.false_eq_true, if_false]
      · rw [h]
        simp only [hp]
        split_ifs <;> rfl
    rw [hreg, ← searchUrl_eq_filter]
    unfold regularSearch
    refine ⟨⟨_, rfl, ?_, ?_⟩, ?_⟩
    · intro url
      split
      · simp
      · split_ifs
        · split <;> simp
        · simp
    · intro view
      split
      · simp
      · split_ifs
        · split <;> simp
        · simp
    · intro result students hres hsucc hdata
      rw [hres]
      simp only [hsucc, if_true, hdata]

/-- Witness of C11: `RCP1023` on the example server, which answers the
lookup with a profile; on the server whose lookup answers without `success`
and whose search answers with the example list; and on the server whose
lookup answers `success` with no `student`. -/
theorem performSearch_profile_or_list_witness :
    performSearch "RCP1023".toList [] [] exampleServer =
      [Effect.fetch (lookupUrl (trim "RCP1023".toList)),
       Effect.showStudentProfile (showStudentProfile exampleProfile)] ∧
    performSearch "RCP1023".toList [] [] exampleListServer =
      [Effect.fetch (lookupUrl (trim "RCP1023".toList)),
       Effect.fetch ("/api/search?".toList ++ paramsToString
        ([("query".toList, trim "RCP1023".toList), ("month".toList, []),
          ("status".toList, [])].filter (fun p => truthy p.2))),
       Effect.renderTable exampleProfile.records,
       Effect.updateRecordCount exampleListAnswer.total] ∧
    (∃ rest,
      performSearch "RCP1023".toList "May 2026".toList [] exampleBareServer =
        Effect.fetch (lookupUrl (trim "RCP1023".toList)) ::
        Effect.fetch ("/api/search?".toList ++ paramsToString
          ([("query".toList, trim "RCP1023".toList), ("month".toList, "May 2026".toList),
            ("status".toList, [])].filter (fun p => truthy p.2))) :: rest ∧
      (∀ url, Effect.fetch url ∉ rest) ∧
      (∀ view, Effect.showStudentProfile view ∉ rest)) :=
  ⟨performSearch_profile_or_list.1 "RCP1023".toList [] [] exampleServer
      exampleProfileAnswer exampleProfile
      (by decide) (by decide) (by rfl) (by decide) (by decide),
    (performSearch_profile_or_list.2 "RCP1023".toList [] [] exampleListServer
      (by decide) (by decide) (Or.inr ⟨exampleRejection, rfl, Or.inl rfl⟩)).2
      exampleListAnswer exampleProfile.records rfl rfl rfl,
    (performSearch_profile_or_list.2 "RCP1023".toList "May 2026".toList []
      exampleBareServer (by decide) (by decide)
      (Or.inr ⟨exampleBareAnswer, rfl, Or.inr rfl⟩)).1⟩

/-- C12: `performSearch` never attempts the receipt lookup for a short
query.  For every trimmed query of fewer than four code units, which for a
query of characters of the Basic Multilingual Plane is fewer than four
characters, the first effect is the request to `/api/search`, which is not a
request to `/api/student/`, and no other request follows.  The queries `RCP`
and the empty one send the search only. -/
theorem performSearch_short_query :
    (∀ (searchInput month status : Str) (server : Server),
      jsLength (trim searchInput) < 4 →
      ∃ rest,
        performSearch searchInput month status server =
          Effect.fetch (searchUrl (trim searchInput) month status) :: rest ∧
        (∀ url, Effect.fetch url ∉ rest) ∧
        "/api/search?".toList.isPrefixOf (searchUrl (trim searchInput) month status) = true ∧
        "/api/student/".toList.isPrefixOf (searchUrl (trim searchInput) month status) =
          false) ∧
    (∀ query : Str, (∀ c ∈ query, c.toNat < 0x10000) → query.length < 4 →
      jsLength query < 4) ∧
    performSearch "RCP".toList [] [] (fun _ => Fetched.failed) =
      [Effect.fetch "/api/search?query=RCP".toList,
       Effect.consoleError "Error searching:".toList] ∧
    performSearch [] [] [] (fun _ => Fetched.failed) =
      [Effect.fetch "/api/search?".toList,
       Effect.consoleError "Error searching:".toList] := by
  refine ⟨?_, ?_, by decide, by decide⟩
  · intro searchInput month status server hlen
    rw [performSearch_of_short month status server hlen]
    obtain ⟨rest, h1, h2⟩ := regularSearch_eq_cons (trim searchInput) month status server
    refine ⟨rest, h1, h2, ?_, ?_⟩
    · unfold searchUrl
      rw [List.isPrefixOf_iff_prefix]
      exact List.prefix_append _ _
    · unfold searchUrl
      rfl
  · intro query hbmp hlen
    rw [jsLength_of_bmp query hbmp]
    exact hlen

/-- Witness of C12: the query `RCP` typed with blanks around it. -/
theorem performSearch_short_query_witness :
    jsLength (trim " RCP ".toList) < 4 ∧
    (∃ rest,
      performSearch " RCP ".toList [] [] exampleServer =
        Effect.fetch (searchUrl (trim " RCP ".toList) [] []) :: rest ∧
      (∀ url, Effect.fetch url ∉ rest) ∧
      "/api/search?".toList.isPrefixOf (searchUrl (trim " RCP ".toList) [] []) = true ∧
      "/api/student/".toList.isPrefixOf (searchUrl (trim " RCP ".toList) [] []) = false) ∧
    ((∀ c ∈ "RCP".toList, c.toNat < 0x10000) ∧ "RCP".toList.length < 4 ∧
      jsLength "RCP".toList < 4) :=
  ⟨by decide,
    performSearch_short_query.1 " RCP ".toList [] [] exampleServer (by decide),
    by decide, by decide,
    performSearch_short_query.2.1 "RCP".toList (by decide) (by decide)⟩

/-! ## The add form -/

/-- C13: what `addRecord` does with an empty student name.  The function
has no check of the form: whatever the fields hold, its first effect is the
`POST` of the form to `/api/add`, and the state is changed only by the
closing of the modal after `success`.  With an empty name and a server that
rejects the record, the request is sent with `student_name` empty and the
toast shows the message of the server. -/
theorem addRecord_posts_any_form :
    (∀ (form : AddForm) (response : Fetched Body) (s : State),
      (addRecord form response s).2.head? =
        some (Effect.post "/api/add".toList (Payload.add (addData form))) ∧
      (addRecord form response s).1.allStudents = s.allStudents) ∧
    (addRecord
        { studentId := "7".toList, studentName := [], fatherName := "Ravi".toList
          mobileNumber := [], feeMonth := "May 2026".toList
          feeStatus := "Not Paid".toList, receiptNumber := [] }
        (Fetched.json exampleRejection) exampleState).2 =
      [Effect.post "/api/add".toList
         (Payload.add
           { student_id := "7".toList, student_name := [], father_name := "Ravi".toList
             mobile_number := [], month := "May 2026".toList
             fee_status := "Not Paid".toList, receipt_number := [] }),
       Effect.showToast "Duplicate".toList "error".toList] := by
  refine ⟨?_, by decide⟩
  intro form response s
  constructor
  · unfold addRecord
    cases response with
    | failed => rfl
    | json result =>
      dsimp only
      split_ifs <;> rfl
  · unfold addRecord
    cases response with
    | failed => rfl
    | json result =>
      dsimp only
      split_ifs
      · unfold hideModal
        rw [if_neg (by decide)]
      · rfl

/-! ## Loading and failures -/

/-- Counterexample of C14 as stated: an answer of `/api/students` with
`success` and no list `data` is not a well-formed success, and after it
`allStudents` is `undefined` and not the cached list it was. -/
theorem loadStudents_success_without_list :
    exampleSuccess.success = true ∧ exampleSuccess.data = none ∧
    ({ exampleState with allStudents := some exampleProfile.records } : State).allStudents =
      some exampleProfile.records ∧
    (loadStudents (Fetched.json exampleSuccess)
      { exampleState with allStudents := some exampleProfile.records }).1.allStudents = none ∧
    (loadStudents (Fetched.json exampleSuccess)
      { exampleState with allStudents := some exampleProfile.records }).1.allStudents ≠
      ({ exampleState with allStudents := some exampleProfile.records } : State).allStudents := by
  refine ⟨rfl, rfl, rfl, rfl, ?_⟩
  decide

/-- C14, amended: `loadStudents` leaves the cached list as it was when the
request of `/api/students` rejects or answers without `success`; when it
answers `success` the cached value becomes `data.data`, whatever that is;
and on `success` with a list the cached list is that list, the table is
drawn from it and the displayed count is its length. -/
theorem loadStudents_cache :
    (∀ s : State, (loadStudents Fetched.failed s).1.allStudents = s.allStudents) ∧
    (∀ (s : State) (data : Body), data.success = false →
      (loadStudents (Fetched.json data) s).1.allStudents = s.allStudents) ∧
    (∀ (s : State) (data : Body), data.success = true →
      (loadStudents (Fetched.json data) s).1.allStudents = data.data) ∧
    (∀ (s : State) (data : Body) (students : List FeeRecord),
      data.success = true → data.data = some students →
      (loadStudents (Fetched.json data) s).1.allStudents = some students ∧
      (loadStudents (Fetched.json data) s).2 =
        [Effect.fetch "/api/students".toList, Effect.renderTable students,
         Effect.updateRecordCount (some (students.length : Int))]) := by
  refine ⟨fun s => rfl, ?_, ?_, ?_⟩
  · intro s data h
    simp only [loadStudents, h, Bool.false_eq_true, if_false]
  · intro s data h
    simp only [loadStudents, h, if_true]
    cases data.data <;> rfl
  · intro s data students h hd
    simp only [loadStudents, h, if_true, hd, and_self]

/-- Witness of C14, amended: the example rejection and an answer with a
list of one record. -/
theorem loadStudents_cache_witness :
    (loadStudents (Fetched.json exampleRejection) exampleState).1.allStudents =
      exampleState.allStudents ∧
    (loadStudents (Fetched.json exampleSuccess) exampleState).1.allStudents =
      exampleSuccess.data ∧
    ((loadStudents (Fetched.json { exampleSuccess with data := some exampleProfile.records })
        exampleState).1.allStudents = some exampleProfile.records ∧
      (loadStudents (Fetched.json { exampleSuccess with data := some exampleProfile.records })
        exampleState).2 =
        [Effect.fetch "/api/students".toList, Effect.renderTable exampleProfile.records,
         Effect.updateRecordCount (some (exampleProfile.records.length : Int))]) :=
  ⟨loadStudents_cache.2.1 exampleState exampleRejection rfl,
    loadStudents_cache.2.2.1 exampleState exampleSuccess rfl,
    loadStudents_cache.2.2.2 exampleState
      { exampleSuccess with data := some exampleProfile.records } exampleProfile.records
      rfl rfl⟩

theorem callFailed_cases {response : Fetched Body} (h : callFailed response = true) :
    response = Fetched.failed ∨
      ∃ body, response = Fetched.json body ∧ body.success = false := by
  cases response with
  | failed => exact Or.inl rfl
  | json body =>
    right
    refine ⟨body, rfl, ?_⟩
    simpa [callFailed] using h

theorem errorToasts_regularSearch (query month status : Str) (server : Server) :
    errorToasts (regularSearch query month status server) = 0 := by
  unfold regularSearch
  cases server (searchUrl query month status) with
  | failed => rfl
  | json data =>
    dsimp only
    split_ifs
    · cases data.data <;> rfl
    · rfl

theorem errorToasts_performSearch (searchInput month status : Str) (server : Server) :
    errorToasts (performSearch searchInput month status server) = 0 := by
  unfold performSearch
  dsimp only
  split_ifs
  · have h := errorToasts_regularSearch (trim searchInput) month status server
    cases server (lookupUrl (trim searchInput)) with
    | failed => exact h
    | json data =>
      dsimp only
      split_ifs
      · cases data.profile with
        | none => exact h
        | some profile => rfl
      · exact h
  · exact errorToasts_regularSearch _ _ _ _

/-- Counterexample of C15 as stated: `loadSummary` after a request that
rejects, `loadUniqueStudents` after one that rejects, `performSearch` on a
server that rejects every request, and `loadStudents` after an answer
without `success` each show no toast of type `error`. -/
theorem loads_fail_without_toast :
    callFailed Fetched.failed = true ∧ callFailed (Fetched.json exampleRejection) = true ∧
    errorToasts (loadSummary Fetched.failed) = 0 ∧
    errorToasts (loadUniqueStudents Fetched.failed exampleState).2 = 0 ∧
    errorToasts (performSearch "Asha".toList [] [] (fun _ => Fetched.failed)) = 0 ∧
    errorToasts (loadStudents (Fetched.json exampleRejection) exampleState).2 = 0 := by
  decide

/-- C15, amended: which failures are surfaced as a toast.  Each submit that
sends its request (`addRecord`, `updateRecord`, a confirmed `deleteRecord`,
`addMonthRecord`, `submitNewStudents`, `submitBulkSelection`,
`saveProfileEdit`) shows exactly one toast of type `error` when the call
rejects or answers without `success`; `loadStudents` shows exactly one when
its call rejects and none when it answers without `success`; `loadSummary`,
`loadUniqueStudents` and `performSearch` show none, whatever the outcome. -/
theorem failure_toasts :
    (∀ response : Fetched Body, callFailed response = true →
      (∀ (form : AddForm) (s : State), errorToasts (addRecord form response s).2 = 1) ∧
      (∀ (form : EditForm) (s : State), errorToasts (updateRecord form response s).2 = 1) ∧
      (∀ (studentKey month : Str) (s : State),
        errorToasts (deleteRecord studentKey month true response s).2 = 1) ∧
      (∀ (form : AddMonthForm) (s : State), s.selectedAddMonths ≠ [] →
        errorToasts (addMonthRecord form response s).2 = 1) ∧
      (∀ (month status pasteData : Str) (s : State), month ≠ [] →
        parsePastedData (trim pasteData) ≠ [] →
        errorToasts (submitNewStudents month status pasteData response s).2 = 1) ∧
      (∀ (feeStatus : Str) (s : State) (unique : List UniqueStudent),
        s.selectedBulkMonths ≠ [] → s.selectedStudentsSet ≠ [] →
        s.allUniqueStudents = some unique →
        errorToasts (submitBulkSelection feeStatus response s).2 = 1) ∧
      (∀ (form : ProfileForm) (s : State), trim form.editProfileName ≠ [] →
        errorToasts (saveProfileEdit form response s).2 = 1)) ∧
    (∀ s : State, errorToasts (loadStudents Fetched.failed s).2 = 1) ∧
    (∀ (s : State) (data : Body), data.success = false →
      errorToasts (loadStudents (Fetched.json data) s).2 = 0) ∧
    (∀ response : Fetched Body, errorToasts (loadSummary response) = 0) ∧
    (∀ (response : Fetched Body) (s : State),
      errorToasts (loadUniqueStudents response s).2 = 0) ∧
    (∀ (searchInput month status : Str) (server : Server),
      errorToasts (performSearch searchInput month status server) = 0) := by
  refine ⟨?_, fun s => rfl, ?_, ?_, ?_, errorToasts_performSearch⟩
  · intro response hfail
    rcases callFailed_cases hfail with rfl | ⟨body, rfl, hb⟩
    · refine ⟨fun _ _ => rfl, fun _ _ => rfl, fun _ _ _ => rfl, ?_, ?_, ?_, ?_⟩
      · intro form s hne
        have : s.selectedAddMonths.length ≠ 0 := by simpa using hne
        simp only [addMonthRecord, this, if_false]
        rfl
      · intro month status pasteData s hm hp
        have h1 : truthy month = true := by cases month <;> simp_all [truthy]
        have h2 : truthy (trim pasteData) = true := by
          cases h : trim pasteData with
          | nil => rw [h] at hp; exact absurd (by decide) hp
          | cons c cs => rfl
        have h3 : (parsePastedData (trim pasteData)).length ≠ 0 := by simpa using hp
        simp only [submitNewStudents, h1, h2, h3, Bool.not_true, Bool.false_eq_true, if_false]
        rfl
      · intro feeStatus s unique hm hs hu
        have h1 : s.selectedBulkMonths.length ≠ 0 := by simpa using hm
        have h2 : s.selectedStudentsSet.length ≠ 0 := by simpa using hs
        simp only [submitBulkSelection, h1, h2, if_false, hu]
        rfl
      · intro form s hn
        have h1 : truthy (trim form.editProfileName) = true := by
          cases h : trim form.editProfileName with
          | nil => exact absurd h hn
          | cons c cs => rfl
        simp only [saveProfileEdit, h1, Bool.not_true, Bool.false_eq_true, if_false]
        rfl
    · refine ⟨?_, ?_, ?_, ?_, ?_, ?_, ?_⟩
      · intro form s
        simp only [addRecord, hb, Bool.false_eq_true, if_false]
        rfl
      · intro form s
        simp only [updateRecord, hb, Bool.false_eq_true, if_false]
        rfl
      · intro studentKey month s
        simp only [deleteRecord, hb, Bool.false_eq_true, if_false, Bool.not_true]
        rfl
      · intro form s hne
        have : s.selectedAddMonths.length ≠ 0 := by simpa using hne
        simp only [addMonthRecord, this, if_false, hb, Bool.false_eq_true]
        rfl
      · intro month status pasteData s hm hp
        have h1 : truthy month = true := by cases month <;> simp_all [truthy]
        have h2 : truthy (trim pasteData) = true := by
          cases h : trim pasteData with
          | nil => rw [h] at hp; exact absurd (by decide) hp
          | cons c cs => rfl
        have h3 : (parsePastedData (trim pasteData)).length ≠ 0 := by simpa using hp
        simp only [submitNewStudents, h1, h2, h3, Bool.not_true, Bool.false_eq_true, if_false,
          hb]
        rfl
      · intro feeStatus s unique hm hs hu
        have h1 : s.selectedBulkMonths.length ≠ 0 := by simpa using hm
        have h2 : s.selectedStudentsSet.length ≠ 0 := by simpa using hs
        simp only [submitBulkSelection, h1, h2, if_false, hu, hb, Bool.false_eq_true]
        rfl
      · intro form s hn
        have h1 : truthy (trim form.editProfileName) = true := by
          cases h : trim form.editProfileName with
          | nil => exact absurd h hn
          | cons c cs => rfl
        simp only [saveProfileEdit, h1, Bool.not_true, Bool.false_eq_true, if_false, hb]
        rfl
  · intro s data h
    simp only [loadStudents, h, Bool.false_eq_true, if_false]
    rfl
  · intro response
    cases response with
    | failed => rfl
    | json data =>
      unfold loadSummary
      dsimp only
      split_ifs
      · cases data.summary <;> rfl
      · rfl
  · intro response s
    cases response with
    | failed => rfl
    | json data =>
      unfold loadUniqueStudents
      dsimp only
      split_ifs <;> rfl

/-- Witness of C15, amended: the example rejection as the answer of four
submits and of `loadStudents`. -/
theorem failure_toasts_witness :
    callFailed (Fetched.json exampleRejection) = true ∧
    errorToasts
      (addMonthRecord exampleAddMonthForm (Fetched.json exampleRejection) exampleState).2 = 1 ∧
    errorToasts
      (submitNewStudents "May 2026".toList "Paid".toList "Asha,Ravi".toList
        (Fetched.json exampleRejection) exampleState).2 = 1 ∧
    errorToasts
      (submitBulkSelection "Paid".toList (Fetched.json exampleRejection) exampleState).2 = 1 ∧
    errorToasts
      (saveProfileEdit exampleProfileForm (Fetched.json exampleRejection) exampleState).2 = 1 ∧
    errorToasts (loadStudents (Fetched.json exampleRejection) exampleState).2 = 0 :=
  ⟨rfl,
    (failure_toasts.1 (Fetched.json exampleRejection) rfl).2.2.2.1 exampleAddMonthForm
      exampleState (by decide),
    (failure_toasts.1 (Fetched.json exampleRejection) rfl).2.2.2.2.1 "May 2026".toList
      "Paid".toList "Asha,Ravi".toList exampleState (by decide) (by decide),
    (failure_toasts.1 (Fetched.json exampleRejection) rfl).2.2.2.2.2.1 "Paid".toList
      exampleState [] (by decide) (by decide) rfl,
    (failure_toasts.1 (Fetched.json exampleRejection) rfl).2.2.2.2.2.2 exampleProfileForm
      exampleState (by decide),
    failure_toasts.2.2.1 exampleState exampleRejection rfl⟩

/-! ## Modals and selections -/

/-- Counterexample of C16 as stated: after `addMonthRecord` has received
`success`, `selectedAddMonths` still holds `June 2026`, and after
`submitBulkSelection` has received `success`, `selectedBulkMonths` still
holds `May 2026`. -/
theorem submit_success_keeps_months :
    exampleSuccess.success = true ∧
    (addMonthRecord exampleAddMonthForm (Fetched.json exampleSuccess)
      exampleState).1.selectedAddMonths = ["June 2026".toList] ∧
    (submitBulkSelection "Paid".toList (Fetched.json exampleSuccess)
      exampleState).1.selectedBulkMonths = ["May 2026".toList] := by
  decide

/-- C16, amended: what a successful submit clears.  After `addMonthRecord`
has received `success`, the modal `addMonthModal` is closed and
`loadStudents` and `loadSummary` are started, and `selectedAddMonths` is as
it was.  After `submitBulkSelection` has received `success`, the student set
is empty, the modal `bulkAddModal` is closed and the two loads are started,
and `selectedBulkMonths` is as it was. -/
theorem submit_success_selection :
    (∀ (form : AddMonthForm) (data : Body) (s : State),
      data.success = true → s.selectedAddMonths ≠ [] →
      (addMonthRecord form (Fetched.json data) s).1.selectedAddMonths = s.selectedAddMonths ∧
      ∃ payload message,
        (addMonthRecord form (Fetched.json data) s).2 =
          [Effect.post "/api/bulk-add".toList payload,
           Effect.showToast message "success".toList,
           Effect.hideModal "addMonthModal".toList,
           Effect.loadStudents, Effect.loadSummary]) ∧
    (∀ (feeStatus : Str) (data : Body) (s : State) (unique : List UniqueStudent),
      data.success = true → s.selectedBulkMonths ≠ [] → s.selectedStudentsSet ≠ [] →
      s.allUniqueStudents = some unique →
      (submitBulkSelection feeStatus (Fetched.json data) s).1.selectedStudentsSet = [] ∧
      (submitBulkSelection feeStatus (Fetched.json data) s).1.selectedBulkMonths =
        s.selectedBulkMonths ∧
      ∃ payload message,
        (submitBulkSelection feeStatus (Fetched.json data) s).2 =
          [Effect.post "/api/bulk-add".toList payload,
           Effect.showToast message "success".toList,
           Effect.hideModal "bulkAddModal".toList,
           Effect.loadStudents, Effect.loadSummary]) := by
  constructor
  · intro form data s hs hne
    have h0 : s.selectedAddMonths.length ≠ 0 := by simpa using hne
    have hh : hideModal "addMonthModal".toList s =
        (s, [Effect.hideModal "addMonthModal".toList]) := by
      unfold hideModal
      rw [if_neg (by decide)]
    simp only [addMonthRecord, h0, if_false, hs, if_true, hh]
    exact ⟨trivial, _, _, rfl⟩
  · intro feeStatus data s unique hs hm hst hu
    have h1 : s.selectedBulkMonths.length ≠ 0 := by simpa using hm
    have h2 : s.selectedStudentsSet.length ≠ 0 := by simpa using hst
    have hh : hideModal "bulkAddModal".toList s =
        ({ s with selectedStudentsSet := [] }, [Effect.hideModal "bulkAddModal".toList]) := by
      unfold hideModal
      rw [if_pos rfl]
    simp only [submitBulkSelection, h1, h2, if_false, hu, hs, if_true, hh]
    exact ⟨trivial, trivial, _, _, rfl⟩

/-- Witness of C16, amended: the example state and the example answer with
`success`. -/
theorem submit_success_selection_witness :
    ((addMonthRecord exampleAddMonthForm (Fetched.json exampleSuccess)
        exampleState).1.selectedAddMonths = exampleState.selectedAddMonths ∧
      ∃ payload message,
        (addMonthRecord exampleAddMonthForm (Fetched.json exampleSuccess) exampleState).2 =
          [Effect.post "/api/bulk-add".toList payload,
           Effect.showToast message "success".toList,
           Effect.hideModal "addMonthModal".toList,
           Effect.loadStudents, Effect.loadSummary]) ∧
    ((submitBulkSelection "Paid".toList (Fetched.json exampleSuccess)
        exampleState).1.selectedStudentsSet = [] ∧
      (submitBulkSelection "Paid".toList (Fetched.json exampleSuccess)
        exampleState).1.selectedBulkMonths = exampleState.selectedBulkMonths ∧
      ∃ payload message,
        (submitBulkSelection "Paid".toList (Fetched.json exampleSuccess) exampleState).2 =
          [Effect.post "/api/bulk-add".toList payload,
           Effect.showToast message "success".toList,
           Effect.hideModal "bulkAddModal".toList,
           Effect.loadStudents, Effect.loadSummary]) :=
  ⟨submit_success_selection.1 exampleAddMonthForm exampleSuccess exampleState rfl (by decide),
    submit_success_selection.2 "Paid".toList exampleSuccess exampleState [] rfl (by decide)
      (by decide) rfl⟩

theorem updateSelectedChips_sets (s : State) :
    (updateSelectedChips s).selectedBulkMonths = s.selectedBulkMonths ∧
    (updateSelectedChips s).selectedAddMonths = s.selectedAddMonths ∧
    (updateSelectedChips s).selectedStudentsSet = s.selectedStudentsSet :=
  ⟨rfl, rfl, rfl⟩

theorem updateSelectedCount_sets (s : State) :
    (updateSelectedCount s).selectedBulkMonths = s.selectedBulkMonths ∧
    (updateSelectedCount s).selectedAddMonths = s.selectedAddMonths ∧
    (updateSelectedCount s).selectedStudentsSet = s.selectedStudentsSet := by
  unfold updateSelectedCount
  split <;> exact ⟨rfl, rfl, rfl⟩

/-- C19: selections do not persist across modal sessions.  For every prior
state, after `showModal('bulkAddModal')` the bulk month set and the student
set are empty and the add-month set is as it was; after `openAddMonthModal`
the add-month set is empty and the bulk month set and the student set are
as they were. -/
theorem modal_open_clears_selection :
    (∀ s : State,
      (showModal "bulkAddModal".toList s).1.selectedBulkMonths = [] ∧
      (showModal "bulkAddModal".toList s).1.selectedStudentsSet = [] ∧
      (showModal "bulkAddModal".toList s).1.selectedAddMonths = s.selectedAddMonths) ∧
    (∀ (studentName fatherName : Str) (studentId mobileNumber : Option Str) (s : State),
      (openAddMonthModal studentName fatherName studentId mobileNumber s).1.selectedAddMonths =
        [] ∧
      (openAddMonthModal studentName fatherName studentId mobileNumber s).1.selectedBulkMonths =
        s.selectedBulkMonths ∧
      (openAddMonthModal studentName fatherName studentId mobileNumber
        s).1.selectedStudentsSet = s.selectedStudentsSet) := by
  constructor
  · intro s
    have h : (showModal "bulkAddModal".toList s).1 = (initBulkAddModal s).1 := by
      unfold showModal
      rw [if_pos rfl]
    rw [h]
    unfold initBulkAddModal
    dsimp only
    obtain ⟨c1, c2, c3⟩ := updateSelectedCount_sets (updateSelectedChips
      { renderMonthTags "bulkMonthTags".toList { s with selectedBulkMonths := [] } with
        selectedStudentsSet := [] })
    obtain ⟨r1, r2, _⟩ := renderMonthTags_sets "bulkMonthTags".toList
      { s with selectedBulkMonths := [] }
    rw [c1, c2, c3]
    exact ⟨r1, rfl, r2⟩
  · intro studentName fatherName studentId mobileNumber s
    have h : (openAddMonthModal studentName fatherName studentId mobileNumber s).1 =
        renderMonthTags "addMonthTags".toList { s with selectedAddMonths := [] } := by
      unfold openAddMonthModal showModal
      rw [if_neg (by decide)]
    rw [h]
    obtain ⟨r1, r2, r3⟩ := renderMonthTags_sets "addMonthTags".toList
      { s with selectedAddMonths := [] }
    exact ⟨r2, r1, r3⟩

/-- C18: the month labels form a fixed closed set.  `getMonthOptions()` and
`get2026Months()` return the same list of twelve distinct labels, each a
month name followed by ` 2026`, in calendar order from `January 2026` to
`December 2026`; and from empty month sets, every sequence of calls of
`toggleMonthTag` whose months are taken from that list leaves both month
sets inside it. -/
theorem month_labels_closed :
    getMonthOptions = get2026Months ∧
    get2026Months.length = 12 ∧
    get2026Months.Nodup ∧
    get2026Months = monthNames.map (fun m => m ++ " 2026".toList) ∧
    get2026Months.head? = some "January 2026".toList ∧
    get2026Months.getLast? = some "December 2026".toList ∧
    (∀ i : Nat, i < 12 →
      (get2026Months[i]?).map parseMonth = some (2026 * 12 + (i : Int))) ∧
    (∀ (calls : List (Str × Str)) (s : State),
      s.selectedBulkMonths = [] → s.selectedAddMonths = [] →
      (∀ call ∈ calls, call.2 ∈ get2026Months) →
      (∀ x ∈ (calls.foldl (fun st call => toggleMonthTag call.1 call.2 st)
          s).selectedBulkMonths, x ∈ get2026Months) ∧
      (∀ x ∈ (calls.foldl (fun st call => toggleMonthTag call.1 call.2 st)
          s).selectedAddMonths, x ∈ get2026Months)) := by
  refine ⟨by decide, by decide, by decide, by decide, by decide, by decide, ?_, ?_⟩
  · intro i hi
    interval_cases i <;> decide
  · intro calls
    have key : ∀ (calls : List (Str × Str)) (s : State),
        (∀ x ∈ s.selectedBulkMonths, x ∈ get2026Months) →
        (∀ x ∈ s.selectedAddMonths, x ∈ get2026Months) →
        (∀ call ∈ calls, call.2 ∈ get2026Months) →
        (∀ x ∈ (calls.foldl (fun st call => toggleMonthTag call.1 call.2 st)
            s).selectedBulkMonths, x ∈ get2026Months) ∧
        (∀ x ∈ (calls.foldl (fun st call => toggleMonthTag call.1 call.2 st)
            s).selectedAddMonths, x ∈ get2026Months) := by
      intro calls
      induction calls with
      | nil => intro s hb ha _; exact ⟨hb, ha⟩
      | cons call calls ih =>
        intro s hb ha hc
        rw [List.foldl_cons]
        have hcall := hc call (List.mem_cons_self _ _)
        have htog : ∀ set : List Str, (∀ x ∈ set, x ∈ get2026Months) →
            ∀ x ∈ setToggle set call.2, x ∈ get2026Months := by
          intro set hset x hx
          rcases mem_setToggle.1 hx with ⟨h1, _⟩ | ⟨h1, _⟩
          · exact hset x h1
          · rw [h1]; exact hcall
        apply ih _ _ _ (fun c hcm => hc c (List.mem_cons_of_mem _ hcm))
        · by_cases hid : call.1 = "bulkMonthTags".toList
          · rw [hid, (toggleMonthTag_bulk call.2 s).1]
            exact htog _ hb
          · rw [(toggleMonthTag_add hid call.2 s).1]
            exact hb
        · by_cases hid : call.1 = "bulkMonthTags".toList
          · rw [hid, (toggleMonthTag_bulk call.2 s).2.1]
            exact ha
          · rw [(toggleMonthTag_add hid call.2 s).2.1]
            exact htog _ ha
    intro s hb ha hc
    exact key calls s (by rw [hb]; simp) (by rw [ha]; simp) hc

/-- Witness of C18: three toggles from the example state with its month
sets emptied. -/
theorem month_labels_closed_witness :
    (∀ x ∈ ([("bulkMonthTags".toList, "May 2026".toList),
          ("addMonthTags".toList, "June 2026".toList),
          ("bulkMonthTags".toList, "May 2026".toList)].foldl
        (fun st call => toggleMonthTag call.1 call.2 st)
        { exampleState with selectedBulkMonths := [], selectedAddMonths := [] }
        ).selectedBulkMonths, x ∈ get2026Months) ∧
    (∀ x ∈ ([("bulkMonthTags".toList, "May 2026".toList),
          ("addMonthTags".toList, "June 2026".toList),
          ("bulkMonthTags".toList, "May 2026".toList)].foldl
        (fun st call => toggleMonthTag call.1 call.2 st)
        { exampleState with selectedBulkMonths := [], selectedAddMonths := [] }
        ).selectedAddMonths, x ∈ get2026Months) :=
  month_labels_closed.2.2.2.2.2.2.2
    [("bulkMonthTags".toList, "May 2026".toList),
     ("addMonthTags".toList, "June 2026".toList),
     ("bulkMonthTags".toList, "May 2026".toList)]
    { exampleState with selectedBulkMonths := [], selectedAddMonths := [] }
    rfl rfl (by decide)

/-! ## The debounce -/

theorem autoSearch_first (now : Nat) (t : SearchTimer) (hp : t.pending = []) :
    (autoSearch now (runTimers now t)).pending = [(t.nextId, now + 300)] ∧
    (autoSearch now (runTimers now t)).searchTimeout = some t.nextId ∧
    (autoSearch now (runTimers now t)).nextId = t.nextId + 1 ∧
    (autoSearch now (runTimers now t)).searches = t.searches := by
  have hr : runTimers now t = t := by
    cases t
    simp only at hp
    subst hp
    simp [runTimers]
  rw [hr]
  unfold autoSearch
  cases hs : t.searchTimeout with
  | none => simp [setTimeout, hp]
  | some id =>
    by_cases hid : id = 0
    · simp [setTimeout, hp, hid]
    · simp [setTimeout, clearTimeout, hp, hid]

theorem autoSearch_next (now last id : Nat) (t : SearchTimer)
    (hp : t.pending = [(id, last + 300)]) (hs : t.searchTimeout = some id) (hid : id ≠ 0)
    (hnow : now < last + 300) :
    (autoSearch now (runTimers now t)).pending = [(t.nextId, now + 300)] ∧
    (autoSearch now (runTimers now t)).searchTimeout = some t.nextId ∧
    (autoSearch now (runTimers now t)).nextId = t.nextId + 1 ∧
    (autoSearch now (runTimers now t)).searches = t.searches := by
  have hr : runTimers now t = t := by
    cases t
    simp only at hp
    subst hp
    have h2 : ¬ (last + 300 ≤ now) := by omega
    simp [runTimers, hnow, h2]
  rw [hr]
  unfold autoSearch
  simp [hs, hid, setTimeout, clearTimeout, hp]

/-- During a burst one timer is pending, due 300 ms after the last call,
and no search has been made. -/
theorem burst_invariant (rest : List Nat) : ∀ (last id : Nat) (t : SearchTimer),
    t.pending = [(id, last + 300)] → t.searchTimeout = some id → id ≠ 0 → t.nextId ≠ 0 →
    List.Chain (fun a b => a ≤ b ∧ b < a + 300) last rest →
    ∃ id',
      (rest.foldl (fun st now => autoSearch now (runTimers now st)) t).pending =
        [(id', rest.getLastD last + 300)] ∧
      (rest.foldl (fun st now => autoSearch now (runTimers now st)) t).searches =
        t.searches := by
  induction rest with
  | nil =>
    intro last id t hp _ _ _ _
    exact ⟨id, hp, rfl⟩
  | cons b rest ih =>
    intro last id t hp hs hid hn hch
    rw [List.chain_cons] at hch
    obtain ⟨p1, p2, p3, p4⟩ := autoSearch_next b last id t hp hs hid hch.1.2
    obtain ⟨id', q1, q2⟩ := ih b t.nextId (autoSearch b (runTimers b t)) p1 p2 hn
      (by rw [p3]; omega) hch.2
    refine ⟨id', ?_, ?_⟩
    · rw [List.foldl_cons, q1]
      cases rest <;> rfl
    · rw [List.foldl_cons, q2, p4]

/-- C17: the debounced search coalesces a burst into one request.  From a
state with no pending timer, for every sequence of one or more calls of
`autoSearch` in which each call comes less than 300 ms after the one before,
`performSearch` is invoked exactly once, 300 ms after the last call, and not
at any time before that.  Three calls within 100 ms give one search, 300 ms
after the third. -/
theorem autoSearch_debounce :
    (∀ (first : Nat) (rest : List Nat) (t : SearchTimer),
      t.pending = [] → t.nextId ≠ 0 →
      List.Chain (fun a b => a ≤ b ∧ b < a + 300) first rest →
      (searchBurst (first :: rest) t).searches = t.searches ++ [rest.getLastD first + 300] ∧
      (searchBurst (first :: rest) t).pending = [] ∧
      ∀ now : Nat, now < rest.getLastD first + 300 →
        (runTimers now ((first :: rest).foldl
          (fun st now => autoSearch now (runTimers now st)) t)).searches = t.searches) ∧
    (searchBurst [1000, 1040, 1090] initialTimer).searches = [1390] := by
  refine ⟨?_, by decide⟩
  intro first rest t hp hn hch
  obtain ⟨p1, p2, p3, p4⟩ := autoSearch_first first t hp
  obtain ⟨id', q1, q2⟩ := burst_invariant rest first t.nextId
    (autoSearch first (runTimers first t)) p1 p2 hn (by rw [p3]; omega) hch
  refine ⟨?_, rfl, ?_⟩
  · unfold searchBurst settle
    rw [List.foldl_cons]
    simp only [q1, q2, p4, List.map_cons, List.map_nil]
  · intro now hnow
    rw [List.foldl_cons]
    generalize (rest.foldl (fun st now => autoSearch now (runTimers now st))
      (autoSearch first (runTimers first t))) = fin at q1 q2
    have h2 : ¬ (rest.getLastD first + 300 ≤ now) := by omega
    have hf : List.filter (fun p : Nat × Nat => decide (p.2 ≤ now))
        [(id', rest.getLastD first + 300)] = [] := by
      rw [List.filter_cons_of_neg (by simpa using h2)]
      rfl
    show fin.searches ++ (fin.pending.filter (fun p => decide (p.2 ≤ now))).map (fun p => p.2) =
      t.searches
    rw [q1, q2, p4, hf]
    simp

/-- Witness of C17: four calls, 120 ms apart, on the page as it starts. -/
theorem autoSearch_debounce_witness :
    initialTimer.pending = [] ∧ initialTimer.nextId ≠ 0 ∧
    List.Chain (fun a b => a ≤ b ∧ b < a + 300) 0 [120, 240, 360] ∧
    (searchBurst (0 :: [120, 240, 360]) initialTimer).searches =
      initialTimer.searches ++ [[120, 240, 360].getLastD 0 + 300] ∧
    (searchBurst (0 :: [120, 240, 360]) initialTimer).pending = [] ∧
    ∀ now : Nat, now < [120, 240, 360].getLastD 0 + 300 →
      (runTimers now ((0 :: [120, 240, 360]).foldl
        (fun st now => autoSearch now (runTimers now st)) initialTimer)).searches =
        initialTimer.searches :=
  ⟨rfl, by decide, by simp,
    autoSearch_debounce.1 0 [120, 240, 360] initialTimer rfl (by decide) (by simp)⟩

/-! ## The bulk submit -/

theorem split_key {name father : Str} (hn : '_' ∉ name) (hf : '_' ∉ father) :
    split '_' (name ++ '_' :: father) = [name, father] := by
  rw [split_append_sep, split_of_not_mem hn, split_of_not_mem hf]
  rfl

theorem filter_length_eq_zero {γ : Type} (P : γ → Bool) (l : List γ)
    (h : ∀ c ∈ l, P c = false) : (l.filter P).length = 0 := by
  rw [List.length_eq_zero, List.filter_eq_nil_iff]
  intro c hc
  simp [h c hc]

theorem filter_map_length_eq_one {β γ : Type} (g : β → γ) (P : γ → Bool) (b : β)
    (hP : ∀ b', P (g b') = true ↔ b' = b) :
    ∀ l : List β, l.Nodup → b ∈ l → ((l.map g).filter P).length = 1 := by
  intro l
  induction l with
  | nil => intro _ hb; simp at hb
  | cons x xs ih =>
    intro hnd hb
    rw [List.nodup_cons] at hnd
    by_cases hx : x = b
    · subst hx
      have h0 : ((xs.map g).filter P).length = 0 := by
        apply filter_length_eq_zero
        intro c hc
        rcases List.mem_map.1 hc with ⟨y, hy, rfl⟩
        cases hPy : P (g y) with
        | false => rfl
        | true =>
          have := (hP y).1 hPy
          subst this
          exact absurd hy hnd.1
      rw [List.map_cons, List.filter_cons_of_pos ((hP x).2 rfl), List.length_cons, h0]
    · have hb' : b ∈ xs := by
        rcases List.mem_cons.1 hb with h | h
        · exact absurd h.symm hx
        · exact h
      have hneg : ¬ (P (g x) = true) := fun h => hx ((hP x).1 h)
      rw [List.map_cons, List.filter_cons_of_neg hneg]
      exact ih hnd.2 hb'

theorem filter_product_length_eq_one {α β γ : Type} (f : α → β → γ) (P : γ → Bool)
    (a : α) (b : β) (hP : ∀ a' b', P (f a' b') = true ↔ a' = a ∧ b' = b)
    (l2 : List β) (h2 : l2.Nodup) (hb : b ∈ l2) :
    ∀ l1 : List α, l1.Nodup → a ∈ l1 →
      ((l1.flatMap (fun a' => l2.map (f a'))).filter P).length = 1 := by
  intro l1
  induction l1 with
  | nil => intro _ ha; simp at ha
  | cons x xs ih =>
    intro hnd ha
    rw [List.nodup_cons] at hnd
    rw [List.flatMap_cons, List.filter_append, List.length_append]
    by_cases hx : x = a
    · subst hx
      have h1 : ((l2.map (f x)).filter P).length = 1 :=
        filter_map_length_eq_one (f x) P b (fun b' => by simp [hP x b']) l2 h2 hb
      have h0 : ((xs.flatMap (fun a' => l2.map (f a'))).filter P).length = 0 := by
        apply filter_length_eq_zero
        intro c hc
        rcases List.mem_flatMap.1 hc with ⟨y, hy, hc'⟩
        rcases List.mem_map.1 hc' with ⟨z, _, rfl⟩
        cases hPy : P (f y z) with
        | false => rfl
        | true =>
          have := ((hP y z).1 hPy).1
          subst this
          exact absurd hy hnd.1
      rw [h1, h0]
    · have ha' : a ∈ xs := by
        rcases List.mem_cons.1 ha with h | h
        · exact absurd h.symm hx
        · exact h
      have h0 : ((l2.map (f x)).filter P).length = 0 := by
        apply filter_length_eq_zero
        intro c hc
        rcases List.mem_map.1 hc with ⟨z, _, rfl⟩
        cases hPy : P (f x z) with
        | false => rfl
        | true => exact absurd ((hP x z).1 hPy).1 hx
      rw [h0, ih hnd.2 ha']

theorem length_flatMap_map {α β γ : Type} (f : α → β → γ) (l2 : List β) :
    ∀ l1 : List α, (l1.flatMap (fun a' => l2.map (f a'))).length = l1.length * l2.length := by
  intro l1
  induction l1 with
  | nil => simp
  | cons x xs ih =>
    rw [List.flatMap_cons, List.length_append, ih, List.length_map, List.length_cons]
    ring

/-- The records of `submitBulkSelection` when the keys are those of the
pairs `students`, no name and no father holding an underscore. -/
theorem bulkRecords_of_pairs (students : List (Str × Str)) (months : List Str)
    (unique : List UniqueStudent) (feeStatus : Str)
    (hu : ∀ p ∈ students, '_' ∉ p.1 ∧ '_' ∉ p.2) :
    bulkRecords (students.map (fun p => p.1 ++ '_' :: p.2)) months unique feeStatus =
      students.flatMap (fun p => months.map (fun month =>
        ({ studentId := some (strOr
              ((unique.find? (fun u => decide (u.name = p.1 ∧ u.father = p.2))).bind
                (fun u => u.studentId)) [])
           studentName := some p.1
           fatherName := some p.2
           mobileNumber := some (strOr
              ((unique.find? (fun u => decide (u.name = p.1 ∧ u.father = p.2))).bind
                (fun u => u.mobile)) [])
           month := some month
           feeStatus := some feeStatus
           receiptNumber := some [] } : FeeRecord))) := by
  induction students with
  | nil => rfl
  | cons p ps ih =>
    have hp := hu p (List.mem_cons_self _ _)
    have hps := ih (fun q hq => hu q (List.mem_cons_of_mem _ hq))
    unfold bulkRecords at hps ⊢
    rw [List.map_cons, List.flatMap_cons, List.flatMap_cons, hps]
    congr 1
    simp only [split_key hp.1 hp.2]
    have hpred : (fun u : UniqueStudent =>
          (some u.name == ([p.1, p.2] : List Str)[0]?) &&
            (some u.father == ([p.1, p.2] : List Str)[1]?)) =
        (fun u => decide (u.name = p.1 ∧ u.father = p.2)) := by
      funext u
      simp only [List.getElem?_cons_zero, List.getElem?_cons_succ, Option.some.injEq,
        beq_eq_decide, Bool.decide_and]
    rw [hpred]
    rfl

theorem submitBulkSelection_head (feeStatus : Str) (response : Fetched Body) (s : State)
    (unique : List UniqueStudent) (hm : s.selectedBulkMonths ≠ [])
    (hs : s.selectedStudentsSet ≠ []) (hu : s.allUniqueStudents = some unique) :
    (submitBulkSelection feeStatus response s).2.head? =
      some (Effect.post "/api/bulk-add".toList
        (Payload.records
          (bulkRecords s.selectedStudentsSet s.selectedBulkMonths unique feeStatus))) := by
  have h1 : s.selectedBulkMonths.length ≠ 0 := by simpa using hm
  have h2 : s.selectedStudentsSet.length ≠ 0 := by simpa using hs
  simp only [submitBulkSelection, h1, h2, if_false, hu]
  cases response with
  | failed => rfl
  | json data =>
    dsimp only
    split_ifs <;> rfl

/-- C20: `submitBulkSelection` builds one record for each combination of a
student and a month.  When the student set holds the keys of the distinct
pairs `students` of a name and a father without underscores, the month set
is not empty and `allUniqueStudents` is a list, the first effect is the
`POST` to `/api/bulk-add` of a list of records such that: their number is
the number of students times the number of months; each pair of a student
and a month is in exactly one record; every record carries the chosen fee
status and an empty receipt number; and its `Student ID` and
`Mobile Number` are those of the first entry of `allUniqueStudents` with
that name and father, an absent or empty one read as empty, and are empty
when there is no such entry. -/
theorem submitBulkSelection_records (feeStatus : Str) (response : Fetched Body) (s : State)
    (students : List (Str × Str)) (unique : List UniqueStudent)
    (hset : s.selectedStudentsSet = students.map (fun p => p.1 ++ '_' :: p.2))
    (hne : students ≠ []) (hnd : students.Nodup)
    (hus : ∀ p ∈ students, '_' ∉ p.1 ∧ '_' ∉ p.2)
    (hm : s.selectedBulkMonths ≠ []) (hmd : s.selectedBulkMonths.Nodup)
    (hu : s.allUniqueStudents = some unique) :
    ∃ records : List FeeRecord,
      (submitBulkSelection feeStatus response s).2.head? =
        some (Effect.post "/api/bulk-add".toList (Payload.records records)) ∧
      records.length = students.length * s.selectedBulkMonths.length ∧
      (∀ p ∈ students, ∀ m ∈ s.selectedBulkMonths,
        (records.filter (fun r => decide
          (r.studentName = some p.1 ∧ r.fatherName = some p.2 ∧ r.month = some m))).length =
          1) ∧
      (∀ r ∈ records,
        r.feeStatus = some feeStatus ∧ r.receiptNumber = some [] ∧
        ∃ p ∈ students, ∃ m ∈ s.selectedBulkMonths,
          r.studentName = some p.1 ∧ r.fatherName = some p.2 ∧ r.month = some m ∧
          ((∀ u ∈ unique, ¬ (u.name = p.1 ∧ u.father = p.2)) →
            r.studentId = some [] ∧ r.mobileNumber = some []) ∧
          (∀ u, unique.find? (fun u => decide (u.name = p.1 ∧ u.father = p.2)) = some u →
            r.studentId = some (strOr u.studentId []) ∧
            r.mobileNumber = some (strOr u.mobile []))) := by
  have hsne : s.selectedStudentsSet ≠ [] := by
    rw [hset]
    simpa using hne
  refine ⟨_, submitBulkSelection_head feeStatus response s unique hm hsne hu, ?_, ?_, ?_⟩
  · rw [hset, bulkRecords_of_pairs students _ unique feeStatus hus]
    exact length_flatMap_map _ _ _
  · intro p hp m hmem
    rw [hset, bulkRecords_of_pairs students _ unique feeStatus hus]
    refine filter_product_length_eq_one _ _ p m ?_ _ hmd hmem students hnd hp
    intro a' b'
    simp only [decide_eq_true_eq, Option.some.injEq]
    constructor
    · rintro ⟨h1, h2, h3⟩
      exact ⟨Prod.ext h1 h2, h3⟩
    · rintro ⟨rfl, rfl⟩
      exact ⟨rfl, rfl, rfl⟩
  · intro r hr
    rw [hset, bulkRecords_of_pairs students _ unique feeStatus hus] at hr
    rcases List.mem_flatMap.1 hr with ⟨p, hp, hr'⟩
    rcases List.mem_map.1 hr' with ⟨m, hmem, rfl⟩
    refine ⟨rfl, rfl, p, hp, m, hmem, rfl, rfl, rfl, ?_, ?_⟩
    · intro hnone
      have hfind : unique.find? (fun u => decide (u.name = p.1 ∧ u.father = p.2)) = none := by
        rw [List.find?_eq_none]
        intro u hu'
        simpa using hnone u hu'
      simp only [hfind, Option.bind, strOr, and_self]
    · intro u hfind
      simp only [hfind, Option.bind, and_self]

/-- Witness of C20: two students and two months, one student known to
`allUniqueStudents`. -/
theorem submitBulkSelection_records_witness :
    ∃ records : List FeeRecord,
      (submitBulkSelection "Paid".toList (Fetched.json exampleSuccess)
        exampleBulkState).2.head? =
        some (Effect.post "/api/bulk-add".toList (Payload.records records)) ∧
      records.length =
        [("Asha".toList, "Ravi".toList), ("Bina".toList, "Dev".toList)].length *
          exampleBulkState.selectedBulkMonths.length ∧
      (∀ p ∈ [("Asha".toList, "Ravi".toList), ("Bina".toList, "Dev".toList)],
        ∀ m ∈ exampleBulkState.selectedBulkMonths,
        (records.filter (fun r => decide
          (r.studentName = some p.1 ∧ r.fatherName = some p.2 ∧ r.month = some m))).length =
          1) ∧
      (∀ r ∈ records,
        r.feeStatus = some "Paid".toList ∧ r.receiptNumber = some [] ∧
        ∃ p ∈ [("Asha".toList, "Ravi".toList), ("Bina".toList, "Dev".toList)],
          ∃ m ∈ exampleBulkState.selectedBulkMonths,
          r.studentName = some p.1 ∧ r.fatherName = some p.2 ∧ r.month = some m ∧
          ((∀ u ∈ exampleUnique, ¬ (u.name = p.1 ∧ u.father = p.2)) →
            r.studentId = some [] ∧ r.mobileNumber = some []) ∧
          (∀ u, exampleUnique.find? (fun u => decide (u.name = p.1 ∧ u.father = p.2)) =
              some u →
            r.studentId = some (strOr u.studentId []) ∧
            r.mobileNumber = some (strOr u.mobile []))) :=
  submitBulkSelection_records "Paid".toList (Fetched.json exampleSuccess) exampleBulkState
    [("Asha".toList, "Ravi".toList), ("Bina".toList, "Dev".toList)] exampleUnique
    rfl (by decide) (by decide) (by decide) (by decide) (by decide) rfl

/-! ## Local validation -/

/-- C21: a submit that fails its local validation makes no network call and
changes no state.  `saveProfileEdit` with a name that is empty after
trimming, `addMonthRecord` with no month selected, `submitBulkSelection`
with no month or with no student selected, and `submitNewStudents` with no
month chosen, with blank pasted text, or with pasted text from which
`parsePastedData` returns no record each return the state as it was, cached
list and selection sets included, and their only effect is one toast of
type `error`: no request is sent. -/
theorem failed_validation_sends_nothing :
    (∀ (form : ProfileForm) (response : Fetched Body) (s : State),
      trim form.editProfileName = [] →
      saveProfileEdit form response s =
        (s, [Effect.showToast "Student name is required".toList "error".toList])) ∧
    (∀ (form : AddMonthForm) (response : Fetched Body) (s : State),
      s.selectedAddMonths = [] →
      addMonthRecord form response s =
        (s, [Effect.showToast "Please select at least one month".toList "error".toList])) ∧
    (∀ (feeStatus : Str) (response : Fetched Body) (s : State),
      s.selectedBulkMonths = [] →
      submitBulkSelection feeStatus response s =
        (s, [Effect.showToast "Please select at least one month".toList "error".toList])) ∧
    (∀ (feeStatus : Str) (response : Fetched Body) (s : State),
      s.selectedBulkMonths ≠ [] → s.selectedStudentsSet = [] →
      submitBulkSelection feeStatus response s =
        (s, [Effect.showToast "Please select at least one student".toList
          "error".toList])) ∧
    (∀ (status pasteData : Str) (response : Fetched Body) (s : State),
      submitNewStudents [] status pasteData response s =
        (s, [Effect.showToast "Please select a month".toList "error".toList])) ∧
    (∀ (month status pasteData : Str) (response : Fetched Body) (s : State),
      month ≠ [] → trim pasteData = [] →
      submitNewStudents month status pasteData response s =
        (s, [Effect.showToast "Please paste student data".toList "error".toList])) ∧
    (∀ (month status pasteData : Str) (response : Fetched Body) (s : State),
      month ≠ [] → trim pasteData ≠ [] → parsePastedData (trim pasteData) = [] →
      submitNewStudents month status pasteData response s =
        (s, [Effect.showToast
          "No valid student data found. Make sure each line has Name and Father Name.".toList
          "error".toList])) := by
  have htr : ∀ x : Str, x ≠ [] → truthy x = true := by
    intro x hx
    cases x with
    | nil => exact absurd rfl hx
    | cons c cs => rfl
  refine ⟨?_, ?_, ?_, ?_, ?_, ?_, ?_⟩
  · intro form response s h
    simp only [saveProfileEdit, h, truthy, List.isEmpty_nil, Bool.not_true, Bool.not_false,
      if_true]
  · intro form response s h
    simp only [addMonthRecord, h, List.length_nil, if_true]
  · intro feeStatus response s h
    simp only [submitBulkSelection, h, List.length_nil, if_true]
  · intro feeStatus response s hm h
    have h1 : s.selectedBulkMonths.length ≠ 0 := by simpa using hm
    simp only [submitBulkSelection, h1, if_false, h, List.length_nil, if_true]
  · intro status pasteData response s
    simp only [submitNewStudents, truthy, List.isEmpty_nil, Bool.not_true, Bool.not_false,
      if_true]
  · intro month status pasteData response s hm h
    have h2 : truthy (trim pasteData) = false := by
      rw [h]
      rfl
    simp only [submitNewStudents, htr month hm, h2, Bool.not_true, Bool.false_eq_true,
      if_false, Bool.not_false, if_true]
  · intro month status pasteData response s hm hp h
    simp only [submitNewStudents, htr month hm, htr _ hp, Bool.not_true, Bool.false_eq_true,
      if_false, h, List.length_nil, if_true]

/-- Witness of C21: the example state, with the example forms emptied where
the validation looks. -/
theorem failed_validation_sends_nothing_witness :
    saveProfileEdit { exampleProfileForm with editProfileName := "  ".toList }
        (Fetched.json exampleSuccess) exampleState =
      (exampleState, [Effect.showToast "Student name is required".toList "error".toList]) ∧
    addMonthRecord exampleAddMonthForm (Fetched.json exampleSuccess)
        { exampleState with selectedAddMonths := [] } =
      ({ exampleState with selectedAddMonths := [] },
        [Effect.showToast "Please select at least one month".toList "error".toList]) ∧
    submitBulkSelection "Paid".toList (Fetched.json exampleSuccess)
        { exampleState with selectedBulkMonths := [] } =
      ({ exampleState with selectedBulkMonths := [] },
        [Effect.showToast "Please select at least one month".toList "error".toList]) ∧
    submitBulkSelection "Paid".toList (Fetched.json exampleSuccess)
        { exampleState with selectedStudentsSet := [] } =
      ({ exampleState with selectedStudentsSet := [] },
        [Effect.showToast "Please select at least one student".toList "error".toList]) ∧
    submitNewStudents "May 2026".toList "Paid".toList " \n ".toList
        (Fetched.json exampleSuccess) exampleState =
      (exampleState, [Effect.showToast "Please paste student data".toList "error".toList]) ∧
    submitNewStudents "May 2026".toList "Paid".toList "Name,Father\nonly".toList
        (Fetched.json exampleSuccess) exampleState =
      (exampleState, [Effect.showToast
        "No valid student data found. Make sure each line has Name and Father Name.".toList
        "error".toList]) :=
  ⟨failed_validation_sends_nothing.1 _ _ _ (by decide),
    failed_validation_sends_nothing.2.1 _ _ _ rfl,
    failed_validation_sends_nothing.2.2.1 _ _ _ rfl,
    failed_validation_sends_nothing.2.2.2.1 _ _ _ (by decide) rfl,
    failed_validation_sends_nothing.2.2.2.2.2.1 _ _ _ _ _ (by decide) (by decide),
    failed_validation_sends_nothing.2.2.2.2.2.2 _ _ _ _ _ (by decide) (by decide) (by decide)⟩

/-! ## The student key -/

theorem getElem?_split_no_sep {sep : Char} {s p : Str} {i : Nat}
    (h : (split sep s)[i]? = some p) : sep ∉ p :=
  not_mem_of_mem_split (List.getElem?_mem h)

theorem strOr_no_sep {sep : Char} {s : Str} (i : Nat) :
    sep ∉ strOr (split sep s)[i]? [] := by
  unfold strOr
  cases h : (split sep s)[i]? with
  | none => simp
  | some p =>
    dsimp only
    split_ifs
    · exact getElem?_split_no_sep h
    · simp

/-- C22: the composite student key round-trips only without underscores.
For every name and father, the first two pieces of the key
`name + "_" + father` cut at underscores are the name and the father if and
only if neither holds an underscore, and the same holds when a missing or
empty piece is read as empty, as `deleteRecord` does.  Without underscores
`deleteRecord` posts that name and father, `updateSelectedChips` draws them
and `openEditModal` writes them to the form.  The two different pairs
(`a_b`, `c`) and (`a`, `b_c`) have the same key. -/
theorem studentKey_roundtrip :
    (∀ name father : Str,
      ((split '_' (name ++ '_' :: father))[0]? = some name ∧
        (split '_' (name ++ '_' :: father))[1]? = some father) ↔
      ('_' ∉ name ∧ '_' ∉ father)) ∧
    (∀ name father : Str,
      (strOr (split '_' (name ++ '_' :: father))[0]? [] = name ∧
        strOr (split '_' (name ++ '_' :: father))[1]? [] = father) ↔
      ('_' ∉ name ∧ '_' ∉ father)) ∧
    (∀ (name father month : Str) (response : Fetched Body) (s : State),
      '_' ∉ name → '_' ∉ father →
      (deleteRecord (name ++ '_' :: father) month true response s).2.head? =
        some (Effect.post "/api/delete".toList
          (Payload.delete { student_name := name, father_name := father, month := month })) ∧
      (updateSelectedChips
          { s with selectedStudentsSet := [name ++ '_' :: father] }).selectedChips =
        [{ name := some name, father := some father }] ∧
      ∀ (feeStatus receiptNumber : Option Str),
        (openEditModal (name ++ '_' :: father) month name feeStatus
          receiptNumber s).1.editStudentName = name ∧
        (openEditModal (name ++ '_' :: father) month name feeStatus
          receiptNumber s).1.editFatherName = father) ∧
    (("a_b".toList, "c".toList) ≠ ("a".toList, "b_c".toList) ∧
      "a_b".toList ++ '_' :: "c".toList = "a".toList ++ '_' :: "b_c".toList) := by
  have hstr : ∀ x : Str, strOr (some x) [] = x := by
    intro x
    cases x <;> rfl
  refine ⟨?_, ?_, ?_, by decide⟩
  · intro name father
    constructor
    · rintro ⟨h0, h1⟩
      exact ⟨getElem?_split_no_sep h0, getElem?_split_no_sep h1⟩
    · rintro ⟨hn, hf⟩
      rw [split_key hn hf]
      exact ⟨rfl, rfl⟩
  · intro name father
    constructor
    · rintro ⟨h0, h1⟩
      constructor
      · rw [← h0]
        exact strOr_no_sep 0
      · rw [← h1]
        exact strOr_no_sep 1
    · rintro ⟨hn, hf⟩
      rw [split_key hn hf]
      exact ⟨hstr name, hstr father⟩
  · intro name father month response s hn hf
    refine ⟨?_, ?_, ?_⟩
    · unfold deleteRecord
      simp only [split_key hn hf, Bool.not_true, Bool.false_eq_true, if_false]
      rw [show ([name, father] : List Str)[0]? = some name from rfl,
        show ([name, father] : List Str)[1]? = some father from rfl, hstr, hstr]
      cases response with
      | failed => rfl
      | json result =>
        dsimp only
        split_ifs <;> rfl
    · simp only [updateSelectedChips, List.map_cons, List.map_nil, split_key hn hf]
      rfl
    · intro feeStatus receiptNumber
      simp only [openEditModal, split_key hn hf]
      rw [show ([name, father] : List Str)[1]? = some father from rfl, hstr]
      refine ⟨?_, rfl⟩
      rw [show ([name, father] : List Str)[0]? = some name from rfl]
      cases name <;> rfl

/-- Witness of C22: the pair (`Asha`, `Ravi`), which has no underscore. -/
theorem studentKey_roundtrip_witness :
    '_' ∉ "Asha".toList ∧ '_' ∉ "Ravi".toList ∧
    ((deleteRecord ("Asha".toList ++ '_' :: "Ravi".toList) "May 2026".toList true
        (Fetched.json exampleSuccess) exampleState).2.head? =
        some (Effect.post "/api/delete".toList
          (Payload.delete
            { student_name := "Asha".toList, father_name := "Ravi".toList
              month := "May 2026".toList })) ∧
      (updateSelectedChips
          { exampleState with
            selectedStudentsSet := ["Asha".toList ++ '_' :: "Ravi".toList] }).selectedChips =
        [{ name := some "Asha".toList, father := some "Ravi".toList }] ∧
      ∀ (feeStatus receiptNumber : Option Str),
        (openEditModal ("Asha".toList ++ '_' :: "Ravi".toList) "May 2026".toList
          "Asha".toList feeStatus receiptNumber exampleState).1.editStudentName =
          "Asha".toList ∧
        (openEditModal ("Asha".toList ++ '_' :: "Ravi".toList) "May 2026".toList
          "Asha".toList feeStatus receiptNumber exampleState).1.editFatherName =
          "Ravi".toList) :=
  ⟨by decide, by decide,
    studentKey_roundtrip.2.2.1 "Asha".toList "Ravi".toList "May 2026".toList
      (Fetched.json exampleSuccess) exampleState (by decide) (by decide)⟩

/-! ## The records of the pasted table -/

/-- A trimmed string does not start with white space. -/
theorem trim_head_not_whiteSpace (s : Str) (c : Char) (h : (trim s).head? = some c) :
    isWhiteSpace c = false := by
  unfold trim at h
  have hpre : (s.dropWhile isWhiteSpace).rdropWhile isWhiteSpace <+: s.dropWhile isWhiteSpace :=
    List.rdropWhile_prefix _ _
  obtain ⟨t, ht⟩ := hpre
  cases hr : (s.dropWhile isWhiteSpace).rdropWhile isWhiteSpace with
  | nil => rw [hr] at h; simp at h
  | cons x xs =>
    rw [hr] at h ht
    simp only [List.head?_cons, Option.some.injEq] at h
    subst h
    have hne : s.dropWhile isWhiteSpace ≠ [] := by
      rw [← ht]
      simp
    have := List.head_dropWhile_not isWhiteSpace s hne
    simpa [← ht] using this

/-- A trimmed string does not end with white space. -/
theorem trim_getLast_not_whiteSpace (s : Str) (c : Char) (h : (trim s).getLast? = some c) :
    isWhiteSpace c = false := by
  unfold trim at h
  have hne : (s.dropWhile isWhiteSpace).rdropWhile isWhiteSpace ≠ [] := by
    intro h0
    rw [h0] at h
    simp at h
  have := List.rdropWhile_last_not isWhiteSpace (s.dropWhile isWhiteSpace) hne
  rw [List.getLast?_eq_getLast _ hne, Option.some.injEq] at h
  rw [h] at this
  simpa using this

/-- Every part of a line is a trimmed field that is not empty. -/
theorem mem_lineParts {line p : Str} (h : p ∈ lineParts line) :
    p ≠ [] ∧ ∃ field, p = trim field := by
  unfold lineParts at h
  simp only [List.mem_filter, List.mem_map] at h
  obtain ⟨⟨field, _, rfl⟩, ht⟩ := h
  refine ⟨?_, field, rfl⟩
  intro h0
  rw [h0] at ht
  exact absurd ht (by decide)

/-- The record that one line pushes, when it pushes one. -/
theorem mem_parseStep {line : Str} {r : Student} (h : r ∈ parseStep [] line) :
    ∃ rest, lineParts line = r.name :: r.father :: rest := by
  unfold parseStep at h
  dsimp only at h
  split_ifs at h with h1 h2
  · simp at h
  · simp only [List.nil_append, List.mem_singleton] at h
    subst h
    cases hp : lineParts line with
    | nil => rw [hp] at h2; simp at h2
    | cons a as =>
      cases as with
      | nil => rw [hp] at h2; simp at h2
      | cons b bs => exact ⟨bs, rfl⟩
  · simp at h

/-- C23: every record returned by `parsePastedData` has a usable name and
father taken from the first two non-empty fields.  For every text and every
record of the result there is a line of the text whose non-empty trimmed
fields, cut at tabs when the line has one and at commas otherwise, begin
with the name and then the father of the record, whatever follows them; the
name and the father are not empty and neither starts nor ends with white
space.  The line `John,,Doe` yields the name `John` and the father `Doe`,
and the line `A,B,C` yields the name `A` and the father `B`. -/
theorem parsePastedData_records :
    (∀ (data : Str) (r : Student), r ∈ parsePastedData data →
      (∃ line ∈ split '\n' data, ∃ rest,
        (((if '\t' ∈ line then split '\t' line else split ',' line).map trim).filter
          (fun p => decide (p ≠ []))) = r.name :: r.father :: rest) ∧
      r.name ≠ [] ∧ r.father ≠ [] ∧
      (∀ c, r.name.head? = some c → isWhiteSpace c = false) ∧
      (∀ c, r.name.getLast? = some c → isWhiteSpace c = false) ∧
      (∀ c, r.father.head? = some c → isWhiteSpace c = false) ∧
      (∀ c, r.father.getLast? = some c → isWhiteSpace c = false)) ∧
    parsePastedData "John,,Doe".toList =
      [{ name := "John".toList, father := "Doe".toList }] ∧
    parsePastedData "A,B,C".toList = [{ name := "A".toList, father := "B".toList }] ∧
    parsePastedData "  Asha \t\t Ravi Kumar \t x".toList =
      [{ name := "Asha".toList, father := "Ravi Kumar".toList }] := by
  refine ⟨?_, by decide, by decide, by decide⟩
  intro data r hr
  rw [parsePastedData_eq_flatMap] at hr
  obtain ⟨line, hline, hr'⟩ := List.mem_flatMap.1 hr
  obtain ⟨rest, hparts⟩ := mem_parseStep hr'
  have hname : r.name ∈ lineParts line := by rw [hparts]; simp
  have hfather : r.father ∈ lineParts line := by rw [hparts]; simp
  obtain ⟨hn1, fn, hn2⟩ := mem_lineParts hname
  obtain ⟨hf1, ff, hf2⟩ := mem_lineParts hfather
  have hfilter : (fun p : Str => decide (p ≠ [])) = truthy := by
    funext p
    cases p <;> rfl
  refine ⟨⟨line, hline, rest, ?_⟩, hn1, hf1, ?_, ?_, ?_, ?_⟩
  · rw [hfilter]
    exact hparts
  · intro c hc
    rw [hn2] at hc
    exact trim_head_not_whiteSpace fn c hc
  · intro c hc
    rw [hn2] at hc
    exact trim_getLast_not_whiteSpace fn c hc
  · intro c hc
    rw [hf2] at hc
    exact trim_head_not_whiteSpace ff c hc
  · intro c hc
    rw [hf2] at hc
    exact trim_getLast_not_whiteSpace ff c hc

/-- Witness of C23: the record of the line `John,,Doe` in a text of two
lines. -/
theorem parsePastedData_records_witness :
    ({ name := "John".toList, father := "Doe".toList } : Student) ∈
      parsePastedData "Name,Father\nJohn,,Doe".toList ∧
    (∃ line ∈ split '\n' "Name,Father\nJohn,,Doe".toList, ∃ rest,
      (((if '\t' ∈ line then split '\t' line else split ',' line).map trim).filter
        (fun p => decide (p ≠ []))) = "John".toList :: "Doe".toList :: rest) ∧
    "John".toList ≠ [] ∧ "Doe".toList ≠ [] ∧
    (∀ c, "John".toList.head? = some c → isWhiteSpace c = false) ∧
    (∀ c, "John".toList.getLast? = some c → isWhiteSpace c = false) ∧
    (∀ c, "Doe".toList.head? = some c → isWhiteSpace c = false) ∧
    (∀ c, "Doe".toList.getLast? = some c → isWhiteSpace c = false) :=
  ⟨by decide,
    parsePastedData_records.1 "Name,Father\nJohn,,Doe".toList
      { name := "John".toList, father := "Doe".toList } (by decide)⟩

end VidyaKunj
